import Mathlib

/-!
# ICAP adaptation handlers of `api/icap.go`

A shallow embedding of the two handlers `ToICAPEGResp` and `ToICAPEGReq`.

* The collaborators that live outside `api/icap.go` (the `utils` helpers, the
  scanner registry of package `service`, the template renderer) are fields of
  the record `Env`; a scanner is a state machine over a state type `σ` whose
  every call answers with a result or an error, the time the call took, and its
  next state.  A call that succeeds hands back a sample, never a nil pointer;
  the getters of a scanner that read its configuration are constants.
* Time is an explicit clock (`World.clock`, nanoseconds as an integer).  A
  scanner call advances the clock by the time it took, `time.Sleep d` advances
  it by exactly `d` when `d` is positive, and the handler's own steps take no
  time.
* Every call the handler makes to the registry, to a scanner, to `io.Copy` and
  to `time.Sleep` is recorded, stamped with the clock reading at which it is
  issued, in the trace of the run.  Logging is left out, except the dump of the
  result sample (`DumpToFile("result", sampleInfo)`, lines 151, 264 and 462),
  which marks the point where a handler holds a verdict sample.
* The polling loop is bounded by a fuel argument counting its passes; a run
  that exhausts the fuel is `none`.
-/

namespace api

/-! ## Data carried by a transaction -/

abbrev Bytes := List UInt8

/-- Record `dtos.FileMetaInfo`; `FileSize` is `float64(buf.Len())`, kept as the
byte count it is converted from. -/
structure FileMetaInfo where
  FileName : String
  FileType : String
  FileSize : Nat
deriving DecidableEq, Repr

/-- Record `dtos.SampleInfo`, with the fields the handlers read. -/
structure SampleInfo where
  FileName : String
  SampleType : String
  FileSizeStr : String
  SampleSeverity : String
  VTIScore : String
  SubmissionFinished : Bool
deriving DecidableEq, Repr

/-- Record `dtos.SubmitResponse`, with the fields the handlers read. -/
structure SubmitResponse where
  SubmissionExists : Bool
  SubmissionID : String
  SubmissionSampleID : String
deriving DecidableEq, Repr

/-- Record `dtos.SubmissionStatusResponse`. -/
structure SubmissionStatusResponse where
  SubmissionFinished : Bool
deriving DecidableEq, Repr

/-- Record `dtos.TemplateData`, as filled by the handlers on the block path. -/
structure TemplateData where
  FileName : String
  FileType : String
  FileSizeStr : String
  RequestedURL : String
  Severity : String
  Score : String
  ResultsBy : String
deriving DecidableEq, Repr

/-- The encapsulated HTTP request: the handlers read its URI and, on the
REQMOD block path, replace its body. -/
structure HTTPRequest where
  RequestURI : String
  Body : Bytes
deriving DecidableEq, Repr

/-- An HTTP response as built by the template renderer. -/
structure HTTPResponse where
  StatusCode : Nat
  Body : Bytes
deriving DecidableEq, Repr

/-- The encapsulated response body as a reader: the chunks it yields, then
either end of stream (`err = none`) or a read error. -/
structure BodyReader where
  chunks : List Bytes
  err : Option String
deriving DecidableEq, Repr

/-- The parsed ICAP request handed to a handler.  `Header` is the header map,
as an association list read by first match. -/
structure ICAPRequest where
  Method : String
  RawURL : String
  Header : List (String × List String)
  Preview : Bytes
  Request : HTTPRequest
  ResponseBody : BodyReader
deriving DecidableEq, Repr

/-- Application configuration `config.App()`, with the fields the handlers read. -/
structure AppConfig where
  RemoteICAP : String
  RespScannerVendor : String
  ReqScannerVendor : String
  ProcessExtensions : List String
  BypassExtensions : List String
  MaxFileSize : Int
  PreviewBytes : String
  PropagateError : Bool
deriving DecidableEq, Repr

/-! ## The world: clock and scanner state -/

/-- The clock (nanoseconds) and the state of the scanner backend. -/
structure World (σ : Type) where
  clock : Int
  st : σ

/-- What a scanner call answers: a result or an error, the time the call took,
and the scanner state after the call. -/
structure Reply (α σ : Type) where
  result : Except String α
  took : Nat
  next : σ

/-- The world after a scanner call answered `r`. -/
def World.after {α σ : Type} (w : World σ) (r : Reply α σ) : World σ :=
  { clock := w.clock + r.took, st := r.next }

/-- Go `time.Sleep d`: returns at once when `d` is zero or negative. -/
def World.sleep {σ : Type} (w : World σ) (d : Int) : World σ :=
  { w with clock := w.clock + max d 0 }

/-- A remote scanner, interface `service.Service` as the handlers use it. -/
structure Service (σ : Type) where
  RespSupported : Bool
  ReqSupported : Bool
  GetOkFileStatus : List String
  GetStatusCheckTimeout : Int
  GetStatusCheckInterval : Int
  StatusEndpointExists : Bool
  SubmitFile : World σ → Bytes → String → Reply SubmitResponse σ
  SubmitURL : World σ → String → String → Reply SubmitResponse σ
  GetSubmissionStatus : World σ → String → Reply SubmissionStatusResponse σ
  GetSampleFileInfo : World σ → String → FileMetaInfo → Reply SampleInfo σ
  GetSampleURLInfo : World σ → String → FileMetaInfo → Reply SampleInfo σ

/-- A local scanner, interface `service.LocalService` as the handler uses it. -/
structure LocalService (σ : Type) where
  RespSupported : Bool
  GetOkFileStatus : List String
  ScanFileStream : World σ → Bytes → FileMetaInfo → Reply SampleInfo σ

/-- Collaborators of the handlers defined outside `api/icap.go`. -/
structure Env (σ : Type) where
  ISTag : String
  RespmodEndpoint : String
  ReqmodEndpoint : String
  GetMimeExtension : Bytes → String
  GetFileName : HTTPRequest → String
  GetFileExtension : HTTPRequest → String
  BreakHTTPURL : String → String
  GetTemplateBufferAndResponse : TemplateData → Bytes × HTTPResponse
  jsonMarshal : TemplateData → Except String Bytes
  IsServiceLocal : String → Bool
  GetLocalService : String → Option (LocalService σ)
  GetService : String → Option (Service σ)

/-! ## Trace of a run -/

/-- The effectful calls a handler makes; `ok` tells whether the call returned
without error. -/
inductive Action where
  | IsServiceLocal (name : String)
  | GetLocalService (name : String)
  | GetService (name : String)
  | Copy (written : Nat) (ok : Bool)
  | ScanFileStream (buf : Bytes) (fmi : FileMetaInfo) (ok : Bool)
  | SubmitFile (buf : Bytes) (filename : String) (ok : Bool)
  | SubmitURL (url : String) (filename : String) (ok : Bool)
  | GetSubmissionStatus (submissionID : String) (ok : Bool)
  | GetSampleFileInfo (sampleID : String) (fmi : FileMetaInfo) (ok : Bool)
  | GetSampleURLInfo (sampleID : String) (fmi : FileMetaInfo) (ok : Bool)
  | Sleep (d : Int)
  | DumpResult (s : SampleInfo)
deriving DecidableEq, Repr

/-- An action together with the clock reading at which it is issued. -/
structure Event where
  time : Int
  act : Action
deriving DecidableEq, Repr

/-- Calls into a scanner backend: submit, status, sample info, local scan. -/
def Action.isScannerCall : Action → Bool
  | .ScanFileStream _ _ _ => true
  | .SubmitFile _ _ _ => true
  | .SubmitURL _ _ _ => true
  | .GetSubmissionStatus _ _ => true
  | .GetSampleFileInfo _ _ _ => true
  | .GetSampleURLInfo _ _ _ => true
  | _ => false

/-- Scanner calls that returned an error. -/
def Action.isFailedCall : Action → Bool
  | .ScanFileStream _ _ ok => !ok
  | .SubmitFile _ _ ok => !ok
  | .SubmitURL _ _ ok => !ok
  | .GetSubmissionStatus _ ok => !ok
  | .GetSampleFileInfo _ _ ok => !ok
  | .GetSampleURLInfo _ _ ok => !ok
  | _ => false

/-- Resolution of a vendor name in the scanner registry. -/
def Action.isResolution : Action → Bool
  | .IsServiceLocal _ => true
  | .GetLocalService _ => true
  | .GetService _ => true
  | _ => false

/-- Status polls. -/
def Action.isStatusCall : Action → Bool
  | .GetSubmissionStatus _ _ => true
  | _ => false

/-- Sample-info fetches. -/
def Action.isSampleInfoCall : Action → Bool
  | .GetSampleFileInfo _ _ _ => true
  | .GetSampleURLInfo _ _ _ => true
  | _ => false

/-! ## What a handler answers -/

/-- The ICAP response written by `w.WriteHeader(code, httpMessage, hasBody)`
followed, on the block path, by `w.Write(body)`; `Header` is the response
header map as set through `h.Set`. -/
structure ICAPResponse where
  Header : List (String × String)
  Code : Nat
  HTTPMessage : Option HTTPResponse
  HasBody : Bool
  Body : Bytes
deriving DecidableEq, Repr

/-- How a handler invocation ends. -/
inductive Outcome where
  | Written (resp : ICAPResponse)
  | performRemoteOPTIONS (endpoint : String)
  | performRemoteRESPMOD
  | performRemoteREQMOD
  | ServeLocally (header : List (String × String)) (request : HTTPRequest)
deriving DecidableEq, Repr

/-- A finished handler run. -/
structure Run (σ : Type) where
  outcome : Outcome
  trace : List Event
  world : World σ

/-- A stretch of a handler that either makes the handler return through
`w.WriteHeader(code, nil, false)` (`exit = .error code`) or hands a value to the
code that follows it. -/
structure Stage (α σ : Type) where
  exit : Except Nat α
  trace : List Event
  world : World σ

/-- Run `k` after a stretch that already produced the trace `pre`. -/
def Stage.after {α σ : Type} (pre : List Event) (k : Option (Stage α σ)) : Option (Stage α σ) :=
  k.map fun r => { r with trace := pre ++ r.trace }

/-! ## Helpers of package `utils` and of the Go library -/

/-- Modelled from the spec: `utils.InStringSlice` is not in `api/icap.go`; the
spec reads it as membership of the string in the list. -/
def InStringSlice (data : String) (ss : List String) : Bool :=
  ss.contains data

/-- Modelled from the spec: `utils.Any`, the wildcard token. -/
def Any : String := "*"

/-- Modelled from the spec: `utils.NoModificationStatusCodeStr`, the value of
`Allow` that opts into scanning. -/
def NoModificationStatusCodeStr : String := "204"

/-- Modelled from the spec: `utils.ICAPModeOptions`, the method name. -/
def ICAPModeOptions : String := "OPTIONS"

/-- Modelled from the spec: `utils.ICAPModeResp`, the method name. -/
def ICAPModeResp : String := "RESPMOD"

/-- Modelled from the spec: `utils.ICAPModeReq`, the method name. -/
def ICAPModeReq : String := "REQMOD"

/-- Modelled from the spec: `utils.IfPropagateError` is not in `api/icap.go`;
section 7 of the spec gives the first status when `PropagateError` is set and
the second otherwise. -/
def IfPropagateError (cfg : AppConfig) (thenCode elseCode : Nat) : Nat :=
  if cfg.PropagateError then thenCode else elseCode

/-- Value of a non-empty string of decimal digits; `none` on an empty string
or on any other character. -/
def digitsValue : List Char → Option Nat
  | [] => none
  | c :: cs =>
    (c :: cs).foldl
      (fun acc d => match acc with
        | none => none
        | some n => if d.isDigit then some (n * 10 + (d.toNat - 48)) else none)
      (some 0)

/-- The optional sign in front of a numeral: whether it is `-`, and the rest. -/
def splitSign : List Char → Bool × List Char
  | '-' :: ds => (true, ds)
  | '+' :: ds => (false, ds)
  | ds => (false, ds)

/-- Go `strconv.Atoi` on a 64-bit platform, error dropped (`pb, _ :=`): an
optional sign followed by decimal digits gives the value, clamped to the
`int64` range; any other string gives `0`. -/
def Atoi (s : String) : Int :=
  match digitsValue (splitSign s.data).2 with
  | none => 0
  | some n =>
    if (splitSign s.data).1 then - ((min n (2 ^ 63) : Nat) : Int)
    else ((min n (2 ^ 63 - 1) : Nat) : Int)

/-- Go `strings.ToLower` on ASCII letters, the alphabet of the scanner vendor
names it is applied to (lines 118 and 376); a letter outside ASCII, which Go
lowers as well, is left as it is.  The properties below use it only through
its value, never through how it is computed. -/
def ToLower (s : String) : String :=
  String.mk (s.data.map Char.toLower)

/-- Go `textproto`, `validHeaderFieldByte`: the bytes of an HTTP token, that is
ASCII letters, digits and fifteen punctuation marks, given by their codes. -/
def validHeaderFieldByte (c : Char) : Bool :=
  c.isAlphanum ||
    [33, 35, 36, 37, 38, 39, 42, 43, 45, 46, 94, 95, 96, 124, 126].contains c.toNat

/-- The loop of Go `canonicalMIMEHeaderKey`: the first letter and every letter
after a dash in upper case, every other letter in lower case. -/
def canonicalLetters : Bool → List Char → List Char
  | _, [] => []
  | upper, c :: cs =>
    let c1 :=
      if upper && c.isLower then c.toUpper
      else if !upper && c.isUpper then c.toLower
      else c
    c1 :: canonicalLetters (c1 == '-') cs

/-- Go `textproto.CanonicalMIMEHeaderKey`, the form under which `http.Header`
stores and reads a key: a key made of token bytes is put in canonical letter
case, any other key is left as it is. -/
def CanonicalMIMEHeaderKey (s : String) : String :=
  if s.data.all validHeaderFieldByte then String.mk (canonicalLetters true s.data) else s

/-- Header map update `h.Set(key, value)` of Go `http.Header`: the canonical
form of the key then holds exactly `value`. -/
def hSet (h : List (String × String)) (key value : String) : List (String × String) :=
  (CanonicalMIMEHeaderKey key, value) ::
    h.filter (fun kv => kv.1 != CanonicalMIMEHeaderKey key)

/-- Header map read of Go `http.Header` under the canonical form of the key, as
`h.Get(key)` does; `none` when the key is not set. -/
def hGet (h : List (String × String)) (key : String) : Option String :=
  h.lookup (CanonicalMIMEHeaderKey key)

/-- Go `io.Copy(buf, body)` with the buffer as explicit state: every chunk read
is appended to the buffer, up to the end of the stream or the read error. -/
def ioCopy (buf : Bytes) : List Bytes → Bytes
  | [] => buf
  | chunk :: rest => ioCopy (buf ++ chunk) rest

/-! ## Pieces shared by the two handlers -/

/-- The test of lines 57 and 322 on the `Allow` header:
`!exist || (len(val) > 0 && val[0] != utils.NoModificationStatusCodeStr)`. -/
def allowScreen (header : List (String × List String)) : Bool :=
  match header.lookup "Allow" with
  | none => true
  | some [] => false
  | some (v :: _) => v != NoModificationStatusCodeStr

/-- The first if-block of the gate, lines 85-92 and 351-358: `true` when it
emits 204. -/
def notProcessable (ct : String) (processExts bypassExts : List String) : Bool :=
  if !(InStringSlice Any processExts && !InStringSlice ct bypassExts) then
    if !InStringSlice ct processExts then true else false
  else
    false

/-- The second if-block of the gate, lines 94-100 and 360-366: `true` when it
emits 204. -/
def unprocessable (ct : String) (processExts bypassExts : List String) : Bool :=
  if (InStringSlice Any bypassExts && !InStringSlice ct processExts)
      || InStringSlice ct bypassExts then
    true
  else
    false

/-- The two consecutive if-blocks of lines 85-100 (RESPMOD) and 351-366
(REQMOD), the same text in both handlers: `true` when one of them emits 204. -/
def extensionGate (ct : String) (processExts bypassExts : List String) : Bool :=
  if notProcessable ct processExts bypassExts then true
  else if unprocessable ct processExts bypassExts then true
  else false

/-- `w.WriteHeader(code, nil, false)` on the header map `h`. -/
def writeHeader (h : List (String × String)) (code : Nat) : Outcome :=
  .Written { Header := h, Code := code, HTTPMessage := none, HasBody := false, Body := [] }

/-- The template data filled at lines 155-163, 268-276 and 466-474. -/
def templateData {σ : Type} (env : Env σ) (req : ICAPRequest) (scannerName : String)
    (sampleInfo : SampleInfo) : TemplateData :=
  { FileName := sampleInfo.FileName
    FileType := sampleInfo.SampleType
    FileSizeStr := sampleInfo.FileSizeStr
    RequestedURL := env.BreakHTTPURL req.Request.RequestURI
    Severity := sampleInfo.SampleSeverity
    Score := sampleInfo.VTIScore
    ResultsBy := scannerName }

/-- The block response of RESPMOD (lines 155-165 and 268-278):
`w.WriteHeader(http.StatusOK, newResp, true)` then `w.Write(htmlBuf.Bytes())`. -/
def blockPage {σ : Type} (env : Env σ) (req : ICAPRequest) (h : List (String × String))
    (scannerName : String) (sampleInfo : SampleInfo) : Outcome :=
  let rendered := env.GetTemplateBufferAndResponse (templateData env req scannerName sampleInfo)
  .Written { Header := h, Code := 200, HTTPMessage := some rendered.2, HasBody := true,
             Body := rendered.1 }

/-! ## Submit and poll (lines 195-264 of RESPMOD, 393-462 of REQMOD)

The two handlers hold the same text here, up to the submit call
(`SubmitFile` / `SubmitURL`) and the sample-info call (`GetSampleFileInfo` /
`GetSampleURLInfo`); `Target` tells which of the two is meant. -/

/-- What a handler submits: the buffered file (RESPMOD) or the URL (REQMOD). -/
inductive Target where
  | File (buf : Bytes) (filename : String)
  | URL (fileURL : String) (filename : String)
deriving DecidableEq, Repr

/-- The submit call: `svc.SubmitFile(buf, filename)` in RESPMOD,
`svc.SubmitURL(fileURL, filename)` in REQMOD. -/
def submitCall {σ : Type} (svc : Service σ) : Target → World σ → Reply SubmitResponse σ
  | .File buf filename, w => svc.SubmitFile w buf filename
  | .URL fileURL filename, w => svc.SubmitURL w fileURL filename

/-- How the submit call is recorded. -/
def submitAct : Target → Bool → Action
  | .File buf filename, ok => .SubmitFile buf filename ok
  | .URL fileURL filename, ok => .SubmitURL fileURL filename ok

/-- The sample-info call: `svc.GetSampleFileInfo` in RESPMOD,
`svc.GetSampleURLInfo` in REQMOD. -/
def infoCall {σ : Type} (svc : Service σ) :
    Target → World σ → String → FileMetaInfo → Reply SampleInfo σ
  | .File _ _ => svc.GetSampleFileInfo
  | .URL _ _ => svc.GetSampleURLInfo

/-- How the sample-info call is recorded. -/
def infoAct : Target → String → FileMetaInfo → Bool → Action
  | .File _ _ => .GetSampleFileInfo
  | .URL _ _ => .GetSampleURLInfo

/-- End of the loop body, lines 243-245 and 441-443: sleep one interval unless
the submission is finished. -/
def sleepUnlessFinished {σ : Type} (svc : Service σ) (submissionFinished : Bool)
    (sampleInfo : Option SampleInfo) (pre : List Event) (w : World σ) :
    Stage (Bool × Option SampleInfo) σ :=
  if !submissionFinished then
    { exit := .ok (submissionFinished, sampleInfo)
      trace := pre ++ [⟨w.clock, .Sleep svc.GetStatusCheckInterval⟩]
      world := w.sleep svc.GetStatusCheckInterval }
  else
    { exit := .ok (submissionFinished, sampleInfo), trace := pre, world := w }

/-- One pass through the loop body, lines 216-245 and 414-443.  The value handed
on is the pair of the loop variables `submissionFinished` and `sampleInfo`. -/
def pollBody {σ : Type} (cfg : AppConfig) (svc : Service σ) (tg : Target)
    (submitResp : SubmitResponse) (fmi : FileMetaInfo) (sampleInfo : Option SampleInfo)
    (w : World σ) : Stage (Bool × Option SampleInfo) σ :=
  let submissionID := submitResp.SubmissionID
  let sampleID := submitResp.SubmissionSampleID
  if svc.StatusEndpointExists then
    let r := svc.GetSubmissionStatus w submissionID
    match r.result with
    | .error _ =>
      { exit := .error (IfPropagateError cfg 424 204)
        trace := [⟨w.clock, .GetSubmissionStatus submissionID false⟩]
        world := w.after r }
    | .ok submissionStatus =>
      sleepUnlessFinished svc submissionStatus.SubmissionFinished sampleInfo
        [⟨w.clock, .GetSubmissionStatus submissionID true⟩] (w.after r)
  else
    let r := infoCall svc tg w sampleID fmi
    match r.result with
    | .error _ =>
      { exit := .error (IfPropagateError cfg 424 204)
        trace := [⟨w.clock, infoAct tg sampleID fmi false⟩]
        world := w.after r }
    | .ok info =>
      sleepUnlessFinished svc info.SubmissionFinished (some info)
        [⟨w.clock, infoAct tg sampleID fmi true⟩] (w.after r)

/-- The polling loop, lines 215-246 and 413-444:
`for !submissionFinished && time.Now().Before(statusCheckFinishTime)`.
The first argument bounds the number of passes. -/
def pollLoop {σ : Type} (cfg : AppConfig) (svc : Service σ) (tg : Target)
    (submitResp : SubmitResponse) (fmi : FileMetaInfo) (statusCheckFinishTime : Int) :
    Nat → Bool → Option SampleInfo → World σ → Option (Stage (Bool × Option SampleInfo) σ)
  | 0, submissionFinished, sampleInfo, w =>
    if !submissionFinished && decide (w.clock < statusCheckFinishTime) then none
    else some { exit := .ok (submissionFinished, sampleInfo), trace := [], world := w }
  | fuel + 1, submissionFinished, sampleInfo, w =>
    if !submissionFinished && decide (w.clock < statusCheckFinishTime) then
      let b := pollBody cfg svc tg submitResp fmi sampleInfo w
      match b.exit with
      | .error _ => some b
      | .ok (submissionFinished, sampleInfo) =>
        Stage.after b.trace
          (pollLoop cfg svc tg submitResp fmi statusCheckFinishTime fuel submissionFinished
            sampleInfo b.world)
    else some { exit := .ok (submissionFinished, sampleInfo), trace := [], world := w }

/-- After the loop, lines 248-264 and 446-462: give up when the submission is
not finished, reuse the sample retained by the loop or fetch it once, then
dump the result. -/
def finalize {σ : Type} (cfg : AppConfig) (svc : Service σ) (tg : Target)
    (submitResp : SubmitResponse) (fmi : FileMetaInfo) (submissionFinished : Bool)
    (sampleInfo : Option SampleInfo) (w : World σ) : Stage SampleInfo σ :=
  if !submissionFinished then
    { exit := .error 204, trace := [], world := w }
  else
    match sampleInfo with
    | some info =>
      { exit := .ok info, trace := [⟨w.clock, .DumpResult info⟩], world := w }
    | none =>
      let r := infoCall svc tg w submitResp.SubmissionSampleID fmi
      match r.result with
      | .error _ =>
        { exit := .error (IfPropagateError cfg 424 204)
          trace := [⟨w.clock, infoAct tg submitResp.SubmissionSampleID fmi false⟩]
          world := w.after r }
      | .ok info =>
        { exit := .ok info
          trace := [⟨w.clock, infoAct tg submitResp.SubmissionSampleID fmi true⟩,
                    ⟨(w.after r).clock, .DumpResult info⟩]
          world := w.after r }

/-- Submit, poll and finalize, lines 195-264 and 393-462. -/
def submitAndPoll {σ : Type} (fuel : Nat) (cfg : AppConfig) (svc : Service σ) (tg : Target)
    (fmi : FileMetaInfo) (w : World σ) : Option (Stage SampleInfo σ) :=
  let r := submitCall svc tg w
  match r.result with
  | .error _ =>
    some { exit := .error (IfPropagateError cfg 424 204)
           trace := [⟨w.clock, submitAct tg false⟩], world := w.after r }
  | .ok submitResp =>
    let w1 := w.after r
    if !submitResp.SubmissionExists then
      some { exit := .error 204, trace := [⟨w.clock, submitAct tg true⟩], world := w1 }
    else
      let statusCheckFinishTime := w1.clock + svc.GetStatusCheckTimeout
      match pollLoop cfg svc tg submitResp fmi statusCheckFinishTime fuel false none w1 with
      | none => none
      | some l =>
        match l.exit with
        | .error code =>
          some { exit := .error code, trace := ⟨w.clock, submitAct tg true⟩ :: l.trace,
                 world := l.world }
        | .ok (submissionFinished, sampleInfo) =>
          let f := finalize cfg svc tg submitResp fmi submissionFinished sampleInfo l.world
          some { f with trace := ⟨w.clock, submitAct tg true⟩ :: (l.trace ++ f.trace) }

/-! ## The RESPMOD handler -/

/-- Put the events `pre`, already produced, in front of the trace of a run. -/
def Run.after {σ : Type} (pre : List Event) (k : Option (Run σ)) : Option (Run σ) :=
  k.map fun r => { r with trace := pre ++ r.trace }

/-- Lines 153-167 and 266-285: the verdict on the sample against the statuses
the scanner holds for ok. -/
def respVerdict {σ : Type} (env : Env σ) (req : ICAPRequest) (h : List (String × String))
    (scannerName : String) (okFileStatus : List String) (sampleInfo : SampleInfo) : Outcome :=
  if !InStringSlice sampleInfo.SampleSeverity okFileStatus then
    blockPage env req h scannerName sampleInfo
  else
    writeHeader h 204

/-- Lines 118-285 of `ToICAPEGResp`: file meta information, scanner resolution,
local scan or remote submit and poll, verdict. -/
def respScan {σ : Type} (fuel : Nat) (cfg : AppConfig) (env : Env σ) (req : ICAPRequest)
    (h : List (String × String)) (scannerName : String) (buf : Bytes) (w : World σ) :
    Option (Run σ) :=
  let filename := env.GetFileName req.Request
  let fileExt := env.GetFileExtension req.Request
  let fmi : FileMetaInfo := { FileName := filename, FileType := fileExt, FileSize := buf.length }
  let e0 : Event := ⟨w.clock, .IsServiceLocal scannerName⟩
  if env.IsServiceLocal scannerName then
    let e1 : Event := ⟨w.clock, .GetLocalService scannerName⟩
    match env.GetLocalService scannerName with
    | none =>
      some { outcome := writeHeader h (IfPropagateError cfg 400 204), trace := [e0, e1], world := w }
    | some lsvc =>
      if !lsvc.RespSupported then
        some { outcome := writeHeader h (IfPropagateError cfg 400 204), trace := [e0, e1],
               world := w }
      else
        let r := lsvc.ScanFileStream w buf fmi
        match r.result with
        | .error _ =>
          some { outcome := writeHeader h (IfPropagateError cfg 424 204)
                 trace := [e0, e1, ⟨w.clock, .ScanFileStream buf fmi false⟩]
                 world := w.after r }
        | .ok sampleInfo =>
          some { outcome := respVerdict env req h scannerName lsvc.GetOkFileStatus sampleInfo
                 trace := [e0, e1, ⟨w.clock, .ScanFileStream buf fmi true⟩,
                           ⟨(w.after r).clock, .DumpResult sampleInfo⟩]
                 world := w.after r }
  else
    let e1 : Event := ⟨w.clock, .GetService scannerName⟩
    match env.GetService scannerName with
    | none =>
      some { outcome := writeHeader h (IfPropagateError cfg 400 204), trace := [e0, e1], world := w }
    | some svc =>
      if !svc.RespSupported then
        some { outcome := writeHeader h (IfPropagateError cfg 400 204), trace := [e0, e1],
               world := w }
      else
        match submitAndPoll fuel cfg svc (.File buf filename) fmi w with
        | none => none
        | some st =>
          match st.exit with
          | .error code =>
            some { outcome := writeHeader h code, trace := e0 :: e1 :: st.trace, world := st.world }
          | .ok sampleInfo =>
            some { outcome := respVerdict env req h scannerName svc.GetOkFileStatus sampleInfo
                   trace := e0 :: e1 :: st.trace, world := st.world }

/-- Lines 104-116 of `ToICAPEGResp`, then the scan: the body is copied to the
buffer, a failed copy and a buffer longer than `MaxFileSize` are answered 204. -/
def respBody {σ : Type} (fuel : Nat) (cfg : AppConfig) (env : Env σ) (req : ICAPRequest)
    (h : List (String × String)) (scannerName : String) (w : World σ) : Option (Run σ) :=
  let buf := ioCopy [] req.ResponseBody.chunks
  match req.ResponseBody.err with
  | some _ =>
    some { outcome := writeHeader h 204, trace := [⟨w.clock, .Copy buf.length false⟩], world := w }
  | none =>
    if (buf.length : Int) > cfg.MaxFileSize then
      some { outcome := writeHeader h 204, trace := [⟨w.clock, .Copy buf.length true⟩], world := w }
    else
      Run.after [⟨w.clock, .Copy buf.length true⟩] (respScan fuel cfg env req h scannerName buf w)

/-- Lines 80-100 of `ToICAPEGResp`, then the body: the content type sniffed from
the preview goes through the extension gate. -/
def respGate {σ : Type} (fuel : Nat) (cfg : AppConfig) (env : Env σ) (req : ICAPRequest)
    (h : List (String × String)) (scannerName : String) (w : World σ) : Option (Run σ) :=
  let ct := env.GetMimeExtension req.Preview
  if extensionGate ct cfg.ProcessExtensions cfg.BypassExtensions then
    some { outcome := writeHeader h 204, trace := [], world := w }
  else
    respBody fuel cfg env req h scannerName w

/-- Case `utils.ICAPModeResp` of `ToICAPEGResp`, lines 53-285. -/
def respmod {σ : Type} (fuel : Nat) (cfg : AppConfig) (env : Env σ) (req : ICAPRequest)
    (h : List (String × String)) (w : World σ) : Option (Run σ) :=
  if allowScreen req.Header then
    some { outcome := writeHeader h 204, trace := [], world := w }
  else if cfg.RemoteICAP ≠ "" then
    some { outcome := .performRemoteRESPMOD, trace := [], world := w }
  else
    let scannerName := ToLower cfg.RespScannerVendor
    if scannerName = "" then
      some { outcome := writeHeader h 204, trace := [], world := w }
    else
      respGate fuel cfg env req h scannerName w

/-- The headers every answer carries, lines 29-31 and 298-300. -/
def baseHeader {σ : Type} (env : Env σ) : List (String × String) :=
  hSet (hSet [] "ISTag" env.ISTag) "Service" "Egirna ICAP-EG"

/-- Function `ToICAPEGResp`, the ICAP response mode handler. -/
def ToICAPEGResp {σ : Type} (fuel : Nat) (cfg : AppConfig) (env : Env σ) (w : World σ)
    (req : ICAPRequest) : Option (Run σ) :=
  let h := baseHeader env
  if req.Method = ICAPModeOptions then
    if cfg.RemoteICAP ≠ "" then
      some { outcome := .performRemoteOPTIONS env.RespmodEndpoint, trace := [], world := w }
    else
      let h := hSet h "Methods" ICAPModeResp
      let h := hSet h "Allow" "204"
      let h := if Atoi cfg.PreviewBytes > 0 then hSet h "Preview" cfg.PreviewBytes else h
      let h := hSet h "Transfer-Preview" Any
      some { outcome := writeHeader h 200, trace := [], world := w }
  else if req.Method = ICAPModeResp then
    respmod fuel cfg env req h w
  else if req.Method = "ERRDUMMY" then
    some { outcome := writeHeader h 400, trace := [], world := w }
  else
    some { outcome := writeHeader h 405, trace := [], world := w }

/-! ## The REQMOD handler -/

/-- Lines 464-492 of `ToICAPEGReq`: the verdict; on the block path the template
data is serialized into the body of the encapsulated request and the ICAP
library serves it locally. -/
def reqVerdict {σ : Type} (cfg : AppConfig) (env : Env σ) (req : ICAPRequest)
    (h : List (String × String)) (scannerName : String) (okFileStatus : List String)
    (sampleInfo : SampleInfo) : Outcome :=
  if !InStringSlice sampleInfo.SampleSeverity okFileStatus then
    match env.jsonMarshal (templateData env req scannerName sampleInfo) with
    | .error _ => writeHeader h (IfPropagateError cfg 500 204)
    | .ok dataByte => .ServeLocally h { req.Request with Body := dataByte }
  else
    writeHeader h 204

/-- Lines 368-492 of `ToICAPEGReq`: file meta information, scanner resolution,
submit and poll, verdict. -/
def reqScan {σ : Type} (fuel : Nat) (cfg : AppConfig) (env : Env σ) (req : ICAPRequest)
    (h : List (String × String)) (scannerName : String) (w : World σ) : Option (Run σ) :=
  let fileURL := req.Request.RequestURI
  let filename := env.GetFileName req.Request
  let fileExt := env.GetFileExtension req.Request
  let fmi : FileMetaInfo := { FileName := filename, FileType := fileExt, FileSize := 0 }
  let e0 : Event := ⟨w.clock, .GetService scannerName⟩
  match env.GetService scannerName with
  | none =>
    some { outcome := writeHeader h (IfPropagateError cfg 400 204), trace := [e0], world := w }
  | some svc =>
    if !svc.ReqSupported then
      some { outcome := writeHeader h (IfPropagateError cfg 400 204), trace := [e0], world := w }
    else
      match submitAndPoll fuel cfg svc (.URL fileURL filename) fmi w with
      | none => none
      | some st =>
        match st.exit with
        | .error code =>
          some { outcome := writeHeader h code, trace := e0 :: st.trace, world := st.world }
        | .ok sampleInfo =>
          some { outcome := reqVerdict cfg env req h scannerName svc.GetOkFileStatus sampleInfo
                 trace := e0 :: st.trace, world := st.world }

/-- Lines 342-366 of `ToICAPEGReq`, then the scan: the extension of the URL,
`html` when there is none, goes through the extension gate. -/
def reqGate {σ : Type} (fuel : Nat) (cfg : AppConfig) (env : Env σ) (req : ICAPRequest)
    (h : List (String × String)) (scannerName : String) (w : World σ) : Option (Run σ) :=
  let ext := env.GetFileExtension req.Request
  let ext := if ext = "" then "html" else ext
  if extensionGate ext cfg.ProcessExtensions cfg.BypassExtensions then
    some { outcome := writeHeader h 204, trace := [], world := w }
  else
    reqScan fuel cfg env req h scannerName w

/-- Case `utils.ICAPModeReq` of `ToICAPEGReq`, lines 320-492. -/
def reqmod {σ : Type} (fuel : Nat) (cfg : AppConfig) (env : Env σ) (req : ICAPRequest)
    (h : List (String × String)) (w : World σ) : Option (Run σ) :=
  if allowScreen req.Header then
    some { outcome := writeHeader h 204, trace := [], world := w }
  else if cfg.RemoteICAP ≠ "" then
    some { outcome := .performRemoteREQMOD, trace := [], world := w }
  else
    let scannerName := ToLower cfg.ReqScannerVendor
    if scannerName = "" then
      some { outcome := writeHeader h 204, trace := [], world := w }
    else
      reqGate fuel cfg env req h scannerName w

/-- Function `ToICAPEGReq`, the ICAP request mode handler. -/
def ToICAPEGReq {σ : Type} (fuel : Nat) (cfg : AppConfig) (env : Env σ) (w : World σ)
    (req : ICAPRequest) : Option (Run σ) :=
  let h := baseHeader env
  if req.Method = ICAPModeOptions then
    if cfg.RemoteICAP ≠ "" then
      some { outcome := .performRemoteOPTIONS env.ReqmodEndpoint, trace := [], world := w }
    else
      let h := hSet h "Methods" ICAPModeReq
      let h := hSet h "Allow" "204"
      let h := hSet h "Preview" "0"
      let h := hSet h "Transfer-Preview" Any
      some { outcome := writeHeader h 200, trace := [], world := w }
  else if req.Method = ICAPModeReq then
    reqmod fuel cfg env req h w
  else if req.Method = "ERRDUMMY" then
    some { outcome := writeHeader h 400, trace := [], world := w }
  else
    some { outcome := writeHeader h 405, trace := [], world := w }

/-! ## The extension gate against the rules of the spec -/

/-- The ordered rules of section 4.2 of the spec, `true` for bypass:
1. `processExts` does not contain `*` and the extension is not in `processExts`;
2. `bypassExts` contains `*` and the extension is not in `processExts`;
3. the extension is in `bypassExts`;
4. otherwise process. -/
def gateRules (ext : String) (processExts bypassExts : List String) : Bool :=
  if "*" ∉ processExts ∧ ext ∉ processExts then true
  else if "*" ∈ bypassExts ∧ ext ∉ processExts then true
  else if ext ∈ bypassExts then true
  else false

/-! ## The scanner a handler resolves -/

/-- The statuses held for ok by the scanner `ToICAPEGResp` resolves for a
vendor name: the local one when the name is local, else the remote one. -/
def respOkFileStatus {σ : Type} (env : Env σ) (scannerName : String) : List String :=
  if env.IsServiceLocal scannerName then
    match env.GetLocalService scannerName with
    | some lsvc => lsvc.GetOkFileStatus
    | none => []
  else
    match env.GetService scannerName with
    | some svc => svc.GetOkFileStatus
    | none => []

/-- The statuses held for ok by the scanner `ToICAPEGReq` resolves for a
vendor name. -/
def reqOkFileStatus {σ : Type} (env : Env σ) (scannerName : String) : List String :=
  match env.GetService scannerName with
  | some svc => svc.GetOkFileStatus
  | none => []

/-! ## What the calls of a trace carry -/

/-- Whether an action that carries a byte count, a body buffer or file meta
information carries the length of `buf`, `buf` itself and `fmi`; actions that
carry none of them pass. -/
def Action.carries (buf : Bytes) (fmi : FileMetaInfo) : Action → Bool
  | .Copy n _ => n == buf.length
  | .ScanFileStream b f _ => b == buf && f == fmi
  | .SubmitFile b _ _ => b == buf
  | .GetSampleFileInfo _ f _ => f == fmi
  | .GetSampleURLInfo _ f _ => f == fmi
  | _ => true

/-- Total length of the chunks a body reader yields. -/
def BodyReader.length (body : BodyReader) : Nat :=
  (body.chunks.map List.length).sum

/-! ## Failed calls in a trace -/

/-- No call recorded in the trace returned an error. -/
def noFailedCall (tr : List Event) : Prop :=
  ∀ e ∈ tr, e.act.isFailedCall = false

/-- Either no call of the trace failed, or the last event of the trace is the
only place a call can have failed and the stretch ended the way `bad` says. -/
def failsLast (tr : List Event) (bad : Prop) : Prop :=
  noFailedCall tr ∨ (bad ∧ ∃ pre e, tr = pre ++ [e] ∧ noFailedCall pre)

/-! ## Counting the polls of a trace -/

/-- Number of `GetSubmissionStatus` calls recorded in a trace. -/
def statusCalls (tr : List Event) : Nat :=
  (tr.filter fun e => e.act.isStatusCall).length

/-- No sample-info call is recorded in the trace. -/
def noSampleInfoCall (tr : List Event) : Prop :=
  ∀ e ∈ tr, e.act.isSampleInfoCall = false

/-! ## Decimal integers, as the spec words them -/

/-- The ten decimal digits. -/
def decimalDigits : List Char :=
  ['0', '1', '2', '3', '4', '5', '6', '7', '8', '9']

/-- The string is a decimal integer greater than 0: an optional `+` sign, then
one or more decimal digits, not all of them `0`. -/
def isPositiveDecimal (s : String) : Bool :=
  let digits :=
    match s.data with
    | '+' :: rest => rest
    | cs => cs
  !digits.isEmpty && digits.all (fun c => decimalDigits.contains c) &&
    digits.any (fun c => c != '0')

/-! ## The polls of a scan up to the first finished one -/

/-- The answer of the poll that a pass of the loop issues from world `w`:
whether the submission is finished, or the error of the call.  The poll is
`GetSubmissionStatus` when the scanner has a status endpoint, the sample-info
call otherwise. -/
def pollAnswer {σ : Type} (svc : Service σ) (tg : Target) (submitResp : SubmitResponse)
    (fmi : FileMetaInfo) (w : World σ) : Except String Bool :=
  if svc.StatusEndpointExists then
    (svc.GetSubmissionStatus w submitResp.SubmissionID).result.map fun s => s.SubmissionFinished
  else
    (infoCall svc tg w submitResp.SubmissionSampleID fmi).result.map fun s =>
      s.SubmissionFinished

/-- The world right after the poll issued from `w` has answered. -/
def afterPoll {σ : Type} (svc : Service σ) (tg : Target) (submitResp : SubmitResponse)
    (fmi : FileMetaInfo) (w : World σ) : World σ :=
  if svc.StatusEndpointExists then w.after (svc.GetSubmissionStatus w submitResp.SubmissionID)
  else w.after (infoCall svc tg w submitResp.SubmissionSampleID fmi)

/-- How the poll issued from `w` is recorded, with the handle's submission id
or sample id. -/
def pollEvent {σ : Type} (svc : Service σ) (tg : Target) (submitResp : SubmitResponse)
    (fmi : FileMetaInfo) (w : World σ) (ok : Bool) : Event :=
  if svc.StatusEndpointExists then ⟨w.clock, .GetSubmissionStatus submitResp.SubmissionID ok⟩
  else ⟨w.clock, infoAct tg submitResp.SubmissionSampleID fmi ok⟩

/-- The sample the loop holds after the poll issued from `w`: the one it held
before when the poll is a status call, the one the sample-info call returned
otherwise. -/
def polledSample {σ : Type} (svc : Service σ) (tg : Target) (submitResp : SubmitResponse)
    (fmi : FileMetaInfo) (sampleInfo : Option SampleInfo) (w : World σ) : Option SampleInfo :=
  if svc.StatusEndpointExists then sampleInfo
  else
    match (infoCall svc tg w submitResp.SubmissionSampleID fmi).result with
    | .ok info => some info
    | .error _ => sampleInfo

/-- The world in which pass number `i` (from 0) starts when the loop is entered
in `w` and every pass before it polled, was answered `not finished` and slept
one interval. -/
def pollWorld {σ : Type} (svc : Service σ) (tg : Target) (submitResp : SubmitResponse)
    (fmi : FileMetaInfo) : Nat → World σ → World σ
  | 0, w => w
  | i + 1, w =>
    pollWorld svc tg submitResp fmi i
      ((afterPoll svc tg submitResp fmi w).sleep svc.GetStatusCheckInterval)

/-- The events of `n` passes answered `not finished`, from world `w` on: each
pass is one poll followed by one sleep of the interval. -/
def unfinishedPolls {σ : Type} (svc : Service σ) (tg : Target) (submitResp : SubmitResponse)
    (fmi : FileMetaInfo) : Nat → World σ → List Event
  | 0, _ => []
  | n + 1, w =>
    pollEvent svc tg submitResp fmi w true ::
      ⟨(afterPoll svc tg submitResp fmi w).clock, .Sleep svc.GetStatusCheckInterval⟩ ::
      unfinishedPolls svc tg submitResp fmi n
        ((afterPoll svc tg submitResp fmi w).sleep svc.GetStatusCheckInterval)

/-- Number of sample-info calls recorded in a trace. -/
def sampleInfoCalls (tr : List Event) : Nat :=
  (tr.filter fun e => e.act.isSampleInfoCall).length

/-- Sleeps. -/
def Action.isSleep : Action → Bool
  | .Sleep _ => true
  | _ => false

/-- Number of sleeps recorded in a trace. -/
def sleepCalls (tr : List Event) : Nat :=
  (tr.filter fun e => e.act.isSleep).length

/-- Whether an action that takes a submission id or a sample id takes the
given ones; other actions pass. -/
def Action.pollsWith (submissionID sampleID : String) : Action → Bool
  | .GetSubmissionStatus id _ => id == submissionID
  | .GetSampleFileInfo id _ _ => id == sampleID
  | .GetSampleURLInfo id _ _ => id == sampleID
  | _ => true

/-! ## Scenarios

Concrete collaborators, configurations and requests on which the handlers are
evaluated.  The scanner state is a counter of the status and sample-info calls
answered so far. -/

/-- A finished sample with the given severity. -/
def sampleOf (severity : String) : SampleInfo :=
  { FileName := "y.exe", SampleType := "exe", FileSizeStr := "3 B", SampleSeverity := severity,
    VTIScore := "9", SubmissionFinished := true }

/-- A local scanner holding `ok` for benign that answers every scan with
`result` after 5 ns. -/
def localScanner (result : Except String SampleInfo) : LocalService Nat :=
  { RespSupported := true
    GetOkFileStatus := ["ok"]
    ScanFileStream := fun w _ _ => { result := result, took := 5, next := w.st + 1 } }

/-- A remote scanner holding `ok` for benign, driven by a script: `submit` is
the answer to the submit call, `status n` and `info n` the answers to a status
and a sample-info call when `n` such calls were answered before; every poll
takes `took` ns. -/
def scriptedScanner (statusEndpoint : Bool) (timeout interval : Int) (took : Nat)
    (submit : Except String SubmitResponse) (status : Nat → Except String Bool)
    (info : Nat → Except String SampleInfo) : Service Nat :=
  { RespSupported := true
    ReqSupported := true
    GetOkFileStatus := ["ok"]
    GetStatusCheckTimeout := timeout
    GetStatusCheckInterval := interval
    StatusEndpointExists := statusEndpoint
    SubmitFile := fun w _ _ => { result := submit, took := 0, next := w.st }
    SubmitURL := fun w _ _ => { result := submit, took := 0, next := w.st }
    GetSubmissionStatus := fun w _ =>
      { result := (status w.st).map SubmissionStatusResponse.mk, took := took, next := w.st + 1 }
    GetSampleFileInfo := fun w _ _ => { result := info w.st, took := took, next := w.st + 1 }
    GetSampleURLInfo := fun w _ _ => { result := info w.st, took := took, next := w.st + 1 } }

/-- The submission handle the scripted scanners answer with. -/
def acceptedSubmission : SubmitResponse :=
  { SubmissionExists := true, SubmissionID := "5651578", SubmissionSampleID := "4715575" }

/-- Collaborators with one local vendor, `clamav`, and one remote vendor,
`virustotal`; every resource has extension `exe`; a rendered page holds one
byte per character of the severity. -/
def demoEnv (ls : LocalService Nat) (rs : Service Nat) : Env Nat :=
  { ISTag := "ICAPEG"
    RespmodEndpoint := "respmod"
    ReqmodEndpoint := "reqmod"
    GetMimeExtension := fun _ => "exe"
    GetFileName := fun _ => "y.exe"
    GetFileExtension := fun _ => "exe"
    BreakHTTPURL := fun u => u
    GetTemplateBufferAndResponse := fun d =>
      (List.replicate d.Severity.length 1, { StatusCode := 200, Body := [] })
    jsonMarshal := fun d => .ok (List.replicate d.Severity.length 2)
    IsServiceLocal := fun n => n == "clamav"
    GetLocalService := fun n => if n = "clamav" then some ls else none
    GetService := fun n => if n = "virustotal" then some rs else none }

/-- A configuration that processes every extension, for the given vendor in
both directions. -/
def demoCfg (vendor : String) (maxFileSize : Int) (propagateError : Bool) : AppConfig :=
  { RemoteICAP := ""
    RespScannerVendor := vendor
    ReqScannerVendor := vendor
    ProcessExtensions := ["*"]
    BypassExtensions := []
    MaxFileSize := maxFileSize
    PreviewBytes := "1024"
    PropagateError := propagateError }

/-- A request for `http://x/y.exe` with the given method, ICAP headers and
chunks of the encapsulated response body. -/
def demoReq (method : String) (header : List (String × List String)) (chunks : List Bytes) :
    ICAPRequest :=
  { Method := method
    RawURL := "icap://icapeg/"
    Header := header
    Preview := []
    Request := { RequestURI := "http://x/y.exe", Body := [] }
    ResponseBody := { chunks := chunks, err := none } }

/-- Go `time.Millisecond`, in nanoseconds. -/
def Millisecond : Int := 1000000

/-- Go `time.Second`, in nanoseconds. -/
def Second : Int := 1000 * Millisecond

/-- A remote scanner with a status endpoint that is never finished and whose
calls take no time, with a timeout of 2 s and an interval of 500 ms. -/
def idleScanner : Service Nat :=
  scriptedScanner true (2 * Second) (500 * Millisecond) 0 (.ok acceptedSubmission)
    (fun _ => .ok false) (fun _ => .ok (sampleOf "malicious"))

/-- A remote scanner with a status endpoint, finished at the first poll, that
reports `malicious`; every poll takes 7 ns. -/
def promptScanner : Service Nat :=
  scriptedScanner true 2000 500 7 (.ok acceptedSubmission) (fun _ => .ok true)
    (fun _ => .ok (sampleOf "malicious"))

/-- The collaborators of the verdict scenarios: the local scanner reports
`malicious`, the remote one is `promptScanner`. -/
def verdictEnv : Env Nat :=
  demoEnv (localScanner (.ok (sampleOf "malicious"))) promptScanner

/-- The run of `ToICAPEGResp` on a three-byte body with the local scanner of
`verdictEnv`. -/
def blockedRespRun : Run Nat :=
  { outcome := .Written { Header := [("Service", "Egirna ICAP-EG"), ("Istag", "ICAPEG")],
                          Code := 200,
                          HTTPMessage := some { StatusCode := 200, Body := [] },
                          HasBody := true,
                          Body := [1, 1, 1, 1, 1, 1, 1, 1, 1] }
    trace := [⟨0, .Copy 3 true⟩, ⟨0, .IsServiceLocal "clamav"⟩, ⟨0, .GetLocalService "clamav"⟩,
              ⟨0, .ScanFileStream [1, 2, 3] ⟨"y.exe", "exe", 3⟩ true⟩,
              ⟨5, .DumpResult (sampleOf "malicious")⟩]
    world := ⟨5, 1⟩ }

/-- The run of `ToICAPEGReq` with the remote scanner of `verdictEnv`. -/
def blockedReqRun : Run Nat :=
  { outcome := .ServeLocally [("Service", "Egirna ICAP-EG"), ("Istag", "ICAPEG")]
                 { RequestURI := "http://x/y.exe", Body := [2, 2, 2, 2, 2, 2, 2, 2, 2] }
    trace := [⟨0, .GetService "virustotal"⟩, ⟨0, .SubmitURL "http://x/y.exe" "y.exe" true⟩,
              ⟨0, .GetSubmissionStatus "5651578" true⟩,
              ⟨7, .GetSampleURLInfo "4715575" ⟨"y.exe", "exe", 0⟩ true⟩,
              ⟨14, .DumpResult (sampleOf "malicious")⟩]
    world := ⟨14, 2⟩ }

/-- A local scanner whose scan fails. -/
def brokenLocalScanner : LocalService Nat :=
  localScanner (.error "connection refused")

/-- A remote scanner with a status endpoint whose second status call fails;
every poll takes 7 ns. -/
def flakyScanner : Service Nat :=
  scriptedScanner true 2000 500 7 (.ok acceptedSubmission)
    (fun n => if n = 0 then .ok false else .error "status: 503")
    (fun _ => .ok (sampleOf "malicious"))

/-- The collaborators of the failure scenarios. -/
def failureEnv : Env Nat :=
  demoEnv brokenLocalScanner flakyScanner

/-- The run of `ToICAPEGResp` with the local scanner of `failureEnv` and
`PropagateError` on. -/
def failedRespRun : Run Nat :=
  { outcome := writeHeader [("Service", "Egirna ICAP-EG"), ("Istag", "ICAPEG")] 424
    trace := [⟨0, .Copy 3 true⟩, ⟨0, .IsServiceLocal "clamav"⟩, ⟨0, .GetLocalService "clamav"⟩,
              ⟨0, .ScanFileStream [1, 2, 3] ⟨"y.exe", "exe", 3⟩ false⟩]
    world := ⟨5, 1⟩ }

/-- The run of `ToICAPEGReq` with the remote scanner of `failureEnv` and
`PropagateError` off. -/
def failedReqRun : Run Nat :=
  { outcome := writeHeader [("Service", "Egirna ICAP-EG"), ("Istag", "ICAPEG")] 204
    trace := [⟨0, .GetService "virustotal"⟩, ⟨0, .SubmitURL "http://x/y.exe" "y.exe" true⟩,
              ⟨0, .GetSubmissionStatus "5651578" true⟩, ⟨7, .Sleep 500⟩,
              ⟨507, .GetSubmissionStatus "5651578" false⟩]
    world := ⟨514, 2⟩ }

/-- The collaborators of the timeout scenarios: the remote scanner is
`idleScanner`. -/
def idleEnv : Env Nat :=
  demoEnv brokenLocalScanner idleScanner

/-- A remote scanner with a status endpoint that is never finished, with a
timeout of 2 s and an interval of 500 ms, whose every poll takes 10 s. -/
def slowScanner : Service Nat :=
  scriptedScanner true (2 * Second) (500 * Millisecond) 10000000000 (.ok acceptedSubmission)
    (fun _ => .ok false) (fun _ => .ok (sampleOf "malicious"))

/-- A remote scanner with a status endpoint whose third status call is the
first to report finished and whose sample is `malicious`; timeout 2000,
interval 500, every poll takes 7 ns. -/
def thirdPollScanner : Service Nat :=
  scriptedScanner true 2000 500 7 (.ok acceptedSubmission) (fun i => .ok (decide (2 ≤ i)))
    (fun _ => .ok (sampleOf "malicious"))

/-- A remote scanner without a status endpoint whose second sample-info call
is the first to report finished, with severity `malicious`; timeout 2000,
interval 500, every poll takes 7 ns. -/
def secondInfoScanner : Service Nat :=
  scriptedScanner false 2000 500 7 (.ok acceptedSubmission) (fun _ => .ok false)
    (fun i => .ok { sampleOf "malicious" with SubmissionFinished := decide (1 ≤ i) })

/-! # Properties -/

theorem InStringSlice_iff (data : String) (ss : List String) :
    InStringSlice data ss = true ↔ data ∈ ss := by
  simp [InStringSlice]

theorem InStringSlice_eq_decide (data : String) (ss : List String) :
    InStringSlice data ss = decide (data ∈ ss) := by
  by_cases h : data ∈ ss <;> simp [InStringSlice, h]

theorem extensionGate_iff (ext : String) (P B : List String) :
    extensionGate ext P B = true ↔
      (("*" ∉ P ∧ ext ∉ P) ∨ ("*" ∈ B ∧ ext ∉ P) ∨ ext ∈ B) := by
  unfold extensionGate notProcessable unprocessable
  simp only [InStringSlice_eq_decide, Any]
  by_cases h1 : "*" ∈ P <;> by_cases h2 : ext ∈ P <;> by_cases h3 : "*" ∈ B <;>
    by_cases h4 : ext ∈ B <;> simp [h1, h2, h3, h4]

theorem gateRules_iff (ext : String) (P B : List String) :
    gateRules ext P B = true ↔
      (("*" ∉ P ∧ ext ∉ P) ∨ ("*" ∈ B ∧ ext ∉ P) ∨ ext ∈ B) := by
  unfold gateRules
  by_cases h1 : "*" ∈ P <;> by_cases h2 : ext ∈ P <;> by_cases h3 : "*" ∈ B <;>
    by_cases h4 : ext ∈ B <;> simp [h1, h2, h3, h4]

theorem extensionGate_eq_gateRules (ext : String) (P B : List String) :
    extensionGate ext P B = gateRules ext P B := by
  rw [Bool.eq_iff_iff, extensionGate_iff, gateRules_iff]

/-- C1: for every extension and every pair of lists the extension gate of the
two handlers bypasses exactly when the ordered rules of the spec do, that is
iff (`*` not in P and ext not in P) or (`*` in B and ext not in P) or ext in B;
on bypass each handler answers 204 at the gate without any call, otherwise
RESPMOD goes on to copy the body and scan and REQMOD goes on to the scan. -/
theorem C1_extension_gate_matches_rules {σ : Type} (fuel : Nat) (cfg : AppConfig) (env : Env σ)
    (req : ICAPRequest) (h : List (String × String)) (scannerName : String) (w : World σ)
    (ext : String) (P B : List String) :
    (extensionGate ext P B = true ↔
        (("*" ∉ P ∧ ext ∉ P) ∨ ("*" ∈ B ∧ ext ∉ P) ∨ ext ∈ B)) ∧
    extensionGate ext P B = gateRules ext P B ∧
    respGate fuel cfg env req h scannerName w =
      (if gateRules (env.GetMimeExtension req.Preview) cfg.ProcessExtensions
            cfg.BypassExtensions then
        some { outcome := writeHeader h 204, trace := [], world := w }
      else respBody fuel cfg env req h scannerName w) ∧
    reqGate fuel cfg env req h scannerName w =
      (if gateRules (if env.GetFileExtension req.Request = "" then "html"
              else env.GetFileExtension req.Request) cfg.ProcessExtensions
            cfg.BypassExtensions then
        some { outcome := writeHeader h 204, trace := [], world := w }
      else reqScan fuel cfg env req h scannerName w) := by
  refine ⟨extensionGate_iff ext P B, extensionGate_eq_gateRules ext P B, ?_, ?_⟩
  · simp only [respGate, extensionGate_eq_gateRules]
  · simp only [reqGate, extensionGate_eq_gateRules]

/-! ## The screen on the `Allow` header -/

theorem allowScreen_of_no_204 (header : List (String × List String))
    (hAllow : header.lookup "Allow" = none ∨
      ∃ v vs, header.lookup "Allow" = some (v :: vs) ∧ v ≠ "204") :
    allowScreen header = true := by
  unfold allowScreen
  rcases hAllow with h | ⟨v, vs, h, hv⟩
  · simp [h]
  · simp [h, NoModificationStatusCodeStr, hv]

/-- The screen of lines 57 and 322 stops a request whose `Allow` key is
absent, or present with a first value other than `204` (the empty string of a
bare `Allow:` line included): the handler answers 204 and makes no call at
all. -/
theorem allowScreen_stops_before_scanner {σ : Type} (fuel : Nat) (cfg : AppConfig)
    (env : Env σ) (w : World σ) (req : ICAPRequest)
    (hAllow : req.Header.lookup "Allow" = none ∨
      ∃ v vs, req.Header.lookup "Allow" = some (v :: vs) ∧ v ≠ "204") :
    (req.Method = "RESPMOD" →
      ToICAPEGResp fuel cfg env w req =
        some { outcome := writeHeader (baseHeader env) 204, trace := [], world := w }) ∧
    (req.Method = "REQMOD" →
      ToICAPEGReq fuel cfg env w req =
        some { outcome := writeHeader (baseHeader env) 204, trace := [], world := w }) := by
  have hs := allowScreen_of_no_204 req.Header hAllow
  constructor
  · intro hm
    simp [ToICAPEGResp, respmod, hm, ICAPModeOptions, ICAPModeResp, hs]
  · intro hm
    simp [ToICAPEGReq, reqmod, hm, ICAPModeOptions, ICAPModeReq, hs]

/-- RESPMOD with a bare `Allow:` line and REQMOD without an `Allow` header are
answered 204 with an empty trace. -/
theorem allowScreen_stops_before_scanner_witness :
    (ToICAPEGResp 0 (demoCfg "ClamAV" 10 true) verdictEnv ⟨0, 0⟩
        (demoReq "RESPMOD" [("Allow", [""])] [[1, 2, 3]]) =
      some { outcome := writeHeader (baseHeader verdictEnv) 204,
             trace := [], world := ⟨0, 0⟩ }) ∧
    (ToICAPEGReq 0 (demoCfg "VirusTotal" 10 true) verdictEnv ⟨0, 0⟩
        (demoReq "REQMOD" [] []) =
      some { outcome := writeHeader (baseHeader verdictEnv) 204,
             trace := [], world := ⟨0, 0⟩ }) :=
  ⟨(allowScreen_stops_before_scanner 0 (demoCfg "ClamAV" 10 true) verdictEnv ⟨0, 0⟩
      (demoReq "RESPMOD" [("Allow", [""])] [[1, 2, 3]])
      (Or.inr ⟨"", [], by decide, by decide⟩)).1 (by decide),
   (allowScreen_stops_before_scanner 0 (demoCfg "VirusTotal" 10 true) verdictEnv ⟨0, 0⟩
      (demoReq "REQMOD" [] [])
      (Or.inl (by decide))).2 (by decide)⟩

/-- C2 fails on the code at a request whose `Allow` key is present with an
empty list of values: the length guard of the test of lines 57 and 322 makes
the screen let it through, although the request carries no `Allow: 204`.  The
RESPMOD handler buffers the body, resolves and calls the local scanner and
answers 200 with the block page; the REQMOD handler resolves the remote
scanner, submits the URL, polls it and serves the block page locally.  The same
requests with the key absent are answered 204 with no call. -/
theorem C2_allow_without_value_reaches_scanner :
    (demoReq "RESPMOD" [("Allow", [])] [[1, 2, 3]]).Header.lookup "Allow" = some [] ∧
    allowScreen [("Allow", [])] = false ∧
    (ToICAPEGResp 0 (demoCfg "ClamAV" 10 true) verdictEnv ⟨0, 0⟩
        (demoReq "RESPMOD" [("Allow", [])] [[1, 2, 3]])).map (fun r => (r.outcome, r.trace)) =
      some (.Written { Header := [("Service", "Egirna ICAP-EG"), ("Istag", "ICAPEG")],
                       Code := 200,
                       HTTPMessage := some { StatusCode := 200, Body := [] },
                       HasBody := true,
                       Body := [1, 1, 1, 1, 1, 1, 1, 1, 1] },
            [⟨0, .Copy 3 true⟩, ⟨0, .IsServiceLocal "clamav"⟩, ⟨0, .GetLocalService "clamav"⟩,
             ⟨0, .ScanFileStream [1, 2, 3] ⟨"y.exe", "exe", 3⟩ true⟩,
             ⟨5, .DumpResult (sampleOf "malicious")⟩]) ∧
    (ToICAPEGReq 4 (demoCfg "VirusTotal" 10 true) verdictEnv ⟨0, 0⟩
        (demoReq "REQMOD" [("Allow", [])] [])).map (fun r => (r.outcome, r.trace)) =
      some (.ServeLocally [("Service", "Egirna ICAP-EG"), ("Istag", "ICAPEG")]
              { RequestURI := "http://x/y.exe", Body := [2, 2, 2, 2, 2, 2, 2, 2, 2] },
            [⟨0, .GetService "virustotal"⟩, ⟨0, .SubmitURL "http://x/y.exe" "y.exe" true⟩,
             ⟨0, .GetSubmissionStatus "5651578" true⟩,
             ⟨7, .GetSampleURLInfo "4715575" ⟨"y.exe", "exe", 0⟩ true⟩,
             ⟨14, .DumpResult (sampleOf "malicious")⟩]) ∧
    (ToICAPEGResp 0 (demoCfg "ClamAV" 10 true) verdictEnv ⟨0, 0⟩
        (demoReq "RESPMOD" [] [[1, 2, 3]])).map (fun r => (r.outcome, r.trace)) =
      some (writeHeader (baseHeader verdictEnv) 204, []) ∧
    (ToICAPEGReq 4 (demoCfg "VirusTotal" 10 true) verdictEnv ⟨0, 0⟩
        (demoReq "REQMOD" [] [])).map (fun r => (r.outcome, r.trace)) =
      some (writeHeader (baseHeader verdictEnv) 204, []) := by
  decide

/-! ## Where the result dump occurs in a trace -/

@[simp] theorem dump_ne_submitAct (tg : Target) (ok : Bool) (s : SampleInfo) :
    (Action.DumpResult s = submitAct tg ok) ↔ False := by
  cases tg <;> simp [submitAct]

@[simp] theorem dump_ne_infoAct (tg : Target) (sampleID : String) (fmi : FileMetaInfo)
    (ok : Bool) (s : SampleInfo) :
    (Action.DumpResult s = infoAct tg sampleID fmi ok) ↔ False := by
  cases tg <;> simp [infoAct]

theorem pollLoop_zero {σ : Type} (cfg : AppConfig) (svc : Service σ) (tg : Target)
    (submitResp : SubmitResponse) (fmi : FileMetaInfo) (T : Int) (fin : Bool)
    (si : Option SampleInfo) (w : World σ) :
    pollLoop cfg svc tg submitResp fmi T 0 fin si w =
      if !fin && decide (w.clock < T) then none
      else some { exit := .ok (fin, si), trace := [], world := w } := rfl

theorem pollLoop_succ {σ : Type} (cfg : AppConfig) (svc : Service σ) (tg : Target)
    (submitResp : SubmitResponse) (fmi : FileMetaInfo) (T : Int) (fuel : Nat) (fin : Bool)
    (si : Option SampleInfo) (w : World σ) :
    pollLoop cfg svc tg submitResp fmi T (fuel + 1) fin si w =
      if !fin && decide (w.clock < T) then
        match (pollBody cfg svc tg submitResp fmi si w).exit with
        | .error _ => some (pollBody cfg svc tg submitResp fmi si w)
        | .ok (fin1, si1) =>
          Stage.after (pollBody cfg svc tg submitResp fmi si w).trace
            (pollLoop cfg svc tg submitResp fmi T fuel fin1 si1
              (pollBody cfg svc tg submitResp fmi si w).world)
      else some { exit := .ok (fin, si), trace := [], world := w } := rfl

theorem pollBody_no_dump {σ : Type} (cfg : AppConfig) (svc : Service σ) (tg : Target)
    (submitResp : SubmitResponse) (fmi : FileMetaInfo) (si : Option SampleInfo) (w : World σ)
    (t : Int) (s : SampleInfo) :
    (⟨t, .DumpResult s⟩ : Event) ∉ (pollBody cfg svc tg submitResp fmi si w).trace := by
  simp only [pollBody, sleepUnlessFinished]
  split
  · split
    · simp
    · split <;> simp
  · split
    · simp
    · split <;> simp

theorem pollLoop_no_dump {σ : Type} (cfg : AppConfig) (svc : Service σ) (tg : Target)
    (submitResp : SubmitResponse) (fmi : FileMetaInfo) (T : Int) (t : Int) (s : SampleInfo) :
    ∀ (fuel : Nat) (fin : Bool) (si : Option SampleInfo) (w : World σ)
      (l : Stage (Bool × Option SampleInfo) σ),
      pollLoop cfg svc tg submitResp fmi T fuel fin si w = some l →
      (⟨t, .DumpResult s⟩ : Event) ∉ l.trace := by
  intro fuel
  induction fuel with
  | zero =>
    intro fin si w l h
    rw [pollLoop_zero] at h
    split at h
    · cases h
    · cases h; simp
  | succ n ih =>
    intro fin si w l h
    rw [pollLoop_succ] at h
    split at h
    · have hb := pollBody_no_dump cfg svc tg submitResp fmi si w t s
      split at h
      · cases h; exact hb
      · rename_i fin1 si1 _
        cases hrec : pollLoop cfg svc tg submitResp fmi T n fin1 si1
            (pollBody cfg svc tg submitResp fmi si w).world with
        | none => simp [hrec, Stage.after] at h
        | some l1 =>
          simp [hrec, Stage.after] at h
          subst h
          have := ih _ _ _ _ hrec
          simp [hb, this]
    · cases h; simp

theorem finalize_dump {σ : Type} (cfg : AppConfig) (svc : Service σ) (tg : Target)
    (submitResp : SubmitResponse) (fmi : FileMetaInfo) (fin : Bool) (si : Option SampleInfo)
    (w : World σ) (t : Int) (s : SampleInfo)
    (h : (⟨t, .DumpResult s⟩ : Event) ∈ (finalize cfg svc tg submitResp fmi fin si w).trace) :
    (finalize cfg svc tg submitResp fmi fin si w).exit = .ok s := by
  cases fin with
  | false => simp [finalize] at h
  | true =>
    cases si with
    | some info =>
      simp [finalize] at h ⊢
      exact h.2.symm
    | none =>
      simp only [finalize] at h ⊢
      cases hr : (infoCall svc tg w submitResp.SubmissionSampleID fmi).result with
      | error e => simp [hr] at h
      | ok info =>
        simp [hr] at h ⊢
        exact h.2.symm

theorem submitAndPoll_dump {σ : Type} (fuel : Nat) (cfg : AppConfig) (svc : Service σ)
    (tg : Target) (fmi : FileMetaInfo) (w : World σ) (st : Stage SampleInfo σ) (t : Int)
    (s : SampleInfo) (hrun : submitAndPoll fuel cfg svc tg fmi w = some st)
    (h : (⟨t, .DumpResult s⟩ : Event) ∈ st.trace) : st.exit = .ok s := by
  simp only [submitAndPoll] at hrun
  split at hrun
  · cases hrun
    simp at h
  · rename_i submitResp _
    split at hrun
    · cases hrun
      simp at h
    · split at hrun
      · cases hrun
      · rename_i l hl
        have hnd := pollLoop_no_dump cfg svc tg submitResp fmi _ t s _ _ _ _ l hl
        split at hrun
        · cases hrun
          simp at h
          exact absurd h hnd
        · cases hrun
          simp at h
          rcases h with h | h
          · exact absurd h hnd
          · exact finalize_dump _ _ _ _ _ _ _ _ _ _ h

/-! ## The verdict -/

theorem respScan_dump {σ : Type} (fuel : Nat) (cfg : AppConfig) (env : Env σ) (req : ICAPRequest)
    (h : List (String × String)) (scannerName : String) (buf : Bytes) (w : World σ) (r : Run σ)
    (t : Int) (s : SampleInfo) (hrun : respScan fuel cfg env req h scannerName buf w = some r)
    (hd : (⟨t, .DumpResult s⟩ : Event) ∈ r.trace) :
    r.outcome = respVerdict env req h scannerName (respOkFileStatus env scannerName) s := by
  simp only [respScan] at hrun
  unfold respOkFileStatus
  split at hrun
  · rename_i hloc
    simp only [hloc, if_true]
    split at hrun
    · cases hrun; simp at hd
    · rename_i lsvc hl
      simp only [hl]
      split at hrun
      · cases hrun; simp at hd
      · split at hrun
        · cases hrun; simp at hd
        · cases hrun
          simp at hd
          rw [hd.2]
  · rename_i hloc
    simp only [hloc]
    split at hrun
    · cases hrun; simp at hd
    · rename_i svc hs
      simp only [hs]
      split at hrun
      · cases hrun; simp at hd
      · split at hrun
        · cases hrun
        · rename_i st hst
          split at hrun
          · rename_i code hexit
            cases hrun
            simp at hd
            have := submitAndPoll_dump _ _ _ _ _ _ _ t s hst hd
            rw [hexit] at this
            cases this
          · rename_i sampleInfo hexit
            cases hrun
            simp at hd
            have := submitAndPoll_dump _ _ _ _ _ _ _ t s hst hd
            rw [hexit] at this
            cases this
            rfl

theorem Run.after_eq_some {σ : Type} {pre : List Event} {k : Option (Run σ)} {r : Run σ}
    (h : Run.after pre k = some r) :
    ∃ r1, k = some r1 ∧ r.outcome = r1.outcome ∧ r.trace = pre ++ r1.trace ∧
      r.world = r1.world := by
  cases k with
  | none => simp [Run.after] at h
  | some r1 =>
    simp [Run.after] at h
    subst h
    exact ⟨r1, rfl, rfl, rfl, rfl⟩

theorem respBody_dump {σ : Type} (fuel : Nat) (cfg : AppConfig) (env : Env σ) (req : ICAPRequest)
    (h : List (String × String)) (scannerName : String) (w : World σ) (r : Run σ)
    (t : Int) (s : SampleInfo) (hrun : respBody fuel cfg env req h scannerName w = some r)
    (hd : (⟨t, .DumpResult s⟩ : Event) ∈ r.trace) :
    r.outcome = respVerdict env req h scannerName (respOkFileStatus env scannerName) s := by
  simp only [respBody] at hrun
  split at hrun
  · cases hrun; simp at hd
  · split at hrun
    · cases hrun; simp at hd
    · obtain ⟨r1, h1, ho, ht, _⟩ := Run.after_eq_some hrun
      rw [ht] at hd
      simp at hd
      rw [ho]
      exact respScan_dump _ _ _ _ _ _ _ _ _ t s h1 hd

theorem respmod_dump {σ : Type} (fuel : Nat) (cfg : AppConfig) (env : Env σ) (req : ICAPRequest)
    (h : List (String × String)) (w : World σ) (r : Run σ) (t : Int) (s : SampleInfo)
    (hrun : respmod fuel cfg env req h w = some r)
    (hd : (⟨t, .DumpResult s⟩ : Event) ∈ r.trace) :
    r.outcome = respVerdict env req h (ToLower cfg.RespScannerVendor)
      (respOkFileStatus env (ToLower cfg.RespScannerVendor)) s := by
  simp only [respmod, respGate] at hrun
  split at hrun
  · cases hrun; simp at hd
  · split at hrun
    · cases hrun; simp at hd
    · split at hrun
      · cases hrun; simp at hd
      · split at hrun
        · cases hrun; simp at hd
        · exact respBody_dump _ _ _ _ _ _ _ _ t s hrun hd

theorem reqScan_dump {σ : Type} (fuel : Nat) (cfg : AppConfig) (env : Env σ) (req : ICAPRequest)
    (h : List (String × String)) (scannerName : String) (w : World σ) (r : Run σ)
    (t : Int) (s : SampleInfo) (hrun : reqScan fuel cfg env req h scannerName w = some r)
    (hd : (⟨t, .DumpResult s⟩ : Event) ∈ r.trace) :
    r.outcome = reqVerdict cfg env req h scannerName (reqOkFileStatus env scannerName) s := by
  simp only [reqScan] at hrun
  unfold reqOkFileStatus
  split at hrun
  · cases hrun; simp at hd
  · rename_i svc hs
    simp only [hs]
    split at hrun
    · cases hrun; simp at hd
    · split at hrun
      · cases hrun
      · rename_i st hst
        split at hrun
        · rename_i code hexit
          cases hrun
          simp at hd
          have := submitAndPoll_dump _ _ _ _ _ _ _ t s hst hd
          rw [hexit] at this
          cases this
        · rename_i sampleInfo hexit
          cases hrun
          simp at hd
          have := submitAndPoll_dump _ _ _ _ _ _ _ t s hst hd
          rw [hexit] at this
          cases this
          rfl

theorem reqmod_dump {σ : Type} (fuel : Nat) (cfg : AppConfig) (env : Env σ) (req : ICAPRequest)
    (h : List (String × String)) (w : World σ) (r : Run σ) (t : Int) (s : SampleInfo)
    (hrun : reqmod fuel cfg env req h w = some r)
    (hd : (⟨t, .DumpResult s⟩ : Event) ∈ r.trace) :
    r.outcome = reqVerdict cfg env req h (ToLower cfg.ReqScannerVendor)
      (reqOkFileStatus env (ToLower cfg.ReqScannerVendor)) s := by
  simp only [reqmod] at hrun
  split at hrun
  · cases hrun; simp at hd
  · split at hrun
    · cases hrun; simp at hd
    · split at hrun
      · cases hrun; simp at hd
      · simp only [reqGate] at hrun
        by_cases hg : extensionGate (if env.GetFileExtension req.Request = "" then "html"
            else env.GetFileExtension req.Request) cfg.ProcessExtensions cfg.BypassExtensions = true
        · rw [if_pos hg] at hrun
          cases hrun; simp at hd
        · rw [if_neg hg] at hrun
          exact reqScan_dump _ _ _ _ _ _ _ _ t s hrun hd

theorem ToICAPEGResp_dump {σ : Type} (fuel : Nat) (cfg : AppConfig) (env : Env σ) (w : World σ)
    (req : ICAPRequest) (r : Run σ) (t : Int) (s : SampleInfo)
    (hrun : ToICAPEGResp fuel cfg env w req = some r)
    (hd : (⟨t, .DumpResult s⟩ : Event) ∈ r.trace) :
    r.outcome = respVerdict env req (baseHeader env) (ToLower cfg.RespScannerVendor)
      (respOkFileStatus env (ToLower cfg.RespScannerVendor)) s := by
  simp only [ToICAPEGResp] at hrun
  split at hrun
  · split at hrun <;> (cases hrun; simp at hd)
  · split at hrun
    · exact respmod_dump _ _ _ _ _ _ _ t s hrun hd
    · split at hrun <;> (cases hrun; simp at hd)

theorem ToICAPEGReq_dump {σ : Type} (fuel : Nat) (cfg : AppConfig) (env : Env σ) (w : World σ)
    (req : ICAPRequest) (r : Run σ) (t : Int) (s : SampleInfo)
    (hrun : ToICAPEGReq fuel cfg env w req = some r)
    (hd : (⟨t, .DumpResult s⟩ : Event) ∈ r.trace) :
    r.outcome = reqVerdict cfg env req (baseHeader env) (ToLower cfg.ReqScannerVendor)
      (reqOkFileStatus env (ToLower cfg.ReqScannerVendor)) s := by
  simp only [ToICAPEGReq] at hrun
  split at hrun
  · split at hrun <;> (cases hrun; simp at hd)
  · split at hrun
    · exact reqmod_dump _ _ _ _ _ _ _ t s hrun hd
    · split at hrun <;> (cases hrun; simp at hd)

/-- C3: whenever a run of a handler has obtained a verdict sample `s` (the
result dump of lines 151, 264 and 462 is in its trace), RESPMOD answers with
the block response (200, modified, block page) iff the severity of `s` is not
among the ok statuses of the resolved scanner, and with 204 iff it is; REQMOD,
when the template data serializes, takes the serve-locally path iff the
severity is not among them, and answers 204 iff it is. -/
theorem C3_block_iff_severity_not_ok {σ : Type} (fuel : Nat) (cfg : AppConfig) (env : Env σ)
    (w : World σ) (req : ICAPRequest) (r : Run σ) (t : Int) (s : SampleInfo)
    (hd : (⟨t, .DumpResult s⟩ : Event) ∈ r.trace) :
    (ToICAPEGResp fuel cfg env w req = some r →
      (r.outcome = blockPage env req (baseHeader env) (ToLower cfg.RespScannerVendor) s ↔
        s.SampleSeverity ∉ respOkFileStatus env (ToLower cfg.RespScannerVendor)) ∧
      (r.outcome = writeHeader (baseHeader env) 204 ↔
        s.SampleSeverity ∈ respOkFileStatus env (ToLower cfg.RespScannerVendor))) ∧
    (ToICAPEGReq fuel cfg env w req = some r →
      ∀ dataByte : Bytes,
        env.jsonMarshal (templateData env req (ToLower cfg.ReqScannerVendor) s) = .ok dataByte →
        (r.outcome = .ServeLocally (baseHeader env) { req.Request with Body := dataByte } ↔
          s.SampleSeverity ∉ reqOkFileStatus env (ToLower cfg.ReqScannerVendor)) ∧
        (r.outcome = writeHeader (baseHeader env) 204 ↔
          s.SampleSeverity ∈ reqOkFileStatus env (ToLower cfg.ReqScannerVendor))) := by
  constructor
  · intro hrun
    rw [ToICAPEGResp_dump fuel cfg env w req r t s hrun hd]
    by_cases hm : s.SampleSeverity ∈ respOkFileStatus env (ToLower cfg.RespScannerVendor)
    · simp [respVerdict, InStringSlice_eq_decide, hm, blockPage, writeHeader]
    · simp [respVerdict, InStringSlice_eq_decide, hm, blockPage, writeHeader]
  · intro hrun dataByte hj
    rw [ToICAPEGReq_dump fuel cfg env w req r t s hrun hd]
    by_cases hm : s.SampleSeverity ∈ reqOkFileStatus env (ToLower cfg.ReqScannerVendor)
    · simp [reqVerdict, InStringSlice_eq_decide, hm, writeHeader]
    · simp [reqVerdict, InStringSlice_eq_decide, hm, writeHeader, hj]

/-- The two verdict runs, both with severity `malicious` against the ok list `ok`. -/
theorem C3_block_iff_severity_not_ok_witness :
    ((blockedRespRun.outcome =
          blockPage verdictEnv (demoReq "RESPMOD" [("Allow", ["204"])] [[1, 2, 3]])
            (baseHeader verdictEnv) (ToLower (demoCfg "ClamAV" 10 true).RespScannerVendor)
            (sampleOf "malicious") ↔
        (sampleOf "malicious").SampleSeverity ∉
          respOkFileStatus verdictEnv (ToLower (demoCfg "ClamAV" 10 true).RespScannerVendor)) ∧
      (blockedRespRun.outcome = writeHeader (baseHeader verdictEnv) 204 ↔
        (sampleOf "malicious").SampleSeverity ∈
          respOkFileStatus verdictEnv (ToLower (demoCfg "ClamAV" 10 true).RespScannerVendor))) ∧
    ((blockedReqRun.outcome =
          .ServeLocally (baseHeader verdictEnv)
            { (demoReq "REQMOD" [("Allow", ["204"])] []).Request with
              Body := [2, 2, 2, 2, 2, 2, 2, 2, 2] } ↔
        (sampleOf "malicious").SampleSeverity ∉
          reqOkFileStatus verdictEnv (ToLower (demoCfg "VirusTotal" 10 true).ReqScannerVendor)) ∧
      (blockedReqRun.outcome = writeHeader (baseHeader verdictEnv) 204 ↔
        (sampleOf "malicious").SampleSeverity ∈
          reqOkFileStatus verdictEnv (ToLower (demoCfg "VirusTotal" 10 true).ReqScannerVendor))) :=
  ⟨(C3_block_iff_severity_not_ok 0 (demoCfg "ClamAV" 10 true) verdictEnv ⟨0, 0⟩
      (demoReq "RESPMOD" [("Allow", ["204"])] [[1, 2, 3]]) blockedRespRun 5
      (sampleOf "malicious") (by decide)).1 rfl,
   (C3_block_iff_severity_not_ok 1 (demoCfg "VirusTotal" 10 true) verdictEnv ⟨0, 0⟩
      (demoReq "REQMOD" [("Allow", ["204"])] []) blockedReqRun 14
      (sampleOf "malicious") (by decide)).2 rfl [2, 2, 2, 2, 2, 2, 2, 2, 2] rfl⟩

/-! ## The shape of the trace of submit and poll -/

theorem pollBody_forall {σ : Type} (P : Event → Prop) (cfg : AppConfig) (svc : Service σ)
    (tg : Target) (submitResp : SubmitResponse) (fmi : FileMetaInfo)
    (hstatus : ∀ t ok, P ⟨t, .GetSubmissionStatus submitResp.SubmissionID ok⟩)
    (hinfo : ∀ t ok, P ⟨t, infoAct tg submitResp.SubmissionSampleID fmi ok⟩)
    (hsleep : ∀ t, P ⟨t, .Sleep svc.GetStatusCheckInterval⟩)
    (si : Option SampleInfo) (w : World σ) :
    ∀ e ∈ (pollBody cfg svc tg submitResp fmi si w).trace, P e := by
  simp only [pollBody, sleepUnlessFinished]
  split
  · split
    · simp [hstatus]
    · split <;> simp [hstatus, hsleep]
  · split
    · simp [hinfo]
    · split <;> simp [hinfo, hsleep]

theorem pollLoop_forall {σ : Type} (P : Event → Prop) (cfg : AppConfig) (svc : Service σ)
    (tg : Target) (submitResp : SubmitResponse) (fmi : FileMetaInfo) (T : Int)
    (hbody : ∀ si w, ∀ e ∈ (pollBody cfg svc tg submitResp fmi si w).trace, P e) :
    ∀ (fuel : Nat) (fin : Bool) (si : Option SampleInfo) (w : World σ)
      (l : Stage (Bool × Option SampleInfo) σ),
      pollLoop cfg svc tg submitResp fmi T fuel fin si w = some l → ∀ e ∈ l.trace, P e := by
  intro fuel
  induction fuel with
  | zero =>
    intro fin si w l h
    rw [pollLoop_zero] at h
    split at h
    · cases h
    · cases h; simp
  | succ n ih =>
    intro fin si w l h
    rw [pollLoop_succ] at h
    split at h
    · split at h
      · cases h; exact hbody si w
      · rename_i fin1 si1 _
        cases hrec : pollLoop cfg svc tg submitResp fmi T n fin1 si1
            (pollBody cfg svc tg submitResp fmi si w).world with
        | none => simp [hrec, Stage.after] at h
        | some l1 =>
          simp [hrec, Stage.after] at h
          subst h
          intro e he
          simp at he
          rcases he with he | he
          · exact hbody si w e he
          · exact ih _ _ _ _ hrec e he
    · cases h; simp

theorem finalize_forall {σ : Type} (P : Event → Prop) (cfg : AppConfig) (svc : Service σ)
    (tg : Target) (submitResp : SubmitResponse) (fmi : FileMetaInfo)
    (hinfo : ∀ t ok, P ⟨t, infoAct tg submitResp.SubmissionSampleID fmi ok⟩)
    (hdump : ∀ t s, P ⟨t, .DumpResult s⟩)
    (fin : Bool) (si : Option SampleInfo) (w : World σ) :
    ∀ e ∈ (finalize cfg svc tg submitResp fmi fin si w).trace, P e := by
  cases fin with
  | false => simp [finalize]
  | true =>
    cases si with
    | some info => simp [finalize, hdump]
    | none =>
      simp only [finalize]
      cases hr : (infoCall svc tg w submitResp.SubmissionSampleID fmi).result with
      | error e => simp [hinfo]
      | ok info => simp [hinfo, hdump]

theorem submitAndPoll_forall {σ : Type} (P : Event → Prop) (fuel : Nat) (cfg : AppConfig)
    (svc : Service σ) (tg : Target) (fmi : FileMetaInfo) (w : World σ) (st : Stage SampleInfo σ)
    (hsubmit : ∀ t ok, P ⟨t, submitAct tg ok⟩)
    (hstatus : ∀ t id ok, P ⟨t, .GetSubmissionStatus id ok⟩)
    (hinfo : ∀ t id ok, P ⟨t, infoAct tg id fmi ok⟩)
    (hsleep : ∀ t d, P ⟨t, .Sleep d⟩)
    (hdump : ∀ t s, P ⟨t, .DumpResult s⟩)
    (hrun : submitAndPoll fuel cfg svc tg fmi w = some st) :
    ∀ e ∈ st.trace, P e := by
  simp only [submitAndPoll] at hrun
  split at hrun
  · cases hrun
    simp [hsubmit]
  · rename_i submitResp _
    split at hrun
    · cases hrun
      simp [hsubmit]
    · split at hrun
      · cases hrun
      · rename_i l hl
        have hloop := pollLoop_forall P cfg svc tg submitResp fmi _
          (pollBody_forall P cfg svc tg submitResp fmi (fun t ok => hstatus t _ ok)
            (fun t ok => hinfo t _ ok) (fun t => hsleep t _)) _ _ _ _ l hl
        split at hrun
        · cases hrun
          intro e he
          simp at he
          rcases he with he | he
          · rw [he]; exact hsubmit _ _
          · exact hloop e he
        · cases hrun
          intro e he
          simp at he
          rcases he with he | he | he
          · rw [he]; exact hsubmit _ _
          · exact hloop e he
          · exact finalize_forall P cfg svc tg submitResp fmi (fun t ok => hinfo t _ ok) hdump
              _ _ _ e he

theorem respScan_carries {σ : Type} (fuel : Nat) (cfg : AppConfig) (env : Env σ)
    (req : ICAPRequest) (h : List (String × String)) (scannerName : String) (buf : Bytes)
    (w : World σ) (r : Run σ) (hrun : respScan fuel cfg env req h scannerName buf w = some r) :
    ∀ e ∈ r.trace, e.act.carries buf
      { FileName := env.GetFileName req.Request, FileType := env.GetFileExtension req.Request,
        FileSize := buf.length } = true := by
  simp only [respScan] at hrun
  split at hrun
  · split at hrun
    · cases hrun; simp [Action.carries]
    · split at hrun
      · cases hrun; simp [Action.carries]
      · split at hrun
        · cases hrun; simp [Action.carries]
        · cases hrun; simp [Action.carries]
  · split at hrun
    · cases hrun; simp [Action.carries]
    · split at hrun
      · cases hrun; simp [Action.carries]
      · split at hrun
        · cases hrun
        · rename_i st hst
          have hall := submitAndPoll_forall
            (fun e => e.act.carries buf
              { FileName := env.GetFileName req.Request,
                FileType := env.GetFileExtension req.Request,
                FileSize := buf.length } = true) _ _ _ _ _ _ st
            (by simp [submitAct, Action.carries]) (by simp [Action.carries])
            (by simp [infoAct, Action.carries]) (by simp [Action.carries])
            (by simp [Action.carries]) hst
          split at hrun <;>
          · cases hrun
            intro e he
            simp at he
            rcases he with he | he | he
            · rw [he]; simp [Action.carries]
            · rw [he]; simp [Action.carries]
            · exact hall e he

theorem ioCopy_length (chunks : List Bytes) :
    ∀ buf : Bytes, (ioCopy buf chunks).length = buf.length + (chunks.map List.length).sum := by
  induction chunks with
  | nil => intro buf; simp [ioCopy]
  | cons c cs ih => intro buf; simp [ioCopy, ih, Nat.add_assoc]

/-! ## The body buffer and the size check -/

theorem respBody_cases {σ : Type} (fuel : Nat) (cfg : AppConfig) (env : Env σ) (req : ICAPRequest)
    (h : List (String × String)) (scannerName : String) (w : World σ) (r : Run σ)
    (hrun : respBody fuel cfg env req h scannerName w = some r) :
    (r.outcome = writeHeader h 204 ∧
      ∃ ok, r.trace = [⟨w.clock, .Copy (ioCopy [] req.ResponseBody.chunks).length ok⟩]) ∨
    (((ioCopy [] req.ResponseBody.chunks).length : Int) ≤ cfg.MaxFileSize ∧
      ∃ r1, respScan fuel cfg env req h scannerName (ioCopy [] req.ResponseBody.chunks) w =
          some r1 ∧
        r.outcome = r1.outcome ∧
        r.trace = ⟨w.clock, .Copy (ioCopy [] req.ResponseBody.chunks).length true⟩ :: r1.trace) := by
  simp only [respBody] at hrun
  split at hrun
  · cases hrun; exact Or.inl ⟨rfl, false, rfl⟩
  · split at hrun
    · cases hrun; exact Or.inl ⟨rfl, true, rfl⟩
    · rename_i hle
      obtain ⟨r1, h1, ho, ht, _⟩ := Run.after_eq_some hrun
      exact Or.inr ⟨not_lt.mp hle, r1, h1, ho, by simpa using ht⟩

theorem ToICAPEGResp_cases {σ : Type} (fuel : Nat) (cfg : AppConfig) (env : Env σ) (w : World σ)
    (req : ICAPRequest) (r : Run σ) (hrun : ToICAPEGResp fuel cfg env w req = some r) :
    r.trace = [] ∨
    respBody fuel cfg env req (baseHeader env) (ToLower cfg.RespScannerVendor) w = some r := by
  simp only [ToICAPEGResp] at hrun
  split at hrun
  · split at hrun <;> (cases hrun; exact Or.inl rfl)
  · split at hrun
    · simp only [respmod, respGate] at hrun
      split at hrun
      · cases hrun; exact Or.inl rfl
      · split at hrun
        · cases hrun; exact Or.inl rfl
        · split at hrun
          · cases hrun; exact Or.inl rfl
          · split at hrun
            · cases hrun; exact Or.inl rfl
            · exact Or.inr hrun
    · split at hrun <;> (cases hrun; exact Or.inl rfl)

theorem ToICAPEGResp_carries {σ : Type} (fuel : Nat) (cfg : AppConfig) (env : Env σ)
    (w : World σ) (req : ICAPRequest) (r : Run σ)
    (hrun : ToICAPEGResp fuel cfg env w req = some r) :
    ∀ e ∈ r.trace, e.act.carries (ioCopy [] req.ResponseBody.chunks)
      { FileName := env.GetFileName req.Request, FileType := env.GetFileExtension req.Request,
        FileSize := req.ResponseBody.length } = true := by
  have hlen : (ioCopy [] req.ResponseBody.chunks).length = req.ResponseBody.length := by
    simp [ioCopy_length, BodyReader.length]
  rcases ToICAPEGResp_cases fuel cfg env w req r hrun with h0 | hb
  · simp [h0]
  · rcases respBody_cases _ _ _ _ _ _ _ _ hb with ⟨_, ok, ht⟩ | ⟨_, r1, h1, _, ht⟩
    · simp [ht, Action.carries]
    · intro e he
      rw [ht] at he
      simp at he
      rcases he with he | he
      · simp [he, Action.carries]
      · rw [← hlen]
        exact respScan_carries _ _ _ _ _ _ _ _ _ h1 e he

/-- C4 as stated fails: with `MaxFileSize = 2` a body of three bytes is copied
whole into the buffer (the copy reports 3 bytes) before the size check answers
204. -/
theorem C4_counterexample_buffer_exceeds_max :
    ioCopy [] [[1, 2], [3]] = [1, 2, 3] ∧
    ¬ (((ioCopy [] [[1, 2], [3]]).length : Int) ≤ (demoCfg "ClamAV" 2 true).MaxFileSize) ∧
    (ToICAPEGResp 0 (demoCfg "ClamAV" 2 true) verdictEnv ⟨0, 0⟩
        (demoReq "RESPMOD" [("Allow", ["204"])] [[1, 2], [3]])).map
          (fun r => (r.outcome, r.trace)) =
      some (writeHeader [("Service", "Egirna ICAP-EG"), ("Istag", "ICAPEG")] 204,
            [⟨0, .Copy 3 true⟩]) := by
  decide

/-- Of every run of the RESPMOD handler: a copy in its trace reports the full
body length, a scanner is resolved or called only with at most `MaxFileSize`
bytes buffered, and every call takes the whole buffer and its length. -/
theorem ToICAPEGResp_scanned_within_max {σ : Type} (fuel : Nat) (cfg : AppConfig) (env : Env σ)
    (w : World σ) (req : ICAPRequest) (r : Run σ)
    (hrun : ToICAPEGResp fuel cfg env w req = some r) :
    (∀ t n ok, (⟨t, .Copy n ok⟩ : Event) ∈ r.trace → n = req.ResponseBody.length) ∧
    (∀ e ∈ r.trace, (e.act.isResolution || e.act.isScannerCall) = true →
      (req.ResponseBody.length : Int) ≤ cfg.MaxFileSize) ∧
    (∀ e ∈ r.trace, e.act.carries (ioCopy [] req.ResponseBody.chunks)
      { FileName := env.GetFileName req.Request, FileType := env.GetFileExtension req.Request,
        FileSize := req.ResponseBody.length } = true) := by
  have hlen : (ioCopy [] req.ResponseBody.chunks).length = req.ResponseBody.length := by
    simp [ioCopy_length, BodyReader.length]
  have hcar := ToICAPEGResp_carries fuel cfg env w req r hrun
  refine ⟨?_, ?_, hcar⟩
  · intro t n ok hmem
    have := hcar _ hmem
    simp [Action.carries] at this
    rw [this, hlen]
  · intro e he hres
    rcases ToICAPEGResp_cases fuel cfg env w req r hrun with h0 | hb
    · simp [h0] at he
    · rcases respBody_cases _ _ _ _ _ _ _ _ hb with ⟨_, ok, ht⟩ | ⟨hle, _⟩
      · rw [ht] at he
        simp at he
        rw [he] at hres
        simp [Action.isResolution, Action.isScannerCall] at hres
      · rw [← hlen]; exact hle

theorem respScan_head {σ : Type} (fuel : Nat) (cfg : AppConfig) (env : Env σ)
    (req : ICAPRequest) (h : List (String × String)) (scannerName : String) (buf : Bytes)
    (w : World σ) (r : Run σ) (hrun : respScan fuel cfg env req h scannerName buf w = some r) :
    ∃ rest, r.trace = ⟨w.clock, .IsServiceLocal scannerName⟩ :: rest := by
  simp only [respScan] at hrun
  split at hrun
  · split at hrun
    · cases hrun; exact ⟨_, rfl⟩
    · split at hrun
      · cases hrun; exact ⟨_, rfl⟩
      · split at hrun <;> (cases hrun; exact ⟨_, rfl⟩)
  · split at hrun
    · cases hrun; exact ⟨_, rfl⟩
    · split at hrun
      · cases hrun; exact ⟨_, rfl⟩
      · split at hrun
        · cases hrun
        · split at hrun <;> (cases hrun; exact ⟨_, rfl⟩)

theorem allowScreen_of_204 (header : List (String × List String))
    (hAllow : ∃ vs, header.lookup "Allow" = some ("204" :: vs)) :
    allowScreen header = false := by
  obtain ⟨vs, h⟩ := hAllow
  simp [allowScreen, h, NoModificationStatusCodeStr]

theorem ToICAPEGResp_reaches_body {σ : Type} (fuel : Nat) (cfg : AppConfig) (env : Env σ)
    (w : World σ) (req : ICAPRequest) (hm : req.Method = "RESPMOD")
    (hallow : ∃ vs, req.Header.lookup "Allow" = some ("204" :: vs))
    (hremote : cfg.RemoteICAP = "") (hvendor : ToLower cfg.RespScannerVendor ≠ "")
    (hgate : extensionGate (env.GetMimeExtension req.Preview) cfg.ProcessExtensions
      cfg.BypassExtensions = false) :
    ToICAPEGResp fuel cfg env w req =
      respBody fuel cfg env req (baseHeader env) (ToLower cfg.RespScannerVendor) w := by
  simp [ToICAPEGResp, respmod, respGate, hm, ICAPModeOptions, ICAPModeResp,
    allowScreen_of_204 _ hallow, hremote, hvendor, hgate]

/-- C4, amended: a RESPMOD transaction that reaches the body copy (Allow is
204, no remote ICAP, a vendor is configured, the gate says process) copies the
whole body it reads into the buffer, whatever `MaxFileSize` is, before it
decides: every run starts with the copy of the full body length; when the copy
fails or the body is longer than `MaxFileSize` the run is that copy alone,
answered 204, with no scanner resolved or called.  Of every run of the handler:
a copy it holds reports the full body length, a copy of a body longer than
`MaxFileSize` is the whole trace and is answered 204, a run that resolves or
calls a scanner has buffered at most `MaxFileSize` bytes, and every call that
takes the buffer or the file size takes that buffer and its length. -/
theorem C4_body_buffered_whole_then_checked {σ : Type} (fuel : Nat) (cfg : AppConfig)
    (env : Env σ) (w : World σ) (req : ICAPRequest) :
    (∀ r, ToICAPEGResp fuel cfg env w req = some r →
      (∀ t n ok, (⟨t, .Copy n ok⟩ : Event) ∈ r.trace → n = req.ResponseBody.length) ∧
      (∀ t n ok, (⟨t, .Copy n ok⟩ : Event) ∈ r.trace →
        cfg.MaxFileSize < (req.ResponseBody.length : Int) →
        r.outcome = writeHeader (baseHeader env) 204 ∧
        r.trace = [⟨w.clock, .Copy req.ResponseBody.length ok⟩]) ∧
      (∀ e ∈ r.trace, (e.act.isResolution || e.act.isScannerCall) = true →
        (req.ResponseBody.length : Int) ≤ cfg.MaxFileSize) ∧
      (∀ e ∈ r.trace, e.act.carries (ioCopy [] req.ResponseBody.chunks)
        { FileName := env.GetFileName req.Request, FileType := env.GetFileExtension req.Request,
          FileSize := req.ResponseBody.length } = true)) ∧
    (req.Method = "RESPMOD" → (∃ vs, req.Header.lookup "Allow" = some ("204" :: vs)) →
      cfg.RemoteICAP = "" → ToLower cfg.RespScannerVendor ≠ "" →
      extensionGate (env.GetMimeExtension req.Preview) cfg.ProcessExtensions
        cfg.BypassExtensions = false →
      (∀ r, ToICAPEGResp fuel cfg env w req = some r →
        ∃ ok rest, r.trace = ⟨w.clock, .Copy req.ResponseBody.length ok⟩ :: rest) ∧
      (req.ResponseBody.err ≠ none ∨ cfg.MaxFileSize < (req.ResponseBody.length : Int) →
        ToICAPEGResp fuel cfg env w req =
          some { outcome := writeHeader (baseHeader env) 204,
                 trace := [⟨w.clock, .Copy req.ResponseBody.length
                   req.ResponseBody.err.isNone⟩],
                 world := w })) := by
  have hlen : (ioCopy [] req.ResponseBody.chunks).length = req.ResponseBody.length := by
    simp [ioCopy_length, BodyReader.length]
  constructor
  · intro r hrun
    obtain ⟨h1, h2, h3⟩ := ToICAPEGResp_scanned_within_max fuel cfg env w req r hrun
    refine ⟨h1, ?_, h2, h3⟩
    intro t n ok hmem hgt
    rcases ToICAPEGResp_cases fuel cfg env w req r hrun with h0 | hb
    · simp [h0] at hmem
    · rcases respBody_cases _ _ _ _ _ _ _ _ hb with ⟨ho, ok1, ht⟩ | ⟨hle, _⟩
      · rw [ht] at hmem
        simp at hmem
        refine ⟨ho, ?_⟩
        rw [ht, hlen, hmem.2.2]
      · rw [hlen] at hle
        omega
  · intro hm hallow hremote hvendor hgate
    have hbody := ToICAPEGResp_reaches_body fuel cfg env w req hm hallow hremote hvendor hgate
    constructor
    · intro r hrun
      rw [hbody] at hrun
      rcases respBody_cases _ _ _ _ _ _ _ _ hrun with ⟨_, ok, ht⟩ | ⟨_, r1, _, _, ht⟩
      · exact ⟨ok, [], by rw [ht, hlen]⟩
      · exact ⟨true, r1.trace, by rw [ht, hlen]⟩
    · intro hcase
      rw [hbody]
      simp only [respBody, hlen]
      cases herr : req.ResponseBody.err with
      | some e => simp
      | none =>
        rcases hcase with h | h
        · exact absurd herr h
        · simp only [Option.isNone_none]
          rw [if_pos (by simpa using h)]

/-- The blocked RESPMOD run (three bytes buffered under a limit of ten, then
scanned) and the oversize request (three bytes under a limit of two): the
latter is the copy of three bytes alone, answered 204. -/
theorem C4_body_buffered_whole_then_checked_witness :
    ((∀ t n ok, (⟨t, .Copy n ok⟩ : Event) ∈ blockedRespRun.trace →
        n = (demoReq "RESPMOD" [("Allow", ["204"])] [[1, 2, 3]]).ResponseBody.length) ∧
      (∀ e ∈ blockedRespRun.trace, (e.act.isResolution || e.act.isScannerCall) = true →
        ((demoReq "RESPMOD" [("Allow", ["204"])] [[1, 2, 3]]).ResponseBody.length : Int) ≤
          (demoCfg "ClamAV" 10 true).MaxFileSize)) ∧
    ToICAPEGResp 0 (demoCfg "ClamAV" 2 true) verdictEnv ⟨0, 0⟩
        (demoReq "RESPMOD" [("Allow", ["204"])] [[1, 2], [3]]) =
      some { outcome := writeHeader (baseHeader verdictEnv) 204,
             trace := [⟨0, .Copy 3 true⟩], world := ⟨0, 0⟩ } :=
  ⟨⟨((C4_body_buffered_whole_then_checked 0 (demoCfg "ClamAV" 10 true) verdictEnv ⟨0, 0⟩
        (demoReq "RESPMOD" [("Allow", ["204"])] [[1, 2, 3]])).1 blockedRespRun rfl).1,
     ((C4_body_buffered_whole_then_checked 0 (demoCfg "ClamAV" 10 true) verdictEnv ⟨0, 0⟩
        (demoReq "RESPMOD" [("Allow", ["204"])] [[1, 2, 3]])).1 blockedRespRun rfl).2.2.1⟩,
   ((C4_body_buffered_whole_then_checked 0 (demoCfg "ClamAV" 2 true) verdictEnv ⟨0, 0⟩
      (demoReq "RESPMOD" [("Allow", ["204"])] [[1, 2], [3]])).2 rfl ⟨[], rfl⟩ rfl (by decide)
      (by decide)).2 (Or.inr (by decide))⟩

/-- C5: a RESPMOD transaction that reaches the size check (Allow is 204, no
remote ICAP, a vendor is configured, the gate says process, the body was read
without error) is answered 204 with no scanner resolved or called when the
body is strictly longer than `MaxFileSize`; when the body length is at most
`MaxFileSize`, exactly `MaxFileSize` included, the handler goes on to the scan
stage, whose first call resolves the scanner and whose calls take the buffered
body and a file size equal to the body length. -/
theorem C5_size_check_boundary {σ : Type} (fuel : Nat) (cfg : AppConfig) (env : Env σ)
    (w : World σ) (req : ICAPRequest) (hm : req.Method = "RESPMOD")
    (hallow : ∃ vs, req.Header.lookup "Allow" = some ("204" :: vs))
    (hremote : cfg.RemoteICAP = "") (hvendor : ToLower cfg.RespScannerVendor ≠ "")
    (hgate : extensionGate (env.GetMimeExtension req.Preview) cfg.ProcessExtensions
      cfg.BypassExtensions = false)
    (herr : req.ResponseBody.err = none) :
    (cfg.MaxFileSize < (req.ResponseBody.length : Int) →
      ToICAPEGResp fuel cfg env w req =
        some { outcome := writeHeader (baseHeader env) 204,
               trace := [⟨w.clock, .Copy req.ResponseBody.length true⟩], world := w }) ∧
    ((req.ResponseBody.length : Int) ≤ cfg.MaxFileSize →
      ToICAPEGResp fuel cfg env w req =
        Run.after [⟨w.clock, .Copy req.ResponseBody.length true⟩]
          (respScan fuel cfg env req (baseHeader env) (ToLower cfg.RespScannerVendor)
            (ioCopy [] req.ResponseBody.chunks) w) ∧
      ∀ r, ToICAPEGResp fuel cfg env w req = some r →
        (∃ rest, r.trace = ⟨w.clock, .Copy req.ResponseBody.length true⟩ ::
          ⟨w.clock, .IsServiceLocal (ToLower cfg.RespScannerVendor)⟩ :: rest) ∧
        ∀ e ∈ r.trace, e.act.carries (ioCopy [] req.ResponseBody.chunks)
          { FileName := env.GetFileName req.Request,
            FileType := env.GetFileExtension req.Request,
            FileSize := req.ResponseBody.length } = true) := by
  have hlen : (ioCopy [] req.ResponseBody.chunks).length = req.ResponseBody.length := by
    simp [ioCopy_length, BodyReader.length]
  have hbody := ToICAPEGResp_reaches_body fuel cfg env w req hm hallow hremote hvendor hgate
  constructor
  · intro hgt
    rw [hbody]
    simp only [respBody, herr, hlen]
    rw [if_pos (by simpa using hgt)]
  · intro hle
    have heq : ToICAPEGResp fuel cfg env w req =
        Run.after [⟨w.clock, .Copy req.ResponseBody.length true⟩]
          (respScan fuel cfg env req (baseHeader env) (ToLower cfg.RespScannerVendor)
            (ioCopy [] req.ResponseBody.chunks) w) := by
      rw [hbody]
      simp only [respBody, herr, hlen]
      rw [if_neg (by simpa using hle)]
    refine ⟨heq, ?_⟩
    intro r hr
    refine ⟨?_, (ToICAPEGResp_carries fuel cfg env w req r hr)⟩
    rw [heq] at hr
    obtain ⟨r1, h1, _, ht, _⟩ := Run.after_eq_some hr
    obtain ⟨rest, hrest⟩ := respScan_head _ _ _ _ _ _ _ _ _ h1
    exact ⟨rest, by simp [ht, hrest]⟩

/-- A body of eleven bytes under a limit of ten is answered 204 after the copy; a body of exactly ten bytes goes on to the scan stage. -/
theorem C5_size_check_boundary_witness :
    ToICAPEGResp 0 (demoCfg "ClamAV" 10 true) verdictEnv ⟨0, 0⟩
        (demoReq "RESPMOD" [("Allow", ["204"])] [[1, 2, 3, 4, 5, 6], [7, 8, 9, 10, 11]]) =
      some { outcome := writeHeader (baseHeader verdictEnv) 204,
             trace := [⟨0, .Copy 11 true⟩], world := ⟨0, 0⟩ } ∧
    ToICAPEGResp 0 (demoCfg "ClamAV" 10 true) verdictEnv ⟨0, 0⟩
        (demoReq "RESPMOD" [("Allow", ["204"])] [[1, 2, 3, 4, 5, 6], [7, 8, 9, 10]]) =
      Run.after [⟨0, .Copy 10 true⟩]
        (respScan 0 (demoCfg "ClamAV" 10 true) verdictEnv
          (demoReq "RESPMOD" [("Allow", ["204"])] [[1, 2, 3, 4, 5, 6], [7, 8, 9, 10]])
          (baseHeader verdictEnv) "clamav" [1, 2, 3, 4, 5, 6, 7, 8, 9, 10] ⟨0, 0⟩) :=
  ⟨(C5_size_check_boundary 0 (demoCfg "ClamAV" 10 true) verdictEnv ⟨0, 0⟩
      (demoReq "RESPMOD" [("Allow", ["204"])] [[1, 2, 3, 4, 5, 6], [7, 8, 9, 10, 11]])
      rfl ⟨[], rfl⟩ rfl (by decide) (by decide) rfl).1 (by decide),
   ((C5_size_check_boundary 0 (demoCfg "ClamAV" 10 true) verdictEnv ⟨0, 0⟩
      (demoReq "RESPMOD" [("Allow", ["204"])] [[1, 2, 3, 4, 5, 6], [7, 8, 9, 10]])
      rfl ⟨[], rfl⟩ rfl (by decide) (by decide) rfl).2 (by decide)).1⟩

/-! ## Both lists hold the wildcard -/

/-- C6 as stated fails: with `*` in both lists the gate of either handler
bypasses the extension `exe`, which is in neither list by name: the second
if-block (lines 94-95 and 360-361) fires and the handler answers 204 at the
gate without any call. -/
theorem C6_counterexample_both_wildcards_bypass :
    "*" ∈ ["*"] ∧
    notProcessable "exe" ["*"] ["*"] = false ∧
    unprocessable "exe" ["*"] ["*"] = true ∧
    extensionGate "exe" ["*"] ["*"] = true ∧
    gateRules "exe" ["*"] ["*"] = true ∧
    (ToICAPEGResp 0 { demoCfg "ClamAV" 10 true with BypassExtensions := ["*"] } verdictEnv
        ⟨0, 0⟩ (demoReq "RESPMOD" [("Allow", ["204"])] [[1, 2, 3]])).map
          (fun r => (r.outcome, r.trace)) =
      some (writeHeader [("Service", "Egirna ICAP-EG"), ("Istag", "ICAPEG")] 204, []) ∧
    (ToICAPEGReq 0 { demoCfg "VirusTotal" 10 true with BypassExtensions := ["*"] } verdictEnv
        ⟨0, 0⟩ (demoReq "REQMOD" [("Allow", ["204"])] [])).map
          (fun r => (r.outcome, r.trace)) =
      some (writeHeader [("Service", "Egirna ICAP-EG"), ("Istag", "ICAPEG")] 204, []) := by
  decide

/-- C6, amended: when both `ProcessExtensions` and `BypassExtensions` contain
`*`, the gate returns process exactly when the candidate extension is itself
listed in `ProcessExtensions` and not listed in `BypassExtensions`; then the
handler goes on (RESPMOD to the body copy, REQMOD to the scan), and for every
other extension it answers 204 at the gate. -/
theorem C6_both_wildcards_process_iff_listed {σ : Type} (fuel : Nat) (cfg : AppConfig)
    (env : Env σ) (req : ICAPRequest) (h : List (String × String)) (scannerName : String)
    (w : World σ) (ext : String) (hP : "*" ∈ cfg.ProcessExtensions)
    (hB : "*" ∈ cfg.BypassExtensions) :
    (extensionGate ext cfg.ProcessExtensions cfg.BypassExtensions = false ↔
      (ext ∈ cfg.ProcessExtensions ∧ ext ∉ cfg.BypassExtensions)) ∧
    respGate fuel cfg env req h scannerName w =
      (if env.GetMimeExtension req.Preview ∈ cfg.ProcessExtensions ∧
          env.GetMimeExtension req.Preview ∉ cfg.BypassExtensions then
        respBody fuel cfg env req h scannerName w
      else some { outcome := writeHeader h 204, trace := [], world := w }) ∧
    reqGate fuel cfg env req h scannerName w =
      (if (if env.GetFileExtension req.Request = "" then "html"
            else env.GetFileExtension req.Request) ∈ cfg.ProcessExtensions ∧
          (if env.GetFileExtension req.Request = "" then "html"
            else env.GetFileExtension req.Request) ∉ cfg.BypassExtensions then
        reqScan fuel cfg env req h scannerName w
      else some { outcome := writeHeader h 204, trace := [], world := w }) := by
  have key : ∀ e : String, extensionGate e cfg.ProcessExtensions cfg.BypassExtensions = false ↔
      (e ∈ cfg.ProcessExtensions ∧ e ∉ cfg.BypassExtensions) := by
    intro e
    rw [← Bool.not_eq_true, extensionGate_iff]
    simp only [hP, hB, not_true_eq_false, false_and, true_and, false_or, not_or, not_not]
  refine ⟨key ext, ?_, ?_⟩
  · simp only [respGate]
    by_cases hk : env.GetMimeExtension req.Preview ∈ cfg.ProcessExtensions ∧
        env.GetMimeExtension req.Preview ∉ cfg.BypassExtensions
    · rw [if_pos hk, (key _).2 hk]; simp
    · rw [if_neg hk]
      have : extensionGate (env.GetMimeExtension req.Preview) cfg.ProcessExtensions
          cfg.BypassExtensions = true := by
        rw [← Bool.not_eq_false]; exact fun hf => hk ((key _).1 hf)
      rw [this]; simp
  · simp only [reqGate]
    by_cases hk : (if env.GetFileExtension req.Request = "" then "html"
          else env.GetFileExtension req.Request) ∈ cfg.ProcessExtensions ∧
        (if env.GetFileExtension req.Request = "" then "html"
          else env.GetFileExtension req.Request) ∉ cfg.BypassExtensions
    · rw [if_pos hk, (key _).2 hk]; simp
    · rw [if_neg hk]
      have : extensionGate (if env.GetFileExtension req.Request = "" then "html"
          else env.GetFileExtension req.Request) cfg.ProcessExtensions
          cfg.BypassExtensions = true := by
        rw [← Bool.not_eq_false]; exact fun hf => hk ((key _).1 hf)
      rw [this]; simp

/-- With `*` and `exe` in the process list and `*` in the bypass list, `exe` is processed. -/
theorem C6_both_wildcards_process_iff_listed_witness :
    "*" ∈ ["*", "exe"] ∧ "*" ∈ ["*"] ∧
    (extensionGate "exe" ["*", "exe"] ["*"] = false ↔ ("exe" ∈ ["*", "exe"] ∧ "exe" ∉ ["*"])) :=
  ⟨by decide, by decide,
   (C6_both_wildcards_process_iff_listed 0
      { demoCfg "ClamAV" 10 true with
        ProcessExtensions := ["*", "exe"], BypassExtensions := ["*"] }
      verdictEnv (demoReq "RESPMOD" [("Allow", ["204"])] [[1, 2, 3]]) [] "clamav" ⟨0, 0⟩ "exe"
      (by decide) (by decide)).1⟩

/-! ## A failed scanner call ends the transaction -/

@[simp] theorem isFailedCall_submitAct (tg : Target) (ok : Bool) :
    (submitAct tg ok).isFailedCall = !ok := by
  cases tg <;> rfl

@[simp] theorem isFailedCall_infoAct (tg : Target) (sampleID : String) (fmi : FileMetaInfo)
    (ok : Bool) : (infoAct tg sampleID fmi ok).isFailedCall = !ok := by
  cases tg <;> rfl

@[simp] theorem isFailedCall_status (submissionID : String) (ok : Bool) :
    (Action.GetSubmissionStatus submissionID ok).isFailedCall = !ok := rfl

@[simp] theorem isFailedCall_scan (buf : Bytes) (fmi : FileMetaInfo) (ok : Bool) :
    (Action.ScanFileStream buf fmi ok).isFailedCall = !ok := rfl

@[simp] theorem isFailedCall_sleep (d : Int) : (Action.Sleep d).isFailedCall = false := rfl

@[simp] theorem isFailedCall_dump (s : SampleInfo) :
    (Action.DumpResult s).isFailedCall = false := rfl

@[simp] theorem isFailedCall_copy (n : Nat) (ok : Bool) :
    (Action.Copy n ok).isFailedCall = false := rfl

@[simp] theorem isFailedCall_isServiceLocal (name : String) :
    (Action.IsServiceLocal name).isFailedCall = false := rfl

@[simp] theorem isFailedCall_getLocalService (name : String) :
    (Action.GetLocalService name).isFailedCall = false := rfl

@[simp] theorem isFailedCall_getService (name : String) :
    (Action.GetService name).isFailedCall = false := rfl

@[simp] theorem noFailedCall_nil : noFailedCall [] := by
  intro e he; cases he

@[simp] theorem noFailedCall_cons (e : Event) (tr : List Event) :
    noFailedCall (e :: tr) ↔ e.act.isFailedCall = false ∧ noFailedCall tr := by
  simp [noFailedCall]

theorem noFailedCall_append {a b : List Event} (ha : noFailedCall a) (hb : noFailedCall b) :
    noFailedCall (a ++ b) := by
  intro e he
  rcases List.mem_append.1 he with h | h
  · exact ha e h
  · exact hb e h

theorem failsLast_prepend {pre tr : List Event} {bad : Prop} (hpre : noFailedCall pre)
    (h : failsLast tr bad) : failsLast (pre ++ tr) bad := by
  rcases h with h | ⟨hb, p, e, rfl, hp⟩
  · exact Or.inl (noFailedCall_append hpre h)
  · exact Or.inr ⟨hb, pre ++ p, e, by simp, noFailedCall_append hpre hp⟩

theorem failsLast_mono {tr : List Event} {bad bad1 : Prop} (himp : bad → bad1)
    (h : failsLast tr bad) : failsLast tr bad1 := by
  rcases h with h | ⟨hb, rest⟩
  · exact Or.inl h
  · exact Or.inr ⟨himp hb, rest⟩

theorem failsLast_single (e : Event) {bad : Prop} (hb : bad) : failsLast [e] bad :=
  Or.inr ⟨hb, [], e, rfl, noFailedCall_nil⟩

theorem failsLast_last {tr : List Event} {bad : Prop} (h : failsLast tr bad) (e : Event)
    (he : e ∈ tr) (hf : e.act.isFailedCall = true) :
    bad ∧ ∃ pre, tr = pre ++ [e] ∧ noFailedCall pre := by
  rcases h with h | ⟨hb, p, e1, rfl, hp⟩
  · rw [h e he] at hf; cases hf
  · refine ⟨hb, p, ?_, hp⟩
    rcases List.mem_append.1 he with h1 | h1
    · rw [hp e h1] at hf; cases hf
    · simp at h1; rw [h1]

theorem pollBody_failsLast {σ : Type} (cfg : AppConfig) (svc : Service σ) (tg : Target)
    (submitResp : SubmitResponse) (fmi : FileMetaInfo) (si : Option SampleInfo) (w : World σ) :
    failsLast (pollBody cfg svc tg submitResp fmi si w).trace
      ((pollBody cfg svc tg submitResp fmi si w).exit =
        .error (IfPropagateError cfg 424 204)) := by
  simp only [pollBody, sleepUnlessFinished]
  split
  · split
    · exact failsLast_single _ rfl
    · split <;> exact Or.inl (by simp)
  · split
    · exact failsLast_single _ rfl
    · split <;> exact Or.inl (by simp)

theorem pollLoop_failsLast {σ : Type} (cfg : AppConfig) (svc : Service σ) (tg : Target)
    (submitResp : SubmitResponse) (fmi : FileMetaInfo) (T : Int) :
    ∀ (fuel : Nat) (fin : Bool) (si : Option SampleInfo) (w : World σ)
      (l : Stage (Bool × Option SampleInfo) σ),
      pollLoop cfg svc tg submitResp fmi T fuel fin si w = some l →
      failsLast l.trace (l.exit = .error (IfPropagateError cfg 424 204)) := by
  intro fuel
  induction fuel with
  | zero =>
    intro fin si w l h
    rw [pollLoop_zero] at h
    split at h
    · cases h
    · cases h; exact Or.inl noFailedCall_nil
  | succ n ih =>
    intro fin si w l h
    rw [pollLoop_succ] at h
    split at h
    · have hb := pollBody_failsLast cfg svc tg submitResp fmi si w
      split at h
      · cases h; exact hb
      · rename_i fin1 si1 hexit
        have hnf : noFailedCall (pollBody cfg svc tg submitResp fmi si w).trace := by
          rcases hb with hb | ⟨hbad, _⟩
          · exact hb
          · rw [hexit] at hbad; cases hbad
        cases hrec : pollLoop cfg svc tg submitResp fmi T n fin1 si1
            (pollBody cfg svc tg submitResp fmi si w).world with
        | none => simp [hrec, Stage.after] at h
        | some l1 =>
          simp [hrec, Stage.after] at h
          subst h
          exact failsLast_prepend hnf (ih _ _ _ _ hrec)
    · cases h; exact Or.inl noFailedCall_nil

theorem finalize_failsLast {σ : Type} (cfg : AppConfig) (svc : Service σ) (tg : Target)
    (submitResp : SubmitResponse) (fmi : FileMetaInfo) (fin : Bool) (si : Option SampleInfo)
    (w : World σ) :
    failsLast (finalize cfg svc tg submitResp fmi fin si w).trace
      ((finalize cfg svc tg submitResp fmi fin si w).exit =
        .error (IfPropagateError cfg 424 204)) := by
  cases fin with
  | false => exact Or.inl (by simp [finalize])
  | true =>
    cases si with
    | some info =>
      exact Or.inl (by simp [finalize])
    | none =>
      simp only [finalize]
      cases hr : (infoCall svc tg w submitResp.SubmissionSampleID fmi).result with
      | error e => exact failsLast_single _ rfl
      | ok info =>
        exact Or.inl (by simp)

theorem submitAndPoll_failsLast {σ : Type} (fuel : Nat) (cfg : AppConfig) (svc : Service σ)
    (tg : Target) (fmi : FileMetaInfo) (w : World σ) (st : Stage SampleInfo σ)
    (hrun : submitAndPoll fuel cfg svc tg fmi w = some st) :
    failsLast st.trace (st.exit = .error (IfPropagateError cfg 424 204)) := by
  have hsub : noFailedCall [(⟨w.clock, submitAct tg true⟩ : Event)] := by simp
  simp only [submitAndPoll] at hrun
  split at hrun
  · cases hrun
    exact failsLast_single _ rfl
  · rename_i submitResp _
    split at hrun
    · cases hrun
      exact Or.inl hsub
    · split at hrun
      · cases hrun
      · rename_i l hl
        have hloop := pollLoop_failsLast cfg svc tg submitResp fmi _ _ _ _ _ l hl
        split at hrun
        · rename_i code hexit
          cases hrun
          have := failsLast_prepend hsub hloop
          rw [hexit] at this
          simpa using this
        · rename_i fin si hexit
          cases hrun
          have hnf : noFailedCall l.trace := by
            rcases hloop with hb | ⟨hbad, _⟩
            · exact hb
            · rw [hexit] at hbad; cases hbad
          have := failsLast_prepend (noFailedCall_append hsub hnf)
            (finalize_failsLast cfg svc tg submitResp fmi fin si l.world)
          simpa using this

theorem respScan_failsLast {σ : Type} (fuel : Nat) (cfg : AppConfig) (env : Env σ)
    (req : ICAPRequest) (h : List (String × String)) (scannerName : String) (buf : Bytes)
    (w : World σ) (r : Run σ) (hrun : respScan fuel cfg env req h scannerName buf w = some r) :
    failsLast r.trace (r.outcome = writeHeader h (IfPropagateError cfg 424 204)) := by
  simp only [respScan] at hrun
  split at hrun
  · split at hrun
    · cases hrun; exact Or.inl (by simp)
    · split at hrun
      · cases hrun; exact Or.inl (by simp)
      · split at hrun
        · cases hrun
          exact Or.inr ⟨rfl, [_, _], _, rfl, by simp⟩
        · cases hrun; exact Or.inl (by simp)
  · split at hrun
    · cases hrun; exact Or.inl (by simp)
    · split at hrun
      · cases hrun; exact Or.inl (by simp)
      · split at hrun
        · cases hrun
        · rename_i st hst
          have hst1 := submitAndPoll_failsLast _ _ _ _ _ _ st hst
          have hpre : noFailedCall [(⟨w.clock, .IsServiceLocal scannerName⟩ : Event),
              ⟨w.clock, .GetService scannerName⟩] := by simp
          split at hrun
          · rename_i code hexit
            cases hrun
            have := failsLast_prepend hpre hst1
            rw [hexit] at this
            refine failsLast_mono ?_ (by simpa using this)
            intro hc
            cases hc
            rfl
          · rename_i sampleInfo hexit
            cases hrun
            have hnf : noFailedCall st.trace := by
              rcases hst1 with hb | ⟨hbad, _⟩
              · exact hb
              · rw [hexit] at hbad; cases hbad
            exact Or.inl (by simpa using hnf)

theorem reqScan_failsLast {σ : Type} (fuel : Nat) (cfg : AppConfig) (env : Env σ)
    (req : ICAPRequest) (h : List (String × String)) (scannerName : String)
    (w : World σ) (r : Run σ) (hrun : reqScan fuel cfg env req h scannerName w = some r) :
    failsLast r.trace (r.outcome = writeHeader h (IfPropagateError cfg 424 204)) := by
  simp only [reqScan] at hrun
  split at hrun
  · cases hrun; exact Or.inl (by simp)
  · split at hrun
    · cases hrun; exact Or.inl (by simp)
    · split at hrun
      · cases hrun
      · rename_i st hst
        have hst1 := submitAndPoll_failsLast _ _ _ _ _ _ st hst
        have hpre : noFailedCall [(⟨w.clock, .GetService scannerName⟩ : Event)] := by simp
        split at hrun
        · rename_i code hexit
          cases hrun
          have := failsLast_prepend hpre hst1
          rw [hexit] at this
          refine failsLast_mono ?_ (by simpa using this)
          intro hc
          cases hc
          rfl
        · rename_i sampleInfo hexit
          cases hrun
          have hnf : noFailedCall st.trace := by
            rcases hst1 with hb | ⟨hbad, _⟩
            · exact hb
            · rw [hexit] at hbad; cases hbad
          exact Or.inl (by simpa using hnf)

theorem ToICAPEGReq_cases {σ : Type} (fuel : Nat) (cfg : AppConfig) (env : Env σ) (w : World σ)
    (req : ICAPRequest) (r : Run σ) (hrun : ToICAPEGReq fuel cfg env w req = some r) :
    r.trace = [] ∨
    reqScan fuel cfg env req (baseHeader env) (ToLower cfg.ReqScannerVendor) w = some r := by
  simp only [ToICAPEGReq] at hrun
  split at hrun
  · split at hrun <;> (cases hrun; exact Or.inl rfl)
  · split at hrun
    · simp only [reqmod] at hrun
      split at hrun
      · cases hrun; exact Or.inl rfl
      · split at hrun
        · cases hrun; exact Or.inl rfl
        · split at hrun
          · cases hrun; exact Or.inl rfl
          · simp only [reqGate] at hrun
            by_cases hg : extensionGate (if env.GetFileExtension req.Request = "" then "html"
                else env.GetFileExtension req.Request) cfg.ProcessExtensions
                cfg.BypassExtensions = true
            · rw [if_pos hg] at hrun
              cases hrun; exact Or.inl rfl
            · rw [if_neg hg] at hrun
              exact Or.inr hrun
    · split at hrun <;> (cases hrun; exact Or.inl rfl)

theorem ToICAPEGResp_failsLast {σ : Type} (fuel : Nat) (cfg : AppConfig) (env : Env σ)
    (w : World σ) (req : ICAPRequest) (r : Run σ)
    (hrun : ToICAPEGResp fuel cfg env w req = some r) :
    failsLast r.trace
      (r.outcome = writeHeader (baseHeader env) (IfPropagateError cfg 424 204)) := by
  rcases ToICAPEGResp_cases fuel cfg env w req r hrun with h0 | hb
  · exact Or.inl (by simp [h0])
  · rcases respBody_cases _ _ _ _ _ _ _ _ hb with ⟨_, ok, ht⟩ | ⟨_, r1, h1, ho, ht⟩
    · exact Or.inl (by simp [ht])
    · rw [ht, ho]
      have hpre : noFailedCall
          [(⟨w.clock, .Copy (ioCopy [] req.ResponseBody.chunks).length true⟩ : Event)] := by simp
      exact failsLast_prepend hpre (respScan_failsLast _ _ _ _ _ _ _ _ _ h1)

theorem ToICAPEGReq_failsLast {σ : Type} (fuel : Nat) (cfg : AppConfig) (env : Env σ)
    (w : World σ) (req : ICAPRequest) (r : Run σ)
    (hrun : ToICAPEGReq fuel cfg env w req = some r) :
    failsLast r.trace
      (r.outcome = writeHeader (baseHeader env) (IfPropagateError cfg 424 204)) := by
  rcases ToICAPEGReq_cases fuel cfg env w req r hrun with h0 | hb
  · exact Or.inl (by simp [h0])
  · exact reqScan_failsLast _ _ _ _ _ _ _ _ hb

/-- C7: in every transaction of either handler in which a scanner call fails
(submit, status, sample info during polling or at finalize, local scan), the
response is `WriteHeader(code, nil, false)` with code 424 when `PropagateError`
is on and 204 when it is off, so no block page is emitted, and the failing
call is the last event of the transaction: no retry, no further poll, and no
call before it failed. -/
theorem C7_failed_call_ends_transaction {σ : Type} (fuel : Nat) (cfg : AppConfig) (env : Env σ)
    (w : World σ) (req : ICAPRequest) (r : Run σ) (e : Event)
    (hrun : ToICAPEGResp fuel cfg env w req = some r ∨ ToICAPEGReq fuel cfg env w req = some r)
    (he : e ∈ r.trace) (hf : e.act.isFailedCall = true) :
    r.outcome = .Written { Header := baseHeader env,
                           Code := if cfg.PropagateError then 424 else 204,
                           HTTPMessage := none, HasBody := false, Body := [] } ∧
    ∃ pre, r.trace = pre ++ [e] ∧ noFailedCall pre := by
  have hinv : failsLast r.trace
      (r.outcome = writeHeader (baseHeader env) (IfPropagateError cfg 424 204)) := by
    rcases hrun with h | h
    · exact ToICAPEGResp_failsLast fuel cfg env w req r h
    · exact ToICAPEGReq_failsLast fuel cfg env w req r h
  exact failsLast_last hinv e he hf

/-- The two failure runs: a failed local scan under `PropagateError` on (424) and a failed second status call under `PropagateError` off (204). -/
theorem C7_failed_call_ends_transaction_witness :
    (failedRespRun.outcome =
        .Written { Header := baseHeader failureEnv,
                   Code := if (demoCfg "ClamAV" 10 true).PropagateError then 424 else 204,
                   HTTPMessage := none, HasBody := false, Body := [] } ∧
      ∃ pre, failedRespRun.trace =
          pre ++ [⟨0, .ScanFileStream [1, 2, 3] ⟨"y.exe", "exe", 3⟩ false⟩] ∧
        noFailedCall pre) ∧
    (failedReqRun.outcome =
        .Written { Header := baseHeader failureEnv,
                   Code := if (demoCfg "VirusTotal" 10 false).PropagateError then 424 else 204,
                   HTTPMessage := none, HasBody := false, Body := [] } ∧
      ∃ pre, failedReqRun.trace = pre ++ [⟨507, .GetSubmissionStatus "5651578" false⟩] ∧
        noFailedCall pre) :=
  ⟨C7_failed_call_ends_transaction 0 (demoCfg "ClamAV" 10 true) failureEnv ⟨0, 0⟩
      (demoReq "RESPMOD" [("Allow", ["204"])] [[1, 2, 3]]) failedRespRun
      ⟨0, .ScanFileStream [1, 2, 3] ⟨"y.exe", "exe", 3⟩ false⟩ (Or.inl rfl) (by decide) rfl,
   C7_failed_call_ends_transaction 2 (demoCfg "VirusTotal" 10 false) failureEnv ⟨0, 0⟩
      (demoReq "REQMOD" [("Allow", ["204"])] []) failedReqRun
      ⟨507, .GetSubmissionStatus "5651578" false⟩ (Or.inr rfl) (by decide) rfl⟩

/-! ## Polling a scanner that never finishes -/

theorem pollBody_unfinished {σ : Type} (cfg : AppConfig) (svc : Service σ) (tg : Target)
    (submitResp : SubmitResponse) (fmi : FileMetaInfo) (si : Option SampleInfo) (w : World σ)
    (hse : svc.StatusEndpointExists = true)
    (hnever : ∀ (w1 : World σ) (id : String),
      (svc.GetSubmissionStatus w1 id).result = .ok ⟨false⟩) :
    pollBody cfg svc tg submitResp fmi si w =
      { exit := .ok (false, si)
        trace := [⟨w.clock, .GetSubmissionStatus submitResp.SubmissionID true⟩,
                  ⟨w.clock + (svc.GetSubmissionStatus w submitResp.SubmissionID).took,
                    .Sleep svc.GetStatusCheckInterval⟩]
        world := (w.after (svc.GetSubmissionStatus w submitResp.SubmissionID)).sleep
          svc.GetStatusCheckInterval } := by
  simp [pollBody, hse, hnever, sleepUnlessFinished, World.after]

theorem pollLoop_unfinished_terminates {σ : Type} (cfg : AppConfig) (svc : Service σ)
    (tg : Target) (submitResp : SubmitResponse) (fmi : FileMetaInfo) (T : Int)
    (hse : svc.StatusEndpointExists = true)
    (hnever : ∀ (w1 : World σ) (id : String),
      (svc.GetSubmissionStatus w1 id).result = .ok ⟨false⟩)
    (hint : 0 < svc.GetStatusCheckInterval) :
    ∀ (fuel : Nat) (si : Option SampleInfo) (w : World σ), (T - w.clock).toNat ≤ fuel →
      ∃ l, pollLoop cfg svc tg submitResp fmi T fuel false si w = some l ∧
        l.exit = .ok (false, si) ∧ noSampleInfoCall l.trace := by
  intro fuel
  induction fuel with
  | zero =>
    intro si w hfuel
    have hT : ¬ w.clock < T := by omega
    exact ⟨{ exit := .ok (false, si), trace := [], world := w },
      by simp [pollLoop_zero, hT], rfl, by intro e he; cases he⟩
  | succ n ih =>
    intro si w hfuel
    rw [pollLoop_succ]
    by_cases hT : w.clock < T
    · rw [pollBody_unfinished cfg svc tg submitResp fmi si w hse hnever]
      simp only [Bool.not_false, Bool.true_and, decide_eq_true_eq, hT, if_true]
      have hclock : (T - ((w.after (svc.GetSubmissionStatus w submitResp.SubmissionID)).sleep
          svc.GetStatusCheckInterval).clock).toNat ≤ n := by
        simp only [World.sleep, World.after]
        have : max svc.GetStatusCheckInterval 0 = svc.GetStatusCheckInterval :=
          max_eq_left (le_of_lt hint)
        rw [this]
        omega
      obtain ⟨l, hl, hexit, hns⟩ := ih si _ hclock
      refine ⟨{ l with trace :=
          [⟨w.clock, .GetSubmissionStatus submitResp.SubmissionID true⟩,
           ⟨w.clock + (svc.GetSubmissionStatus w submitResp.SubmissionID).took,
             .Sleep svc.GetStatusCheckInterval⟩] ++ l.trace }, by rw [hl]; rfl, hexit, ?_⟩
      intro e he
      simp at he
      rcases he with h | h | h
      · rw [h]; rfl
      · rw [h]; rfl
      · exact hns e h
    · exact ⟨{ exit := .ok (false, si), trace := [], world := w }, by simp [hT], rfl,
        by intro e he; cases he⟩

theorem pollLoop_unfinished_count {σ : Type} (cfg : AppConfig) (svc : Service σ)
    (tg : Target) (submitResp : SubmitResponse) (fmi : FileMetaInfo) (T : Int)
    (hse : svc.StatusEndpointExists = true)
    (hnever : ∀ (w1 : World σ) (id : String),
      (svc.GetSubmissionStatus w1 id).result = .ok ⟨false⟩)
    (hint : 0 < svc.GetStatusCheckInterval)
    (hzero : ∀ (w1 : World σ) (id : String), (svc.GetSubmissionStatus w1 id).took = 0) :
    ∀ (k fuel : Nat) (si : Option SampleInfo) (w : World σ) (l : Stage (Bool × Option SampleInfo) σ),
      T = w.clock + k * svc.GetStatusCheckInterval →
      pollLoop cfg svc tg submitResp fmi T fuel false si w = some l →
      statusCalls l.trace = k := by
  intro k
  induction k with
  | zero =>
    intro fuel si w l hT hl
    have hT1 : ¬ w.clock < T := by simp [hT]
    cases fuel with
    | zero =>
      simp [pollLoop_zero, hT1] at hl
      subst hl; rfl
    | succ n =>
      simp [pollLoop_succ, hT1] at hl
      subst hl; rfl
  | succ k ih =>
    intro fuel si w l hT hl
    have hpos : 0 < ((k + 1 : Nat) : Int) * svc.GetStatusCheckInterval :=
      Int.mul_pos (by omega) hint
    have hT1 : w.clock < T := by omega
    cases fuel with
    | zero => simp [pollLoop_zero, hT1] at hl
    | succ n =>
      rw [pollLoop_succ, pollBody_unfinished cfg svc tg submitResp fmi si w hse hnever] at hl
      simp only [Bool.not_false, Bool.true_and, decide_eq_true_eq, hT1, if_true] at hl
      cases hrec : pollLoop cfg svc tg submitResp fmi T n false si
          ((w.after (svc.GetSubmissionStatus w submitResp.SubmissionID)).sleep
            svc.GetStatusCheckInterval) with
      | none => simp [hrec, Stage.after] at hl
      | some l1 =>
        simp [hrec, Stage.after] at hl
        subst hl
        have hT2 : T = ((w.after (svc.GetSubmissionStatus w submitResp.SubmissionID)).sleep
            svc.GetStatusCheckInterval).clock + k * svc.GetStatusCheckInterval := by
          simp only [World.sleep, World.after, hzero]
          have : max svc.GetStatusCheckInterval 0 = svc.GetStatusCheckInterval :=
            max_eq_left (le_of_lt hint)
          rw [this, hT]
          push_cast
          ring
        have := ih n si _ l1 hT2 hrec
        simp [statusCalls, Action.isStatusCall] at this ⊢
        omega

theorem submitAndPoll_unfinished {σ : Type} (cfg : AppConfig) (svc : Service σ) (tg : Target)
    (fmi : FileMetaInfo) (w : World σ)
    (hse : svc.StatusEndpointExists = true)
    (hacc : ∃ sr, (submitCall svc tg w).result = .ok sr ∧ sr.SubmissionExists = true)
    (hnever : ∀ (w1 : World σ) (id : String),
      (svc.GetSubmissionStatus w1 id).result = .ok ⟨false⟩)
    (hint : 0 < svc.GetStatusCheckInterval) (fuel : Nat)
    (hfuel : svc.GetStatusCheckTimeout.toNat ≤ fuel) :
    ∃ st, submitAndPoll fuel cfg svc tg fmi w = some st ∧ st.exit = .error 204 ∧
      noSampleInfoCall st.trace ∧
      ((∀ (w1 : World σ) (id : String), (svc.GetSubmissionStatus w1 id).took = 0) →
        ∀ k : Nat, svc.GetStatusCheckTimeout = k * svc.GetStatusCheckInterval →
          statusCalls st.trace = k) := by
  obtain ⟨sr, hsub, hex⟩ := hacc
  have hT : ((w.after (submitCall svc tg w)).clock + svc.GetStatusCheckTimeout -
      (w.after (submitCall svc tg w)).clock).toNat ≤ fuel := by
    rw [add_sub_cancel_left]; exact hfuel
  obtain ⟨l, hl, hexit, hns⟩ := pollLoop_unfinished_terminates cfg svc tg sr fmi
    ((w.after (submitCall svc tg w)).clock + svc.GetStatusCheckTimeout) hse hnever hint
    fuel none (w.after (submitCall svc tg w)) hT
  refine ⟨{ exit := .error 204, trace := ⟨w.clock, submitAct tg true⟩ :: (l.trace ++ []),
            world := l.world }, ?_, rfl, ?_, ?_⟩
  · simp only [submitAndPoll, hsub, hex, hl, hexit]
    simp [finalize]
  · intro e he
    simp at he
    rcases he with h | h
    · rw [h]; cases tg <;> rfl
    · exact hns e h
  · intro hzero k hk
    have := pollLoop_unfinished_count cfg svc tg sr fmi _ hse hnever hint hzero k fuel none _ l
      (by rw [hk]) hl
    have hs : (submitAct tg true).isStatusCall = false := by cases tg <;> rfl
    simp [statusCalls, hs] at this ⊢
    exact this

theorem ToICAPEGResp_remote_returned {σ : Type} (fuel : Nat) (cfg : AppConfig) (env : Env σ)
    (w : World σ) (req : ICAPRequest) (svc : Service σ) (st : Stage SampleInfo σ) (code : Nat)
    (hm : req.Method = "RESPMOD")
    (hallow : ∃ vs, req.Header.lookup "Allow" = some ("204" :: vs))
    (hremote : cfg.RemoteICAP = "") (hvendor : ToLower cfg.RespScannerVendor ≠ "")
    (hgate : extensionGate (env.GetMimeExtension req.Preview) cfg.ProcessExtensions
      cfg.BypassExtensions = false)
    (herr : req.ResponseBody.err = none)
    (hsize : (req.ResponseBody.length : Int) ≤ cfg.MaxFileSize)
    (hlocal : env.IsServiceLocal (ToLower cfg.RespScannerVendor) = false)
    (hsvc : env.GetService (ToLower cfg.RespScannerVendor) = some svc)
    (hresp : svc.RespSupported = true)
    (hst : submitAndPoll fuel cfg svc
      (.File (ioCopy [] req.ResponseBody.chunks) (env.GetFileName req.Request))
      { FileName := env.GetFileName req.Request, FileType := env.GetFileExtension req.Request,
        FileSize := (ioCopy [] req.ResponseBody.chunks).length } w = some st)
    (hexit : st.exit = .error code) :
    ToICAPEGResp fuel cfg env w req =
      some { outcome := writeHeader (baseHeader env) code
             trace := ⟨w.clock, .Copy req.ResponseBody.length true⟩ ::
               ⟨w.clock, .IsServiceLocal (ToLower cfg.RespScannerVendor)⟩ ::
               ⟨w.clock, .GetService (ToLower cfg.RespScannerVendor)⟩ :: st.trace
             world := st.world } := by
  have hlen : (ioCopy [] req.ResponseBody.chunks).length = req.ResponseBody.length := by
    simp [ioCopy_length, BodyReader.length]
  rw [ToICAPEGResp_reaches_body fuel cfg env w req hm hallow hremote hvendor hgate]
  simp only [respBody, herr]
  rw [if_neg (by rw [hlen]; simpa using hsize)]
  rw [hlen] at hst
  simp [Run.after, respScan, hlocal, hsvc, hresp, hst, hexit, hlen]

theorem ToICAPEGReq_remote_returned {σ : Type} (fuel : Nat) (cfg : AppConfig) (env : Env σ)
    (w : World σ) (req : ICAPRequest) (svc : Service σ) (st : Stage SampleInfo σ) (code : Nat)
    (hm : req.Method = "REQMOD")
    (hallow : ∃ vs, req.Header.lookup "Allow" = some ("204" :: vs))
    (hremote : cfg.RemoteICAP = "") (hvendor : ToLower cfg.ReqScannerVendor ≠ "")
    (hgate : extensionGate (if env.GetFileExtension req.Request = "" then "html"
        else env.GetFileExtension req.Request) cfg.ProcessExtensions
      cfg.BypassExtensions = false)
    (hsvc : env.GetService (ToLower cfg.ReqScannerVendor) = some svc)
    (hreq : svc.ReqSupported = true)
    (hst : submitAndPoll fuel cfg svc
      (.URL req.Request.RequestURI (env.GetFileName req.Request))
      { FileName := env.GetFileName req.Request, FileType := env.GetFileExtension req.Request,
        FileSize := 0 } w = some st)
    (hexit : st.exit = .error code) :
    ToICAPEGReq fuel cfg env w req =
      some { outcome := writeHeader (baseHeader env) code
             trace := ⟨w.clock, .GetService (ToLower cfg.ReqScannerVendor)⟩ :: st.trace
             world := st.world } := by
  simp only [ToICAPEGReq, reqmod, reqGate, hm, ICAPModeOptions, ICAPModeReq,
    allowScreen_of_204 _ hallow, hremote, hvendor, hgate]
  simp [reqScan, hsvc, hreq, hst, hexit]

theorem statusCalls_bounds_of_two_seconds {σ : Type} (svc : Service σ) (n : Nat)
    (hk : ∀ k : Nat, svc.GetStatusCheckTimeout = k * svc.GetStatusCheckInterval → n = k)
    (ht : svc.GetStatusCheckTimeout = 2 * Second)
    (hi : svc.GetStatusCheckInterval = 500 * Millisecond) : n = 4 ∧ 3 ≤ n ∧ n ≤ 5 := by
  have : n = 4 := hk 4 (by rw [ht, hi]; decide)
  omega

/-- C8: for every remote scanner with a status endpoint that accepts the
submission and whose `GetSubmissionStatus` answers `finished = false` on every
call, and for every positive status-check interval, the run of either handler
terminates (every fuel from the timeout in nanoseconds on gives a run), the
response is 204 whatever `PropagateError` is, and no sample-info call is
made; when status calls take no time the loop makes one status call per
interval that fits before the deadline, which for a timeout of 2 s and an
interval of 500 ms is 4 calls, between 3 and 5. -/
theorem C8_unfinished_poll_answers_204 {σ : Type} (cfg : AppConfig) (env : Env σ) (w : World σ)
    (req : ICAPRequest) (svc : Service σ)
    (hse : svc.StatusEndpointExists = true)
    (hacc : ∀ (tg : Target) (w1 : World σ),
      ∃ sr, (submitCall svc tg w1).result = .ok sr ∧ sr.SubmissionExists = true)
    (hnever : ∀ (w1 : World σ) (id : String),
      (svc.GetSubmissionStatus w1 id).result = .ok ⟨false⟩)
    (hint : 0 < svc.GetStatusCheckInterval)
    (hallow : ∃ vs, req.Header.lookup "Allow" = some ("204" :: vs))
    (hremote : cfg.RemoteICAP = "") :
    (req.Method = "RESPMOD" → ToLower cfg.RespScannerVendor ≠ "" →
      extensionGate (env.GetMimeExtension req.Preview) cfg.ProcessExtensions
        cfg.BypassExtensions = false →
      req.ResponseBody.err = none → (req.ResponseBody.length : Int) ≤ cfg.MaxFileSize →
      env.IsServiceLocal (ToLower cfg.RespScannerVendor) = false →
      env.GetService (ToLower cfg.RespScannerVendor) = some svc → svc.RespSupported = true →
      ∀ fuel, svc.GetStatusCheckTimeout.toNat ≤ fuel →
        ∃ r, ToICAPEGResp fuel cfg env w req = some r ∧
          r.outcome = writeHeader (baseHeader env) 204 ∧ noSampleInfoCall r.trace ∧
          ((∀ (w1 : World σ) (id : String), (svc.GetSubmissionStatus w1 id).took = 0) →
            (∀ k : Nat, svc.GetStatusCheckTimeout = k * svc.GetStatusCheckInterval →
              statusCalls r.trace = k) ∧
            (svc.GetStatusCheckTimeout = 2 * Second →
              svc.GetStatusCheckInterval = 500 * Millisecond →
              statusCalls r.trace = 4 ∧ 3 ≤ statusCalls r.trace ∧ statusCalls r.trace ≤ 5))) ∧
    (req.Method = "REQMOD" → ToLower cfg.ReqScannerVendor ≠ "" →
      extensionGate (if env.GetFileExtension req.Request = "" then "html"
          else env.GetFileExtension req.Request) cfg.ProcessExtensions
        cfg.BypassExtensions = false →
      env.GetService (ToLower cfg.ReqScannerVendor) = some svc → svc.ReqSupported = true →
      ∀ fuel, svc.GetStatusCheckTimeout.toNat ≤ fuel →
        ∃ r, ToICAPEGReq fuel cfg env w req = some r ∧
          r.outcome = writeHeader (baseHeader env) 204 ∧ noSampleInfoCall r.trace ∧
          ((∀ (w1 : World σ) (id : String), (svc.GetSubmissionStatus w1 id).took = 0) →
            (∀ k : Nat, svc.GetStatusCheckTimeout = k * svc.GetStatusCheckInterval →
              statusCalls r.trace = k) ∧
            (svc.GetStatusCheckTimeout = 2 * Second →
              svc.GetStatusCheckInterval = 500 * Millisecond →
              statusCalls r.trace = 4 ∧ 3 ≤ statusCalls r.trace ∧ statusCalls r.trace ≤ 5))) := by
  constructor
  · intro hm hvendor hgate herr hsize hlocal hsvc hresp fuel hfuel
    obtain ⟨st, hst, hexit, hns, hcount⟩ := submitAndPoll_unfinished cfg svc
      (.File (ioCopy [] req.ResponseBody.chunks) (env.GetFileName req.Request))
      { FileName := env.GetFileName req.Request, FileType := env.GetFileExtension req.Request,
        FileSize := (ioCopy [] req.ResponseBody.chunks).length } w hse (hacc _ _) hnever hint
      fuel hfuel
    refine ⟨_, ToICAPEGResp_remote_returned fuel cfg env w req svc st 204 hm hallow hremote
      hvendor hgate herr hsize hlocal hsvc hresp hst hexit, rfl, ?_, ?_⟩
    · intro e he
      simp at he
      rcases he with h | h | h | h
      · rw [h]; rfl
      · rw [h]; rfl
      · rw [h]; rfl
      · exact hns e h
    · intro hzero
      have hk : ∀ k : Nat, svc.GetStatusCheckTimeout = k * svc.GetStatusCheckInterval →
          statusCalls (⟨w.clock, .Copy req.ResponseBody.length true⟩ ::
            ⟨w.clock, .IsServiceLocal (ToLower cfg.RespScannerVendor)⟩ ::
            ⟨w.clock, .GetService (ToLower cfg.RespScannerVendor)⟩ :: st.trace) = k := by
        intro k hk
        have := hcount hzero k hk
        simpa [statusCalls, Action.isStatusCall] using this
      exact ⟨hk, statusCalls_bounds_of_two_seconds svc _ hk⟩
  · intro hm hvendor hgate hsvc hreq fuel hfuel
    obtain ⟨st, hst, hexit, hns, hcount⟩ := submitAndPoll_unfinished cfg svc
      (.URL req.Request.RequestURI (env.GetFileName req.Request))
      { FileName := env.GetFileName req.Request, FileType := env.GetFileExtension req.Request,
        FileSize := 0 } w hse (hacc _ _) hnever hint fuel hfuel
    refine ⟨_, ToICAPEGReq_remote_returned fuel cfg env w req svc st 204 hm hallow hremote
      hvendor hgate hsvc hreq hst hexit, rfl, ?_, ?_⟩
    · intro e he
      simp at he
      rcases he with h | h
      · rw [h]; rfl
      · exact hns e h
    · intro hzero
      have hk : ∀ k : Nat, svc.GetStatusCheckTimeout = k * svc.GetStatusCheckInterval →
          statusCalls (⟨w.clock, .GetService (ToLower cfg.ReqScannerVendor)⟩ :: st.trace) = k := by
        intro k hk
        have := hcount hzero k hk
        simpa [statusCalls, Action.isStatusCall] using this
      exact ⟨hk, statusCalls_bounds_of_two_seconds svc _ hk⟩

/-- The idle scanner (2 s, 500 ms, calls taking no time) in both handlers: 204, no sample-info call, four status calls; four passes of fuel suffice. -/
theorem C8_unfinished_poll_answers_204_witness :
    (∃ r, ToICAPEGResp 2000000000 (demoCfg "VirusTotal" 10 true) idleEnv ⟨0, 0⟩
          (demoReq "RESPMOD" [("Allow", ["204"])] [[1, 2, 3]]) = some r ∧
        r.outcome = writeHeader (baseHeader idleEnv) 204 ∧ noSampleInfoCall r.trace ∧
        statusCalls r.trace = 4) ∧
    (∃ r, ToICAPEGReq 2000000000 (demoCfg "VirusTotal" 10 false) idleEnv ⟨0, 0⟩
          (demoReq "REQMOD" [("Allow", ["204"])] []) = some r ∧
        r.outcome = writeHeader (baseHeader idleEnv) 204 ∧ noSampleInfoCall r.trace ∧
        statusCalls r.trace = 4) ∧
    (ToICAPEGResp 4 (demoCfg "VirusTotal" 10 true) idleEnv ⟨0, 0⟩
        (demoReq "RESPMOD" [("Allow", ["204"])] [[1, 2, 3]])).map
          (fun r => (r.outcome, statusCalls r.trace, r.world.clock)) =
      some (writeHeader [("Service", "Egirna ICAP-EG"), ("Istag", "ICAPEG")] 204, 4,
            2000000000) :=
  ⟨match (C8_unfinished_poll_answers_204 (demoCfg "VirusTotal" 10 true) idleEnv ⟨0, 0⟩
        (demoReq "RESPMOD" [("Allow", ["204"])] [[1, 2, 3]]) idleScanner rfl
        (fun tg _ => ⟨acceptedSubmission, by cases tg <;> rfl, rfl⟩) (fun _ _ => rfl)
        (by decide) ⟨[], rfl⟩ rfl).1 rfl (by decide) (by decide) rfl (by decide) rfl rfl rfl
        2000000000 (by decide) with
    | ⟨r, h1, h2, h3, h4⟩ => ⟨r, h1, h2, h3, ((h4 (fun _ _ => rfl)).2 rfl rfl).1⟩,
   match (C8_unfinished_poll_answers_204 (demoCfg "VirusTotal" 10 false) idleEnv ⟨0, 0⟩
        (demoReq "REQMOD" [("Allow", ["204"])] []) idleScanner rfl
        (fun tg _ => ⟨acceptedSubmission, by cases tg <;> rfl, rfl⟩) (fun _ _ => rfl)
        (by decide) ⟨[], rfl⟩ rfl).2 rfl (by decide) (by decide) rfl rfl
        2000000000 (by decide) with
    | ⟨r, h1, h2, h3, h4⟩ => ⟨r, h1, h2, h3, ((h4 (fun _ _ => rfl)).2 rfl rfl).1⟩,
   by decide⟩

/-! ## The deadline of the polling loop -/

theorem pollBody_call_time {σ : Type} (cfg : AppConfig) (svc : Service σ) (tg : Target)
    (submitResp : SubmitResponse) (fmi : FileMetaInfo) (si : Option SampleInfo) (w : World σ) :
    ∀ e ∈ (pollBody cfg svc tg submitResp fmi si w).trace,
      e.act.isScannerCall = true → e.time = w.clock := by
  simp only [pollBody, sleepUnlessFinished]
  split
  · split
    · simp
    · split <;> simp [Action.isScannerCall]
  · split
    · simp
    · split <;> simp [Action.isScannerCall]

theorem pollBody_clock_le {σ : Type} (cfg : AppConfig) (svc : Service σ) (tg : Target)
    (submitResp : SubmitResponse) (fmi : FileMetaInfo) (si : Option SampleInfo) (w : World σ)
    (D : Nat)
    (hD1 : ∀ (w1 : World σ) (id : String), (svc.GetSubmissionStatus w1 id).took ≤ D)
    (hD2 : ∀ (w1 : World σ) (id : String) (f : FileMetaInfo), (infoCall svc tg w1 id f).took ≤ D) :
    (pollBody cfg svc tg submitResp fmi si w).world.clock ≤
      w.clock + D + max svc.GetStatusCheckInterval 0 := by
  have h1 := hD1 w submitResp.SubmissionID
  have h2 := hD2 w submitResp.SubmissionSampleID fmi
  have h3 : (0 : Int) ≤ max svc.GetStatusCheckInterval 0 := le_max_right _ _
  simp only [pollBody, sleepUnlessFinished]
  split
  · split
    · simp only [World.after]; omega
    · split
      · simp only [World.after, World.sleep]; omega
      · simp only [World.after]; omega
  · split
    · simp only [World.after]; omega
    · split
      · simp only [World.after, World.sleep]; omega
      · simp only [World.after]; omega

theorem pollBody_unfinished_slept {σ : Type} (cfg : AppConfig) (svc : Service σ) (tg : Target)
    (submitResp : SubmitResponse) (fmi : FileMetaInfo) (si si1 : Option SampleInfo)
    (w : World σ)
    (h : (pollBody cfg svc tg submitResp fmi si w).exit = .ok (false, si1)) :
    w.clock + max svc.GetStatusCheckInterval 0 ≤
      (pollBody cfg svc tg submitResp fmi si w).world.clock := by
  cases hse : svc.StatusEndpointExists with
  | true =>
    simp only [pollBody, hse, if_true, sleepUnlessFinished] at h ⊢
    cases hr : (svc.GetSubmissionStatus w submitResp.SubmissionID).result with
    | error a => simp [hr] at h
    | ok status =>
      simp only [hr] at h ⊢
      cases hf : status.SubmissionFinished with
      | true => simp [hf] at h
      | false =>
        simp only [hf, Bool.not_false, if_true, World.after, World.sleep]
        omega
  | false =>
    simp only [pollBody, hse, Bool.false_eq_true, if_false, sleepUnlessFinished] at h ⊢
    cases hr : (infoCall svc tg w submitResp.SubmissionSampleID fmi).result with
    | error a => simp [hr] at h
    | ok info =>
      simp only [hr] at h ⊢
      cases hf : info.SubmissionFinished with
      | true => simp [hf] at h
      | false =>
        simp only [hf, Bool.not_false, if_true, World.after, World.sleep]
        omega

theorem pollLoop_finished {σ : Type} (cfg : AppConfig) (svc : Service σ) (tg : Target)
    (submitResp : SubmitResponse) (fmi : FileMetaInfo) (T : Int) (fuel : Nat)
    (si : Option SampleInfo) (w : World σ) :
    pollLoop cfg svc tg submitResp fmi T fuel true si w =
      some { exit := .ok (true, si), trace := [], world := w } := by
  cases fuel <;> simp [pollLoop_zero, pollLoop_succ]

theorem pollLoop_calls_before_deadline {σ : Type} (cfg : AppConfig) (svc : Service σ)
    (tg : Target) (submitResp : SubmitResponse) (fmi : FileMetaInfo) (T : Int) :
    ∀ (fuel : Nat) (fin : Bool) (si : Option SampleInfo) (w : World σ)
      (l : Stage (Bool × Option SampleInfo) σ),
      pollLoop cfg svc tg submitResp fmi T fuel fin si w = some l →
      ∀ e ∈ l.trace, e.act.isScannerCall = true → e.time < T := by
  intro fuel
  induction fuel with
  | zero =>
    intro fin si w l h
    rw [pollLoop_zero] at h
    split at h
    · cases h
    · cases h; simp
  | succ n ih =>
    intro fin si w l h
    rw [pollLoop_succ] at h
    split at h
    · rename_i hc
      have hlt : w.clock < T := by simp at hc; exact hc.2
      have hb := pollBody_call_time cfg svc tg submitResp fmi si w
      split at h
      · cases h
        intro e he hs
        rw [hb e he hs]; exact hlt
      · rename_i fin1 si1 _
        cases hrec : pollLoop cfg svc tg submitResp fmi T n fin1 si1
            (pollBody cfg svc tg submitResp fmi si w).world with
        | none => simp [hrec, Stage.after] at h
        | some l1 =>
          simp [hrec, Stage.after] at h
          subst h
          intro e he hs
          simp at he
          rcases he with he | he
          · rw [hb e he hs]; exact hlt
          · exact ih _ _ _ _ hrec e he hs
    · cases h; simp

theorem pollLoop_exit_bound {σ : Type} (cfg : AppConfig) (svc : Service σ)
    (tg : Target) (submitResp : SubmitResponse) (fmi : FileMetaInfo) (T : Int) (D : Nat)
    (hD1 : ∀ (w1 : World σ) (id : String), (svc.GetSubmissionStatus w1 id).took ≤ D)
    (hD2 : ∀ (w1 : World σ) (id : String) (f : FileMetaInfo), (infoCall svc tg w1 id f).took ≤ D) :
    ∀ (fuel : Nat) (fin : Bool) (si : Option SampleInfo) (w : World σ)
      (l : Stage (Bool × Option SampleInfo) σ),
      w.clock ≤ T + D + max svc.GetStatusCheckInterval 0 →
      pollLoop cfg svc tg submitResp fmi T fuel fin si w = some l →
      l.world.clock ≤ T + D + max svc.GetStatusCheckInterval 0 := by
  intro fuel
  induction fuel with
  | zero =>
    intro fin si w l hw h
    rw [pollLoop_zero] at h
    split at h
    · cases h
    · cases h; exact hw
  | succ n ih =>
    intro fin si w l hw h
    rw [pollLoop_succ] at h
    split at h
    · rename_i hc
      have hlt : w.clock < T := by simp at hc; exact hc.2
      have hb := pollBody_clock_le cfg svc tg submitResp fmi si w D hD1 hD2
      have hb1 : (pollBody cfg svc tg submitResp fmi si w).world.clock ≤
          T + D + max svc.GetStatusCheckInterval 0 := by omega
      split at h
      · cases h; exact hb1
      · rename_i fin1 si1 _
        cases hrec : pollLoop cfg svc tg submitResp fmi T n fin1 si1
            (pollBody cfg svc tg submitResp fmi si w).world with
        | none => simp [hrec, Stage.after] at h
        | some l1 =>
          simp [hrec, Stage.after] at h
          subst h
          exact ih _ _ _ l1 hb1 hrec
    · cases h; exact hw

theorem pollLoop_terminates {σ : Type} (cfg : AppConfig) (svc : Service σ)
    (tg : Target) (submitResp : SubmitResponse) (fmi : FileMetaInfo) (T : Int)
    (hint : 0 < svc.GetStatusCheckInterval) :
    ∀ (fuel : Nat) (fin : Bool) (si : Option SampleInfo) (w : World σ),
      (T - w.clock).toNat ≤ fuel →
      ∃ l, pollLoop cfg svc tg submitResp fmi T fuel fin si w = some l := by
  intro fuel
  induction fuel with
  | zero =>
    intro fin si w hfuel
    have hT : ¬ w.clock < T := by omega
    exact ⟨{ exit := .ok (fin, si), trace := [], world := w }, by simp [pollLoop_zero, hT]⟩
  | succ n ih =>
    intro fin si w hfuel
    rw [pollLoop_succ]
    by_cases hc : (!fin && decide (w.clock < T)) = true
    · rw [if_pos hc]
      cases hexit : (pollBody cfg svc tg submitResp fmi si w).exit with
      | error code => exact ⟨_, rfl⟩
      | ok p =>
        obtain ⟨fin1, si1⟩ := p
        cases fin1 with
        | true =>
          simp only [pollLoop_finished, Stage.after]
          exact ⟨_, rfl⟩
        | false =>
          have hs := pollBody_unfinished_slept cfg svc tg submitResp fmi si si1 w hexit
          have hmax : max svc.GetStatusCheckInterval 0 = svc.GetStatusCheckInterval :=
            max_eq_left (le_of_lt hint)
          obtain ⟨l, hl⟩ := ih false si1 (pollBody cfg svc tg submitResp fmi si w).world
            (by omega)
          simp only [hl, Stage.after]
          exact ⟨_, rfl⟩
    · rw [if_neg hc]
      exact ⟨_, rfl⟩

/-- C9 as stated fails: with a timeout of 2 s and an interval of 500 ms, a
status call issued at loop entry that takes 10 s makes the loop exit (after
its sleep) 10.5 s after entry, later than the deadline plus one interval
(2.5 s); the handler then answers 204 at that time. -/
theorem C9_counterexample_slow_call :
    (pollLoop (demoCfg "VirusTotal" 10 true) slowScanner (.File [1, 2, 3] "y.exe")
        acceptedSubmission ⟨"y.exe", "exe", 3⟩
        ((⟨0, 0⟩ : World Nat).clock + slowScanner.GetStatusCheckTimeout) 1 false none ⟨0, 0⟩).map
          (fun l => (l.trace, l.world.clock)) =
      some ([⟨0, .GetSubmissionStatus "5651578" true⟩, ⟨10000000000, .Sleep 500000000⟩],
            10500000000) ∧
    ¬ ((10500000000 : Int) ≤ (⟨0, 0⟩ : World Nat).clock + slowScanner.GetStatusCheckTimeout +
        slowScanner.GetStatusCheckInterval) ∧
    (ToICAPEGResp 1 (demoCfg "VirusTotal" 10 true) (demoEnv brokenLocalScanner slowScanner)
        ⟨0, 0⟩ (demoReq "RESPMOD" [("Allow", ["204"])] [[1, 2, 3]])).map
          (fun r => (r.outcome, r.world.clock)) =
      some (writeHeader [("Service", "Egirna ICAP-EG"), ("Istag", "ICAPEG")] 204,
            10500000000) := by
  decide

/-- C9, amended: for every scanner behaviour, the polling loop of each
handler, whose deadline T = now + status-check timeout is captured once at
loop entry and re-checked before every pass, never issues a scanner call at or
after T; when the timeout and the interval are not negative and every poll
(status or sample-info call) takes at most D, the loop exits no later than T
plus D plus one interval, hence no later than T plus one interval when polls
take no time; and with a positive interval the loop does exit: every fuel from
the timeout in nanoseconds on gives a result. -/
theorem C9_poll_loop_deadline {σ : Type} (cfg : AppConfig) (svc : Service σ) (tg : Target)
    (submitResp : SubmitResponse) (fmi : FileMetaInfo) (w : World σ) (D : Nat) :
    (∀ fuel l,
      pollLoop cfg svc tg submitResp fmi (w.clock + svc.GetStatusCheckTimeout) fuel false none w =
        some l →
      ∀ e ∈ l.trace, e.act.isScannerCall = true → e.time < w.clock + svc.GetStatusCheckTimeout) ∧
    (0 ≤ svc.GetStatusCheckTimeout → 0 ≤ svc.GetStatusCheckInterval →
      (∀ (w1 : World σ) (id : String), (svc.GetSubmissionStatus w1 id).took ≤ D) →
      (∀ (w1 : World σ) (id : String) (f : FileMetaInfo), (infoCall svc tg w1 id f).took ≤ D) →
      ∀ fuel l,
        pollLoop cfg svc tg submitResp fmi (w.clock + svc.GetStatusCheckTimeout) fuel false none
          w = some l →
        l.world.clock ≤ w.clock + svc.GetStatusCheckTimeout + D + svc.GetStatusCheckInterval) ∧
    (0 < svc.GetStatusCheckInterval →
      ∀ fuel, svc.GetStatusCheckTimeout.toNat ≤ fuel →
        ∃ l, pollLoop cfg svc tg submitResp fmi (w.clock + svc.GetStatusCheckTimeout) fuel false
          none w = some l) := by
  refine ⟨?_, ?_, ?_⟩
  · intro fuel l hl
    exact pollLoop_calls_before_deadline cfg svc tg submitResp fmi _ fuel false none w l hl
  · intro hto hint hD1 hD2 fuel l hl
    have hmax : max svc.GetStatusCheckInterval 0 = svc.GetStatusCheckInterval :=
      max_eq_left hint
    have := pollLoop_exit_bound cfg svc tg submitResp fmi
      (w.clock + svc.GetStatusCheckTimeout) D hD1 hD2 fuel false none w l (by omega) hl
    rw [hmax] at this
    exact this
  · intro hint fuel hfuel
    exact pollLoop_terminates cfg svc tg submitResp fmi _ hint fuel false none w
      (by rw [add_sub_cancel_left]; exact hfuel)

/-- The flaky scanner (timeout 2000, interval 500, polls of 7): the loop exits by 2507 and exits for every fuel from 2000 on. -/
theorem C9_poll_loop_deadline_witness :
    (∀ fuel l,
      pollLoop (demoCfg "VirusTotal" 10 true) flakyScanner (.File [1, 2, 3] "y.exe")
          acceptedSubmission ⟨"y.exe", "exe", 3⟩
          ((⟨0, 0⟩ : World Nat).clock + flakyScanner.GetStatusCheckTimeout) fuel false none
          ⟨0, 0⟩ = some l →
        l.world.clock ≤ (⟨0, 0⟩ : World Nat).clock + flakyScanner.GetStatusCheckTimeout +
          (7 : Nat) + flakyScanner.GetStatusCheckInterval) ∧
    (∀ fuel, flakyScanner.GetStatusCheckTimeout.toNat ≤ fuel →
      ∃ l, pollLoop (demoCfg "VirusTotal" 10 true) flakyScanner (.File [1, 2, 3] "y.exe")
          acceptedSubmission ⟨"y.exe", "exe", 3⟩
          ((⟨0, 0⟩ : World Nat).clock + flakyScanner.GetStatusCheckTimeout) fuel false none
          ⟨0, 0⟩ = some l) :=
  ⟨(C9_poll_loop_deadline (demoCfg "VirusTotal" 10 true) flakyScanner (.File [1, 2, 3] "y.exe")
      acceptedSubmission ⟨"y.exe", "exe", 3⟩ ⟨0, 0⟩ 7).2.1 (by decide) (by decide)
      (fun _ _ => Nat.le_refl 7) (fun _ _ _ => Nat.le_refl 7),
   (C9_poll_loop_deadline (demoCfg "VirusTotal" 10 true) flakyScanner (.File [1, 2, 3] "y.exe")
      acceptedSubmission ⟨"y.exe", "exe", 3⟩ ⟨0, 0⟩ 7).2.2 (by decide)⟩

/-! ## The OPTIONS answer -/

theorem isDigit_iff_mem_decimalDigits (c : Char) :
    c.isDigit = true ↔ c ∈ decimalDigits := by
  constructor
  · intro h
    have hc : c = Char.ofNat c.toNat := (Char.ofNat_toNat c).symm
    have hb : 48 ≤ c.toNat ∧ c.toNat ≤ 57 := by
      simp only [Char.isDigit, Bool.and_eq_true, decide_eq_true_eq] at h
      exact ⟨h.1, h.2⟩
    obtain ⟨h1, h2⟩ := hb
    rw [hc]
    generalize c.toNat = k at h1 h2
    interval_cases k <;> decide
  · intro h
    simp only [decimalDigits, List.mem_cons, List.mem_singleton, List.not_mem_nil,
      or_false] at h
    rcases h with h | h | h | h | h | h | h | h | h | h <;> (subst h; decide)

theorem digit_value_zero_iff (c : Char) (h : c.isDigit = true) :
    c.toNat - 48 = 0 ↔ c = '0' := by
  have hb : 48 ≤ c.toNat := by
    simp only [Char.isDigit, Bool.and_eq_true, decide_eq_true_eq] at h
    exact h.1
  constructor
  · intro h0
    have h48 : c.toNat = 48 := by omega
    have hc : c = Char.ofNat c.toNat := (Char.ofNat_toNat c).symm
    rw [hc, h48]
  · intro hc
    subst hc
    rfl

theorem digitsFold_none (ds : List Char) :
    ds.foldl
      (fun acc d => match acc with
        | none => none
        | some n => if d.isDigit then some (n * 10 + (d.toNat - 48)) else none)
      (none : Option Nat) = none := by
  induction ds with
  | nil => rfl
  | cons d ds ih => simpa using ih

theorem digitsFold_pos (ds : List Char) :
    ∀ a : Nat,
      (∃ n, ds.foldl
          (fun acc d => match acc with
            | none => none
            | some n => if d.isDigit then some (n * 10 + (d.toNat - 48)) else none)
          (some a) = some n ∧ 0 < n) ↔
        (ds.all (fun c => decimalDigits.contains c) = true ∧
          (0 < a ∨ ds.any (fun c => c != '0') = true)) := by
  induction ds with
  | nil => intro a; simp
  | cons d ds ih =>
    intro a
    by_cases hd : d.isDigit = true
    · have hmem : decimalDigits.contains d = true := by
        simpa using (isDigit_iff_mem_decimalDigits d).1 hd
      have hz := digit_value_zero_iff d hd
      have hne : (d != '0') = true ↔ d.toNat - 48 ≠ 0 := by
        rw [bne_iff_ne, ne_eq, ne_eq, hz]
      rw [List.foldl_cons]
      simp only [hd, if_true]
      rw [ih, List.all_cons, List.any_cons, hmem, Bool.true_and, Bool.or_eq_true, hne]
      constructor
      · rintro ⟨hall, h | h⟩
        · exact ⟨hall, by omega⟩
        · exact ⟨hall, Or.inr (Or.inr h)⟩
      · rintro ⟨hall, h | h | h⟩
        · exact ⟨hall, Or.inl (by omega)⟩
        · exact ⟨hall, Or.inl (by omega)⟩
        · exact ⟨hall, Or.inr h⟩
    · have hmem : decimalDigits.contains d = false := by
        rw [← Bool.not_eq_true]
        intro hm
        exact hd ((isDigit_iff_mem_decimalDigits d).2 (by simpa using hm))
      rw [List.foldl_cons]
      simp only [hd, Bool.false_eq_true, if_false]
      rw [digitsFold_none, List.all_cons, hmem]
      simp

theorem digitsValue_pos (ds : List Char) :
    (∃ n, digitsValue ds = some n ∧ 0 < n) ↔
      (ds.isEmpty = false ∧ ds.all (fun c => decimalDigits.contains c) = true ∧
        ds.any (fun c => c != '0') = true) := by
  cases ds with
  | nil => simp [digitsValue]
  | cons c cs =>
    have := digitsFold_pos (c :: cs) 0
    simp only [digitsValue, List.isEmpty_cons, true_and]
    rw [this]
    simp

theorem splitSign_minus (cs : List Char) : splitSign ('-' :: cs) = (true, cs) := rfl

theorem splitSign_plus (cs : List Char) : splitSign ('+' :: cs) = (false, cs) := rfl

theorem splitSign_other (ds : List Char) (hm : ∀ cs, ds ≠ '-' :: cs) (hp : ∀ cs, ds ≠ '+' :: cs) :
    splitSign ds = (false, ds) := by
  unfold splitSign
  split
  · exact absurd rfl (hm _)
  · exact absurd rfl (hp _)
  · rfl

theorem clamp_pos (neg : Bool) (n : Nat) :
    (0 < (if neg = true then - ((min n (2 ^ 63) : Nat) : Int)
        else ((min n (2 ^ 63 - 1) : Nat) : Int))) ↔ (neg = false ∧ 0 < n) := by
  cases neg with
  | true =>
    simp only [if_true, Bool.true_eq_false, false_and, iff_false, not_lt]
    omega
  | false =>
    simp only [Bool.false_eq_true, if_false, true_and]
    omega

theorem Atoi_pos_iff (s : String) : 0 < Atoi s ↔ isPositiveDecimal s = true := by
  have key : ∀ (neg : Bool) (ds : List Char),
      (0 < (match digitsValue ds with
        | none => (0 : Int)
        | some n =>
          if neg = true then - ((min n (2 ^ 63) : Nat) : Int)
          else ((min n (2 ^ 63 - 1) : Nat) : Int))) ↔
      (neg = false ∧ ds.isEmpty = false ∧ ds.all (fun c => decimalDigits.contains c) = true ∧
        ds.any (fun c => c != '0') = true) := by
    intro neg ds
    rw [← digitsValue_pos]
    cases hv : digitsValue ds with
    | none => simp
    | some n =>
      have hex : (∃ m, some n = some m ∧ 0 < m) ↔ 0 < n := by simp
      rw [hex]
      exact clamp_pos neg n
  unfold Atoi isPositiveDecimal
  rw [key]
  by_cases hm : ∃ cs, s.data = '-' :: cs
  · obtain ⟨cs, hcs⟩ := hm
    simp [hcs, splitSign_minus, decimalDigits, and_assoc]
  · by_cases hp : ∃ cs, s.data = '+' :: cs
    · obtain ⟨cs, hcs⟩ := hp
      simp [hcs, splitSign_plus, and_assoc]
    · have h1 : ∀ cs, s.data ≠ '-' :: cs := fun cs h => hm ⟨cs, h⟩
      have h2 : ∀ cs, s.data ≠ '+' :: cs := fun cs h => hp ⟨cs, h⟩
      rw [splitSign_other s.data h1 h2]
      have hmatch : (match s.data with
          | '+' :: rest => rest
          | cs => cs) = s.data := by
        split
        · rename_i rest heq
          exact absurd heq (h2 rest)
        · rfl
      simp only [hmatch]
      simp [and_assoc]

theorem canonical_ISTag : CanonicalMIMEHeaderKey "ISTag" = "Istag" := by decide

theorem canonical_Service : CanonicalMIMEHeaderKey "Service" = "Service" := by decide

theorem canonical_Methods : CanonicalMIMEHeaderKey "Methods" = "Methods" := by decide

theorem canonical_Allow : CanonicalMIMEHeaderKey "Allow" = "Allow" := by decide

theorem canonical_Preview : CanonicalMIMEHeaderKey "Preview" = "Preview" := by decide

theorem canonical_Transfer_Preview :
    CanonicalMIMEHeaderKey "Transfer-Preview" = "Transfer-Preview" := by decide

/-- C10: with `RemoteICAP` empty, an OPTIONS request to the RESPMOD handler is
answered 200 with no encapsulated message or body and with the headers ISTag,
Service, Methods = RESPMOD, Allow = 204 and Transfer-Preview = `*` (read the
way `http.Header` reads them, under the canonical form of the key); the
Preview header is set, to the configured `PreviewBytes`, exactly when
`PreviewBytes` is a decimal integer greater than 0 (an optional `+`, decimal
digits, not all `0`) and is omitted otherwise, in particular when
`PreviewBytes` is `0`.  The REQMOD handler answers the same way with
Methods = REQMOD and Preview = 0. -/
theorem C10_options_answer {σ : Type} (fuel : Nat) (cfg : AppConfig) (env : Env σ)
    (w : World σ) (req : ICAPRequest) (hm : req.Method = "OPTIONS")
    (hremote : cfg.RemoteICAP = "") :
    (∃ hdr, ToICAPEGResp fuel cfg env w req =
          some { outcome := .Written { Header := hdr, Code := 200, HTTPMessage := none,
                                       HasBody := false, Body := [] },
                 trace := [], world := w } ∧
        hGet hdr "ISTag" = some env.ISTag ∧
        hGet hdr "Service" = some "Egirna ICAP-EG" ∧
        hGet hdr "Methods" = some "RESPMOD" ∧
        hGet hdr "Allow" = some "204" ∧
        hGet hdr "Transfer-Preview" = some "*" ∧
        hGet hdr "Preview" =
          (if isPositiveDecimal cfg.PreviewBytes = true then some cfg.PreviewBytes else none) ∧
        (cfg.PreviewBytes = "0" → hGet hdr "Preview" = none)) ∧
    (∃ hdr, ToICAPEGReq fuel cfg env w req =
          some { outcome := .Written { Header := hdr, Code := 200, HTTPMessage := none,
                                       HasBody := false, Body := [] },
                 trace := [], world := w } ∧
        hGet hdr "ISTag" = some env.ISTag ∧
        hGet hdr "Service" = some "Egirna ICAP-EG" ∧
        hGet hdr "Methods" = some "REQMOD" ∧
        hGet hdr "Allow" = some "204" ∧
        hGet hdr "Transfer-Preview" = some "*" ∧
        hGet hdr "Preview" = some "0") := by
  have hzero : isPositiveDecimal "0" = false := by decide
  constructor
  · by_cases hp : 0 < Atoi cfg.PreviewBytes
    · have hd := (Atoi_pos_iff _).1 hp
      refine ⟨_, by simp only [ToICAPEGResp, hm, hremote, hp, ICAPModeOptions, writeHeader,
        if_true, ne_eq, not_true_eq_false, if_false]; rfl, ?_⟩
      simp only [hd, if_true]
      refine ⟨?_, ?_, ?_, ?_, ?_, ?_, ?_⟩ <;>
        first
        | (intro h0; rw [h0, hzero] at hd; cases hd)
        | simp [hSet, hGet, baseHeader, List.lookup, ICAPModeResp, Any, canonical_ISTag,
            canonical_Service, canonical_Methods, canonical_Allow, canonical_Preview,
            canonical_Transfer_Preview]
    · have hd : isPositiveDecimal cfg.PreviewBytes = false := by
        rw [← Bool.not_eq_true, ← Atoi_pos_iff]; exact hp
      refine ⟨_, by simp only [ToICAPEGResp, hm, hremote, hp, ICAPModeOptions, writeHeader,
        if_true, ne_eq, not_true_eq_false, if_false]; rfl, ?_⟩
      simp only [hd, Bool.false_eq_true, if_false]
      refine ⟨?_, ?_, ?_, ?_, ?_, ?_, ?_⟩ <;>
        simp [hSet, hGet, baseHeader, List.lookup, ICAPModeResp, Any, canonical_ISTag,
          canonical_Service, canonical_Methods, canonical_Allow, canonical_Preview,
          canonical_Transfer_Preview]
  · refine ⟨_, by simp only [ToICAPEGReq, hm, hremote, ICAPModeOptions, writeHeader,
      if_true, ne_eq, not_true_eq_false, if_false]; rfl, ?_⟩
    refine ⟨?_, ?_, ?_, ?_, ?_, ?_⟩ <;>
      simp [hSet, hGet, baseHeader, List.lookup, ICAPModeReq, Any, canonical_ISTag,
        canonical_Service, canonical_Methods, canonical_Allow, canonical_Preview,
        canonical_Transfer_Preview]

/-- RESPMOD OPTIONS with `PreviewBytes = 1024`: the stored header map; and the
Preview header for `+5` (set), `0`, `-3`, `abc` and the empty string (omitted). -/
theorem C10_options_answer_witness :
    (∃ hdr, ToICAPEGResp 0 (demoCfg "ClamAV" 10 true) verdictEnv ⟨0, 0⟩
          (demoReq "OPTIONS" [] []) =
          some { outcome := .Written { Header := hdr, Code := 200, HTTPMessage := none,
                                       HasBody := false, Body := [] },
                 trace := [], world := ⟨0, 0⟩ } ∧
        hGet hdr "ISTag" = some verdictEnv.ISTag ∧
        hGet hdr "Service" = some "Egirna ICAP-EG" ∧
        hGet hdr "Methods" = some "RESPMOD" ∧
        hGet hdr "Allow" = some "204" ∧
        hGet hdr "Transfer-Preview" = some "*" ∧
        hGet hdr "Preview" =
          (if isPositiveDecimal (demoCfg "ClamAV" 10 true).PreviewBytes = true then
            some (demoCfg "ClamAV" 10 true).PreviewBytes else none) ∧
        ((demoCfg "ClamAV" 10 true).PreviewBytes = "0" → hGet hdr "Preview" = none)) ∧
    isPositiveDecimal (demoCfg "ClamAV" 10 true).PreviewBytes = true ∧
    (ToICAPEGResp 0 (demoCfg "ClamAV" 10 true) verdictEnv ⟨0, 0⟩
        (demoReq "OPTIONS" [] [])).map (fun r => r.outcome) =
      some (.Written { Header := [("Transfer-Preview", "*"), ("Preview", "1024"),
                                  ("Allow", "204"), ("Methods", "RESPMOD"),
                                  ("Service", "Egirna ICAP-EG"), ("Istag", "ICAPEG")],
                       Code := 200, HTTPMessage := none, HasBody := false, Body := [] }) ∧
    (["+5", "0", "-3", "abc", ""].map fun pb =>
        (ToICAPEGResp 0 { demoCfg "ClamAV" 10 true with PreviewBytes := pb } verdictEnv ⟨0, 0⟩
          (demoReq "OPTIONS" [] [])).map fun r =>
            match r.outcome with
            | .Written resp => hGet resp.Header "Preview"
            | _ => none) =
      [some (some "+5"), some none, some none, some none, some none] ∧
    ["+5", "0", "-3", "abc", ""].map isPositiveDecimal = [true, false, false, false, false] :=
  ⟨(C10_options_answer 0 (demoCfg "ClamAV" 10 true) verdictEnv ⟨0, 0⟩
      (demoReq "OPTIONS" [] []) rfl rfl).1, by decide, by decide, by decide, by decide⟩

/-! ## The first poll that reports finished -/

theorem pollBody_answered_unfinished {σ : Type} (cfg : AppConfig) (svc : Service σ)
    (tg : Target) (submitResp : SubmitResponse) (fmi : FileMetaInfo) (si : Option SampleInfo)
    (w : World σ) (h : pollAnswer svc tg submitResp fmi w = .ok false) :
    pollBody cfg svc tg submitResp fmi si w =
      { exit := .ok (false, polledSample svc tg submitResp fmi si w)
        trace := [pollEvent svc tg submitResp fmi w true,
                  ⟨(afterPoll svc tg submitResp fmi w).clock, .Sleep svc.GetStatusCheckInterval⟩]
        world := (afterPoll svc tg submitResp fmi w).sleep svc.GetStatusCheckInterval } := by
  cases hse : svc.StatusEndpointExists with
  | true =>
    simp only [pollAnswer, hse, if_true] at h
    cases hr : (svc.GetSubmissionStatus w submitResp.SubmissionID).result with
    | error e => simp [hr, Except.map] at h
    | ok status =>
      simp only [hr, Except.map, Except.ok.injEq] at h
      simp [pollBody, hse, hr, h, sleepUnlessFinished, polledSample, pollEvent, afterPoll]
  | false =>
    simp only [pollAnswer, hse, Bool.false_eq_true, if_false] at h
    cases hr : (infoCall svc tg w submitResp.SubmissionSampleID fmi).result with
    | error e => simp [hr, Except.map] at h
    | ok info =>
      simp only [hr, Except.map, Except.ok.injEq] at h
      simp [pollBody, hse, hr, h, sleepUnlessFinished, polledSample, pollEvent, afterPoll]

theorem pollBody_answered_finished {σ : Type} (cfg : AppConfig) (svc : Service σ)
    (tg : Target) (submitResp : SubmitResponse) (fmi : FileMetaInfo) (si : Option SampleInfo)
    (w : World σ) (h : pollAnswer svc tg submitResp fmi w = .ok true) :
    pollBody cfg svc tg submitResp fmi si w =
      { exit := .ok (true, polledSample svc tg submitResp fmi si w)
        trace := [pollEvent svc tg submitResp fmi w true]
        world := afterPoll svc tg submitResp fmi w } := by
  cases hse : svc.StatusEndpointExists with
  | true =>
    simp only [pollAnswer, hse, if_true] at h
    cases hr : (svc.GetSubmissionStatus w submitResp.SubmissionID).result with
    | error e => simp [hr, Except.map] at h
    | ok status =>
      simp only [hr, Except.map, Except.ok.injEq] at h
      simp [pollBody, hse, hr, h, sleepUnlessFinished, polledSample, pollEvent, afterPoll]
  | false =>
    simp only [pollAnswer, hse, Bool.false_eq_true, if_false] at h
    cases hr : (infoCall svc tg w submitResp.SubmissionSampleID fmi).result with
    | error e => simp [hr, Except.map] at h
    | ok info =>
      simp only [hr, Except.map, Except.ok.injEq] at h
      simp [pollBody, hse, hr, h, sleepUnlessFinished, polledSample, pollEvent, afterPoll]

theorem afterPoll_clock_le {σ : Type} (svc : Service σ) (tg : Target)
    (submitResp : SubmitResponse) (fmi : FileMetaInfo) (w : World σ) :
    w.clock ≤ ((afterPoll svc tg submitResp fmi w).sleep svc.GetStatusCheckInterval).clock := by
  have h3 : (0 : Int) ≤ max svc.GetStatusCheckInterval 0 := le_max_right _ _
  unfold afterPoll
  split <;> simp only [World.after, World.sleep] <;> omega

theorem pollWorld_clock_le {σ : Type} (svc : Service σ) (tg : Target)
    (submitResp : SubmitResponse) (fmi : FileMetaInfo) :
    ∀ (n : Nat) (w : World σ), w.clock ≤ (pollWorld svc tg submitResp fmi n w).clock := by
  intro n
  induction n with
  | zero => intro w; exact le_refl _
  | succ n ih =>
    intro w
    exact le_trans (afterPoll_clock_le svc tg submitResp fmi w) (ih _)

theorem polledSample_of_answered {σ : Type} (svc : Service σ) (tg : Target)
    (submitResp : SubmitResponse) (fmi : FileMetaInfo) (si si1 : Option SampleInfo)
    (w : World σ) (b : Bool) (h : pollAnswer svc tg submitResp fmi w = .ok b)
    (hsi : svc.StatusEndpointExists = true → si1 = si) :
    polledSample svc tg submitResp fmi si1 w = polledSample svc tg submitResp fmi si w := by
  cases hse : svc.StatusEndpointExists with
  | true => simp [polledSample, hse, hsi hse]
  | false =>
    simp only [pollAnswer, hse, Bool.false_eq_true, if_false] at h
    cases hr : (infoCall svc tg w submitResp.SubmissionSampleID fmi).result with
    | error e => simp [hr, Except.map] at h
    | ok info => simp [polledSample, hse, hr]

theorem pollLoop_first_finished {σ : Type} (cfg : AppConfig) (svc : Service σ) (tg : Target)
    (submitResp : SubmitResponse) (fmi : FileMetaInfo) (T : Int) :
    ∀ (n fuel : Nat) (si : Option SampleInfo) (w : World σ), n + 1 ≤ fuel →
      (∀ i, i < n →
        pollAnswer svc tg submitResp fmi (pollWorld svc tg submitResp fmi i w) = .ok false) →
      pollAnswer svc tg submitResp fmi (pollWorld svc tg submitResp fmi n w) = .ok true →
      (pollWorld svc tg submitResp fmi n w).clock < T →
      pollLoop cfg svc tg submitResp fmi T fuel false si w =
        some { exit := .ok (true,
                 polledSample svc tg submitResp fmi si (pollWorld svc tg submitResp fmi n w))
               trace := unfinishedPolls svc tg submitResp fmi n w ++
                 [pollEvent svc tg submitResp fmi (pollWorld svc tg submitResp fmi n w) true]
               world := afterPoll svc tg submitResp fmi
                 (pollWorld svc tg submitResp fmi n w) } := by
  intro n
  induction n with
  | zero =>
    intro fuel si w hfuel _ hfin hT
    obtain ⟨m, rfl⟩ : ∃ m, fuel = m + 1 := ⟨fuel - 1, by omega⟩
    simp only [pollWorld] at hfin hT ⊢
    rw [pollLoop_succ, pollBody_answered_finished cfg svc tg submitResp fmi si w hfin]
    simp [hT, pollLoop_finished, Stage.after, unfinishedPolls]
  | succ n ih =>
    intro fuel si w hfuel hunf hfin hT
    obtain ⟨m, rfl⟩ : ∃ m, fuel = m + 1 := ⟨fuel - 1, by omega⟩
    have h0 : pollAnswer svc tg submitResp fmi w = .ok false := hunf 0 (by omega)
    have hw : w.clock < T :=
      lt_of_le_of_lt (pollWorld_clock_le svc tg submitResp fmi (n + 1) w) hT
    simp only [pollWorld] at hfin hT ⊢
    have hrec := ih m (polledSample svc tg submitResp fmi si w)
      ((afterPoll svc tg submitResp fmi w).sleep svc.GetStatusCheckInterval) (by omega)
      (fun i hi => hunf (i + 1) (by omega)) hfin hT
    rw [pollLoop_succ, pollBody_answered_unfinished cfg svc tg submitResp fmi si w h0]
    simp only [Bool.not_false, Bool.true_and, decide_eq_true_eq, hw, if_true, hrec, Stage.after,
      Option.map_some', unfinishedPolls]
    rw [polledSample_of_answered svc tg submitResp fmi si _ _ true hfin]
    · simp
    · intro hse
      simp [polledSample, hse]

theorem submitAct_not_poll (tg : Target) (ok : Bool) :
    (submitAct tg ok).isStatusCall = false ∧ (submitAct tg ok).isSampleInfoCall = false ∧
      (submitAct tg ok).isSleep = false ∧
      ∀ a b : String, (submitAct tg ok).pollsWith a b = true := by
  cases tg <;> exact ⟨rfl, rfl, rfl, fun _ _ => rfl⟩

theorem infoAct_kind (tg : Target) (sampleID : String) (fmi : FileMetaInfo) (ok : Bool) :
    (infoAct tg sampleID fmi ok).isStatusCall = false ∧
      (infoAct tg sampleID fmi ok).isSampleInfoCall = true ∧
      (infoAct tg sampleID fmi ok).isSleep = false ∧
      ∀ a : String, (infoAct tg sampleID fmi ok).pollsWith a sampleID = true := by
  cases tg <;> exact ⟨rfl, rfl, rfl, fun _ => by simp [infoAct, Action.pollsWith]⟩

theorem pollEvent_kind {σ : Type} (svc : Service σ) (tg : Target) (submitResp : SubmitResponse)
    (fmi : FileMetaInfo) (w : World σ) (ok : Bool) :
    (pollEvent svc tg submitResp fmi w ok).act.isStatusCall = svc.StatusEndpointExists ∧
      (pollEvent svc tg submitResp fmi w ok).act.isSampleInfoCall =
        !svc.StatusEndpointExists ∧
      (pollEvent svc tg submitResp fmi w ok).act.isSleep = false ∧
      (pollEvent svc tg submitResp fmi w ok).act.pollsWith submitResp.SubmissionID
        submitResp.SubmissionSampleID = true := by
  have hi := infoAct_kind tg submitResp.SubmissionSampleID fmi ok
  cases hse : svc.StatusEndpointExists with
  | true => simp [pollEvent, hse, Action.isStatusCall, Action.isSampleInfoCall, Action.isSleep,
      Action.pollsWith]
  | false => simp [pollEvent, hse, hi.1, hi.2.1, hi.2.2.1, hi.2.2.2]

theorem unfinishedPolls_counts {σ : Type} (svc : Service σ) (tg : Target)
    (submitResp : SubmitResponse) (fmi : FileMetaInfo) :
    ∀ (n : Nat) (w : World σ),
      statusCalls (unfinishedPolls svc tg submitResp fmi n w) =
        (if svc.StatusEndpointExists then n else 0) ∧
      sampleInfoCalls (unfinishedPolls svc tg submitResp fmi n w) =
        (if svc.StatusEndpointExists then 0 else n) ∧
      sleepCalls (unfinishedPolls svc tg submitResp fmi n w) = n ∧
      ∀ e ∈ unfinishedPolls svc tg submitResp fmi n w,
        e.act.pollsWith submitResp.SubmissionID submitResp.SubmissionSampleID = true := by
  intro n
  induction n with
  | zero =>
    intro w
    simp [unfinishedPolls, statusCalls, sampleInfoCalls, sleepCalls]
  | succ n ih =>
    intro w
    obtain ⟨h1, h2, h3, h4⟩ :=
      ih ((afterPoll svc tg submitResp fmi w).sleep svc.GetStatusCheckInterval)
    obtain ⟨k1, k2, k3, k4⟩ := pollEvent_kind svc tg submitResp fmi w true
    simp only [statusCalls, sampleInfoCalls, sleepCalls, ← List.countP_eq_length_filter]
      at h1 h2 h3 ⊢
    refine ⟨?_, ?_, ?_, ?_⟩
    · simp only [unfinishedPolls, List.countP_cons, h1, k1]
      cases svc.StatusEndpointExists <;> simp [Action.isStatusCall]
    · simp only [unfinishedPolls, List.countP_cons, h2, k2]
      cases svc.StatusEndpointExists <;> simp [Action.isSampleInfoCall]
    · simp only [unfinishedPolls, List.countP_cons, h3, k3]
      simp [Action.isSleep]
    · intro e he
      simp only [unfinishedPolls, List.mem_cons] at he
      rcases he with he | he | he
      · rw [he]; exact k4
      · rw [he]; rfl
      · exact h4 e he

theorem submitAndPoll_first_finished {σ : Type} (cfg : AppConfig) (svc : Service σ)
    (tg : Target) (fmi : FileMetaInfo) (w : World σ) (submitResp : SubmitResponse) (n : Nat)
    (hsub : (submitCall svc tg w).result = .ok submitResp)
    (hex : submitResp.SubmissionExists = true)
    (hunf : ∀ i, i < n →
      pollAnswer svc tg submitResp fmi
        (pollWorld svc tg submitResp fmi i (w.after (submitCall svc tg w))) = .ok false)
    (hfin : pollAnswer svc tg submitResp fmi
      (pollWorld svc tg submitResp fmi n (w.after (submitCall svc tg w))) = .ok true)
    (hdl : (pollWorld svc tg submitResp fmi n (w.after (submitCall svc tg w))).clock <
      (w.after (submitCall svc tg w)).clock + svc.GetStatusCheckTimeout)
    (fuel : Nat) (hfuel : n + 1 ≤ fuel) :
    submitAndPoll fuel cfg svc tg fmi w =
      some { exit := (finalize cfg svc tg submitResp fmi true
                 (polledSample svc tg submitResp fmi none
                   (pollWorld svc tg submitResp fmi n (w.after (submitCall svc tg w))))
                 (afterPoll svc tg submitResp fmi
                   (pollWorld svc tg submitResp fmi n (w.after (submitCall svc tg w))))).exit
             trace := ⟨w.clock, submitAct tg true⟩ ::
               ((unfinishedPolls svc tg submitResp fmi n (w.after (submitCall svc tg w)) ++
                 [pollEvent svc tg submitResp fmi
                   (pollWorld svc tg submitResp fmi n (w.after (submitCall svc tg w))) true]) ++
                (finalize cfg svc tg submitResp fmi true
                 (polledSample svc tg submitResp fmi none
                   (pollWorld svc tg submitResp fmi n (w.after (submitCall svc tg w))))
                 (afterPoll svc tg submitResp fmi
                   (pollWorld svc tg submitResp fmi n (w.after (submitCall svc tg w))))).trace)
             world := (finalize cfg svc tg submitResp fmi true
                 (polledSample svc tg submitResp fmi none
                   (pollWorld svc tg submitResp fmi n (w.after (submitCall svc tg w))))
                 (afterPoll svc tg submitResp fmi
                   (pollWorld svc tg submitResp fmi n (w.after (submitCall svc tg w))))).world } := by
  have hl := pollLoop_first_finished cfg svc tg submitResp fmi
    ((w.after (submitCall svc tg w)).clock + svc.GetStatusCheckTimeout) n fuel none
    (w.after (submitCall svc tg w)) hfuel hunf hfin hdl
  simp only [submitAndPoll, hsub, hex, hl]
  simp

theorem ToICAPEGResp_remote_run {σ : Type} (fuel : Nat) (cfg : AppConfig) (env : Env σ)
    (w : World σ) (req : ICAPRequest) (svc : Service σ) (st : Stage SampleInfo σ)
    (hm : req.Method = "RESPMOD")
    (hallow : ∃ vs, req.Header.lookup "Allow" = some ("204" :: vs))
    (hremote : cfg.RemoteICAP = "") (hvendor : ToLower cfg.RespScannerVendor ≠ "")
    (hgate : extensionGate (env.GetMimeExtension req.Preview) cfg.ProcessExtensions
      cfg.BypassExtensions = false)
    (herr : req.ResponseBody.err = none)
    (hsize : (req.ResponseBody.length : Int) ≤ cfg.MaxFileSize)
    (hlocal : env.IsServiceLocal (ToLower cfg.RespScannerVendor) = false)
    (hsvc : env.GetService (ToLower cfg.RespScannerVendor) = some svc)
    (hresp : svc.RespSupported = true)
    (hst : submitAndPoll fuel cfg svc
      (.File (ioCopy [] req.ResponseBody.chunks) (env.GetFileName req.Request))
      { FileName := env.GetFileName req.Request, FileType := env.GetFileExtension req.Request,
        FileSize := req.ResponseBody.length } w = some st) :
    ToICAPEGResp fuel cfg env w req =
      some { outcome :=
               match st.exit with
               | .error code => writeHeader (baseHeader env) code
               | .ok sampleInfo =>
                 respVerdict env req (baseHeader env) (ToLower cfg.RespScannerVendor)
                   svc.GetOkFileStatus sampleInfo
             trace := ⟨w.clock, .Copy req.ResponseBody.length true⟩ ::
               ⟨w.clock, .IsServiceLocal (ToLower cfg.RespScannerVendor)⟩ ::
               ⟨w.clock, .GetService (ToLower cfg.RespScannerVendor)⟩ :: st.trace
             world := st.world } := by
  have hlen : (ioCopy [] req.ResponseBody.chunks).length = req.ResponseBody.length := by
    simp [ioCopy_length, BodyReader.length]
  rw [ToICAPEGResp_reaches_body fuel cfg env w req hm hallow hremote hvendor hgate]
  simp only [respBody, herr]
  rw [if_neg (by rw [hlen]; simpa using hsize)]
  cases hexit : st.exit with
  | error code => simp [Run.after, respScan, hlocal, hsvc, hresp, hst, hexit, hlen]
  | ok sampleInfo => simp [Run.after, respScan, hlocal, hsvc, hresp, hst, hexit, hlen]

theorem ToICAPEGReq_remote_run {σ : Type} (fuel : Nat) (cfg : AppConfig) (env : Env σ)
    (w : World σ) (req : ICAPRequest) (svc : Service σ) (st : Stage SampleInfo σ)
    (hm : req.Method = "REQMOD")
    (hallow : ∃ vs, req.Header.lookup "Allow" = some ("204" :: vs))
    (hremote : cfg.RemoteICAP = "") (hvendor : ToLower cfg.ReqScannerVendor ≠ "")
    (hgate : extensionGate (if env.GetFileExtension req.Request = "" then "html"
        else env.GetFileExtension req.Request) cfg.ProcessExtensions
      cfg.BypassExtensions = false)
    (hsvc : env.GetService (ToLower cfg.ReqScannerVendor) = some svc)
    (hreq : svc.ReqSupported = true)
    (hst : submitAndPoll fuel cfg svc
      (.URL req.Request.RequestURI (env.GetFileName req.Request))
      { FileName := env.GetFileName req.Request, FileType := env.GetFileExtension req.Request,
        FileSize := 0 } w = some st) :
    ToICAPEGReq fuel cfg env w req =
      some { outcome :=
               match st.exit with
               | .error code => writeHeader (baseHeader env) code
               | .ok sampleInfo =>
                 reqVerdict cfg env req (baseHeader env) (ToLower cfg.ReqScannerVendor)
                   svc.GetOkFileStatus sampleInfo
             trace := ⟨w.clock, .GetService (ToLower cfg.ReqScannerVendor)⟩ :: st.trace
             world := st.world } := by
  simp only [ToICAPEGReq, reqmod, reqGate, hm, ICAPModeOptions, ICAPModeReq,
    allowScreen_of_204 _ hallow, hremote, hvendor, hgate]
  cases hexit : st.exit with
  | error code => simp [reqScan, hsvc, hreq, hst, hexit]
  | ok sampleInfo => simp [reqScan, hsvc, hreq, hst, hexit]

theorem finalize_fetch {σ : Type} (cfg : AppConfig) (svc : Service σ) (tg : Target)
    (submitResp : SubmitResponse) (fmi : FileMetaInfo) (w : World σ) :
    (∀ info, (infoCall svc tg w submitResp.SubmissionSampleID fmi).result = .ok info →
      finalize cfg svc tg submitResp fmi true none w =
        { exit := .ok info
          trace := [⟨w.clock, infoAct tg submitResp.SubmissionSampleID fmi true⟩,
                    ⟨(w.after (infoCall svc tg w submitResp.SubmissionSampleID fmi)).clock,
                      .DumpResult info⟩]
          world := w.after (infoCall svc tg w submitResp.SubmissionSampleID fmi) }) ∧
    (∀ err, (infoCall svc tg w submitResp.SubmissionSampleID fmi).result = .error err →
      finalize cfg svc tg submitResp fmi true none w =
        { exit := .error (IfPropagateError cfg 424 204)
          trace := [⟨w.clock, infoAct tg submitResp.SubmissionSampleID fmi false⟩]
          world := w.after (infoCall svc tg w submitResp.SubmissionSampleID fmi) }) := by
  constructor
  · intro info h
    simp [finalize, h]
  · intro err h
    simp [finalize, h]

theorem finalize_reuse {σ : Type} (cfg : AppConfig) (svc : Service σ) (tg : Target)
    (submitResp : SubmitResponse) (fmi : FileMetaInfo) (w : World σ) (info : SampleInfo) :
    finalize cfg svc tg submitResp fmi true (some info) w =
      { exit := .ok info, trace := [⟨w.clock, .DumpResult info⟩], world := w } := by
  simp [finalize]

theorem dump_kind (info : SampleInfo) :
    (Action.DumpResult info).isStatusCall = false ∧
      (Action.DumpResult info).isSampleInfoCall = false ∧
      (Action.DumpResult info).isSleep = false :=
  ⟨rfl, rfl, rfl⟩

theorem firstFinished_trace_counts {σ : Type} (svc : Service σ) (tg : Target)
    (submitResp : SubmitResponse) (fmi : FileMetaInfo) (n : Nat) (w1 wk : World σ) (t0 : Int)
    (ft : List Event) :
    statusCalls (⟨t0, submitAct tg true⟩ ::
        ((unfinishedPolls svc tg submitResp fmi n w1 ++
          [pollEvent svc tg submitResp fmi wk true]) ++ ft)) =
      (if svc.StatusEndpointExists then n + 1 else 0) + statusCalls ft ∧
    sampleInfoCalls (⟨t0, submitAct tg true⟩ ::
        ((unfinishedPolls svc tg submitResp fmi n w1 ++
          [pollEvent svc tg submitResp fmi wk true]) ++ ft)) =
      (if svc.StatusEndpointExists then 0 else n + 1) + sampleInfoCalls ft ∧
    sleepCalls (⟨t0, submitAct tg true⟩ ::
        ((unfinishedPolls svc tg submitResp fmi n w1 ++
          [pollEvent svc tg submitResp fmi wk true]) ++ ft)) = n + sleepCalls ft ∧
    ((∀ e ∈ ft, e.act.pollsWith submitResp.SubmissionID submitResp.SubmissionSampleID = true) →
      ∀ e ∈ (⟨t0, submitAct tg true⟩ ::
        ((unfinishedPolls svc tg submitResp fmi n w1 ++
          [pollEvent svc tg submitResp fmi wk true]) ++ ft) : List Event),
        e.act.pollsWith submitResp.SubmissionID submitResp.SubmissionSampleID = true) := by
  obtain ⟨c1, c2, c3, c4⟩ := unfinishedPolls_counts svc tg submitResp fmi n w1
  obtain ⟨k1, k2, k3, k4⟩ := pollEvent_kind svc tg submitResp fmi wk true
  obtain ⟨s1, s2, s3, s4⟩ := submitAct_not_poll tg true
  simp only [statusCalls, sampleInfoCalls, sleepCalls, ← List.countP_eq_length_filter]
    at c1 c2 c3 ⊢
  refine ⟨?_, ?_, ?_, ?_⟩
  · simp only [List.countP_cons, List.countP_append, List.countP_nil, s1, c1, k1]
    cases svc.StatusEndpointExists <;> simp
  · simp only [List.countP_cons, List.countP_append, List.countP_nil, s2, c2, k2]
    cases svc.StatusEndpointExists <;> simp
  · simp only [List.countP_cons, List.countP_append, List.countP_nil, s3, c3, k3]
    simp
  · intro hft e he
    simp only [List.mem_cons, List.mem_append, List.mem_singleton, List.not_mem_nil,
      or_false] at he
    rcases he with he | (he | he) | he
    · rw [he]; exact s4 _ _
    · exact c4 e he
    · rw [he]; exact k4
    · exact hft e he

/-- C11: in every remote scan in which the polls number 1 to `n` answer `not
finished`, poll number `n + 1` is the first to report finished and is issued
before the deadline, every fuel from `n + 1` on gives a run of submit, poll and
finalize with exactly `n` sleeps, none of them after the last poll, and with
every status call taking the handle's submission id and every sample-info call
the handle's sample id.  With a status endpoint the run makes exactly `n + 1`
status calls followed by exactly one sample-info call, whose sample, when the
call succeeds, is the verdict sample; without a status endpoint it makes
exactly `n + 1` sample-info calls and no status call, and the sample of the
last one is the verdict sample, with no further fetch.  Each handler turns that
run into its answer: the trace of RESPMOD or REQMOD is the resolution prefix
followed by this trace, and the verdict is taken on this sample. -/
theorem C11_first_finished_poll {σ : Type} (cfg : AppConfig) (svc : Service σ) (tg : Target)
    (fmi : FileMetaInfo) (w : World σ) (submitResp : SubmitResponse) (n : Nat)
    (w1 wk wf : World σ)
    (hw1 : w1 = w.after (submitCall svc tg w))
    (hwk : wk = pollWorld svc tg submitResp fmi n w1)
    (hwf : wf = afterPoll svc tg submitResp fmi wk)
    (hsub : (submitCall svc tg w).result = .ok submitResp)
    (hex : submitResp.SubmissionExists = true)
    (hunf : ∀ i, i < n →
      pollAnswer svc tg submitResp fmi (pollWorld svc tg submitResp fmi i w1) = .ok false)
    (hfin : pollAnswer svc tg submitResp fmi wk = .ok true)
    (hdl : wk.clock < w1.clock + svc.GetStatusCheckTimeout)
    (fuel : Nat) (hfuel : n + 1 ≤ fuel) :
    ∃ st, submitAndPoll fuel cfg svc tg fmi w = some st ∧
      sleepCalls st.trace = n ∧
      (∀ e ∈ st.trace,
        e.act.pollsWith submitResp.SubmissionID submitResp.SubmissionSampleID = true) ∧
      (svc.StatusEndpointExists = true →
        statusCalls st.trace = n + 1 ∧ sampleInfoCalls st.trace = 1 ∧
        (∀ info, (infoCall svc tg wf submitResp.SubmissionSampleID fmi).result = .ok info →
          st.exit = .ok info ∧
          st.trace = ⟨w.clock, submitAct tg true⟩ ::
            (unfinishedPolls svc tg submitResp fmi n w1 ++
              [⟨wk.clock, .GetSubmissionStatus submitResp.SubmissionID true⟩,
               ⟨wf.clock, infoAct tg submitResp.SubmissionSampleID fmi true⟩,
               ⟨(wf.after (infoCall svc tg wf submitResp.SubmissionSampleID fmi)).clock,
                 .DumpResult info⟩])) ∧
        (∀ err, (infoCall svc tg wf submitResp.SubmissionSampleID fmi).result = .error err →
          st.exit = .error (IfPropagateError cfg 424 204) ∧
          st.trace = ⟨w.clock, submitAct tg true⟩ ::
            (unfinishedPolls svc tg submitResp fmi n w1 ++
              [⟨wk.clock, .GetSubmissionStatus submitResp.SubmissionID true⟩,
               ⟨wf.clock, infoAct tg submitResp.SubmissionSampleID fmi false⟩]))) ∧
      (svc.StatusEndpointExists = false →
        statusCalls st.trace = 0 ∧ sampleInfoCalls st.trace = n + 1 ∧
        ∃ info, (infoCall svc tg wk submitResp.SubmissionSampleID fmi).result = .ok info ∧
          st.exit = .ok info ∧
          st.trace = ⟨w.clock, submitAct tg true⟩ ::
            (unfinishedPolls svc tg submitResp fmi n w1 ++
              [⟨wk.clock, infoAct tg submitResp.SubmissionSampleID fmi true⟩,
               ⟨wf.clock, .DumpResult info⟩])) ∧
      (∀ (env : Env σ) (req : ICAPRequest), req.Method = "RESPMOD" →
        (∃ vs, req.Header.lookup "Allow" = some ("204" :: vs)) →
        cfg.RemoteICAP = "" → ToLower cfg.RespScannerVendor ≠ "" →
        extensionGate (env.GetMimeExtension req.Preview) cfg.ProcessExtensions
          cfg.BypassExtensions = false →
        req.ResponseBody.err = none → (req.ResponseBody.length : Int) ≤ cfg.MaxFileSize →
        env.IsServiceLocal (ToLower cfg.RespScannerVendor) = false →
        env.GetService (ToLower cfg.RespScannerVendor) = some svc → svc.RespSupported = true →
        tg = .File (ioCopy [] req.ResponseBody.chunks) (env.GetFileName req.Request) →
        fmi = { FileName := env.GetFileName req.Request,
                FileType := env.GetFileExtension req.Request,
                FileSize := req.ResponseBody.length } →
        ToICAPEGResp fuel cfg env w req =
          some { outcome :=
                   match st.exit with
                   | .error code => writeHeader (baseHeader env) code
                   | .ok sampleInfo =>
                     respVerdict env req (baseHeader env) (ToLower cfg.RespScannerVendor)
                       svc.GetOkFileStatus sampleInfo
                 trace := ⟨w.clock, .Copy req.ResponseBody.length true⟩ ::
                   ⟨w.clock, .IsServiceLocal (ToLower cfg.RespScannerVendor)⟩ ::
                   ⟨w.clock, .GetService (ToLower cfg.RespScannerVendor)⟩ :: st.trace
                 world := st.world }) ∧
      (∀ (env : Env σ) (req : ICAPRequest), req.Method = "REQMOD" →
        (∃ vs, req.Header.lookup "Allow" = some ("204" :: vs)) →
        cfg.RemoteICAP = "" → ToLower cfg.ReqScannerVendor ≠ "" →
        extensionGate (if env.GetFileExtension req.Request = "" then "html"
            else env.GetFileExtension req.Request) cfg.ProcessExtensions
          cfg.BypassExtensions = false →
        env.GetService (ToLower cfg.ReqScannerVendor) = some svc → svc.ReqSupported = true →
        tg = .URL req.Request.RequestURI (env.GetFileName req.Request) →
        fmi = { FileName := env.GetFileName req.Request,
                FileType := env.GetFileExtension req.Request, FileSize := 0 } →
        ToICAPEGReq fuel cfg env w req =
          some { outcome :=
                   match st.exit with
                   | .error code => writeHeader (baseHeader env) code
                   | .ok sampleInfo =>
                     reqVerdict cfg env req (baseHeader env) (ToLower cfg.ReqScannerVendor)
                       svc.GetOkFileStatus sampleInfo
                 trace := ⟨w.clock, .GetService (ToLower cfg.ReqScannerVendor)⟩ :: st.trace
                 world := st.world }) := by
  subst hw1 hwk hwf
  have hst := submitAndPoll_first_finished cfg svc tg fmi w submitResp n hsub hex hunf hfin hdl
    fuel hfuel
  have hlinks : ∀ st : Stage SampleInfo σ, submitAndPoll fuel cfg svc tg fmi w = some st →
      (∀ (env : Env σ) (req : ICAPRequest), req.Method = "RESPMOD" →
        (∃ vs, req.Header.lookup "Allow" = some ("204" :: vs)) →
        cfg.RemoteICAP = "" → ToLower cfg.RespScannerVendor ≠ "" →
        extensionGate (env.GetMimeExtension req.Preview) cfg.ProcessExtensions
          cfg.BypassExtensions = false →
        req.ResponseBody.err = none → (req.ResponseBody.length : Int) ≤ cfg.MaxFileSize →
        env.IsServiceLocal (ToLower cfg.RespScannerVendor) = false →
        env.GetService (ToLower cfg.RespScannerVendor) = some svc → svc.RespSupported = true →
        tg = .File (ioCopy [] req.ResponseBody.chunks) (env.GetFileName req.Request) →
        fmi = { FileName := env.GetFileName req.Request,
                FileType := env.GetFileExtension req.Request,
                FileSize := req.ResponseBody.length } →
        ToICAPEGResp fuel cfg env w req =
          some { outcome :=
                   match st.exit with
                   | .error code => writeHeader (baseHeader env) code
                   | .ok sampleInfo =>
                     respVerdict env req (baseHeader env) (ToLower cfg.RespScannerVendor)
                       svc.GetOkFileStatus sampleInfo
                 trace := ⟨w.clock, .Copy req.ResponseBody.length true⟩ ::
                   ⟨w.clock, .IsServiceLocal (ToLower cfg.RespScannerVendor)⟩ ::
                   ⟨w.clock, .GetService (ToLower cfg.RespScannerVendor)⟩ :: st.trace
                 world := st.world }) ∧
      (∀ (env : Env σ) (req : ICAPRequest), req.Method = "REQMOD" →
        (∃ vs, req.Header.lookup "Allow" = some ("204" :: vs)) →
        cfg.RemoteICAP = "" → ToLower cfg.ReqScannerVendor ≠ "" →
        extensionGate (if env.GetFileExtension req.Request = "" then "html"
            else env.GetFileExtension req.Request) cfg.ProcessExtensions
          cfg.BypassExtensions = false →
        env.GetService (ToLower cfg.ReqScannerVendor) = some svc → svc.ReqSupported = true →
        tg = .URL req.Request.RequestURI (env.GetFileName req.Request) →
        fmi = { FileName := env.GetFileName req.Request,
                FileType := env.GetFileExtension req.Request, FileSize := 0 } →
        ToICAPEGReq fuel cfg env w req =
          some { outcome :=
                   match st.exit with
                   | .error code => writeHeader (baseHeader env) code
                   | .ok sampleInfo =>
                     reqVerdict cfg env req (baseHeader env) (ToLower cfg.ReqScannerVendor)
                       svc.GetOkFileStatus sampleInfo
                 trace := ⟨w.clock, .GetService (ToLower cfg.ReqScannerVendor)⟩ :: st.trace
                 world := st.world }) := by
    intro st hs
    constructor
    · intro env req hm hallow hremote hvendor hgate herr hsize hlocal hsvc hresp htg hfmi
      subst htg hfmi
      exact ToICAPEGResp_remote_run fuel cfg env w req svc st hm hallow hremote hvendor hgate
        herr hsize hlocal hsvc hresp hs
    · intro env req hm hallow hremote hvendor hgate hsvc hreq htg hfmi
      subst htg hfmi
      exact ToICAPEGReq_remote_run fuel cfg env w req svc st hm hallow hremote hvendor hgate
        hsvc hreq hs
  cases hse : svc.StatusEndpointExists with
  | true =>
    have hp : polledSample svc tg submitResp fmi none
        (pollWorld svc tg submitResp fmi n (w.after (submitCall svc tg w))) = none := by
      simp [polledSample, hse]
    have hpe : pollEvent svc tg submitResp fmi
        (pollWorld svc tg submitResp fmi n (w.after (submitCall svc tg w))) true =
        ⟨(pollWorld svc tg submitResp fmi n (w.after (submitCall svc tg w))).clock,
          .GetSubmissionStatus submitResp.SubmissionID true⟩ := by
      simp [pollEvent, hse]
    rw [hp] at hst
    obtain ⟨i1, i2, i3, i4⟩ := infoAct_kind tg submitResp.SubmissionSampleID fmi true
    obtain ⟨j1, j2, j3, j4⟩ := infoAct_kind tg submitResp.SubmissionSampleID fmi false
    cases hr : (infoCall svc tg (afterPoll svc tg submitResp fmi
        (pollWorld svc tg submitResp fmi n (w.after (submitCall svc tg w))))
        submitResp.SubmissionSampleID fmi).result with
    | ok info =>
      rw [(finalize_fetch cfg svc tg submitResp fmi _).1 info hr] at hst
      obtain ⟨d1, d2, d3⟩ := dump_kind info
      obtain ⟨t1, t2, t3, t4⟩ := firstFinished_trace_counts svc tg submitResp fmi n
        (w.after (submitCall svc tg w))
        (pollWorld svc tg submitResp fmi n (w.after (submitCall svc tg w))) w.clock
        [⟨(afterPoll svc tg submitResp fmi
            (pollWorld svc tg submitResp fmi n (w.after (submitCall svc tg w)))).clock,
            infoAct tg submitResp.SubmissionSampleID fmi true⟩,
         ⟨((afterPoll svc tg submitResp fmi
            (pollWorld svc tg submitResp fmi n (w.after (submitCall svc tg w)))).after
            (infoCall svc tg (afterPoll svc tg submitResp fmi
              (pollWorld svc tg submitResp fmi n (w.after (submitCall svc tg w))))
              submitResp.SubmissionSampleID fmi)).clock, .DumpResult info⟩]
      refine ⟨_, hst, ?_, ?_, ?_, ?_, hlinks _ hst⟩
      · rw [t3]
        simp only [sleepCalls, ← List.countP_eq_length_filter, List.countP_cons,
          List.countP_nil, i3, d3]
        simp
      · exact t4 (by
          intro e he
          simp only [List.mem_cons, List.mem_singleton, List.not_mem_nil, or_false] at he
          rcases he with he | he
          · rw [he]; exact i4 _
          · rw [he]; rfl)
      · intro _
        refine ⟨?_, ?_, ?_, ?_⟩
        · rw [t1]
          simp only [statusCalls, ← List.countP_eq_length_filter, List.countP_cons,
            List.countP_nil, i1, d1]
          simp [hse]
        · rw [t2]
          simp only [sampleInfoCalls, ← List.countP_eq_length_filter, List.countP_cons,
            List.countP_nil, i2, d2]
          simp [hse]
        · intro info1 h1
          cases h1
          exact ⟨rfl, by simp [hpe]⟩
        · intro err h1
          cases h1
      · intro h; cases h
    | error err =>
      rw [(finalize_fetch cfg svc tg submitResp fmi _).2 err hr] at hst
      obtain ⟨t1, t2, t3, t4⟩ := firstFinished_trace_counts svc tg submitResp fmi n
        (w.after (submitCall svc tg w))
        (pollWorld svc tg submitResp fmi n (w.after (submitCall svc tg w))) w.clock
        [⟨(afterPoll svc tg submitResp fmi
            (pollWorld svc tg submitResp fmi n (w.after (submitCall svc tg w)))).clock,
            infoAct tg submitResp.SubmissionSampleID fmi false⟩]
      refine ⟨_, hst, ?_, ?_, ?_, ?_, hlinks _ hst⟩
      · rw [t3]
        simp only [sleepCalls, ← List.countP_eq_length_filter, List.countP_cons,
          List.countP_nil, j3]
        simp
      · exact t4 (by
          intro e he
          simp only [List.mem_singleton] at he
          rw [he]; exact j4 _)
      · intro _
        refine ⟨?_, ?_, ?_, ?_⟩
        · rw [t1]
          simp only [statusCalls, ← List.countP_eq_length_filter, List.countP_cons,
            List.countP_nil, j1]
          simp [hse]
        · rw [t2]
          simp only [sampleInfoCalls, ← List.countP_eq_length_filter, List.countP_cons,
            List.countP_nil, j2]
          simp [hse]
        · intro info1 h1
          cases h1
        · intro err1 h1
          exact ⟨rfl, by simp [hpe]⟩
      · intro h; cases h
  | false =>
    have hfin1 := hfin
    simp only [pollAnswer, hse, Bool.false_eq_true, if_false] at hfin1
    cases hr : (infoCall svc tg (pollWorld svc tg submitResp fmi n
        (w.after (submitCall svc tg w))) submitResp.SubmissionSampleID fmi).result with
    | error err => simp [hr, Except.map] at hfin1
    | ok info =>
      have hp : polledSample svc tg submitResp fmi none
          (pollWorld svc tg submitResp fmi n (w.after (submitCall svc tg w))) = some info := by
        simp [polledSample, hse, hr]
      have hpe : pollEvent svc tg submitResp fmi
          (pollWorld svc tg submitResp fmi n (w.after (submitCall svc tg w))) true =
          ⟨(pollWorld svc tg submitResp fmi n (w.after (submitCall svc tg w))).clock,
            infoAct tg submitResp.SubmissionSampleID fmi true⟩ := by
        simp [pollEvent, hse]
      rw [hp, finalize_reuse] at hst
      obtain ⟨d1, d2, d3⟩ := dump_kind info
      obtain ⟨t1, t2, t3, t4⟩ := firstFinished_trace_counts svc tg submitResp fmi n
        (w.after (submitCall svc tg w))
        (pollWorld svc tg submitResp fmi n (w.after (submitCall svc tg w))) w.clock
        [⟨(afterPoll svc tg submitResp fmi
            (pollWorld svc tg submitResp fmi n (w.after (submitCall svc tg w)))).clock,
            .DumpResult info⟩]
      refine ⟨_, hst, ?_, ?_, ?_, ?_, hlinks _ hst⟩
      · rw [t3]
        simp only [sleepCalls, ← List.countP_eq_length_filter, List.countP_cons,
          List.countP_nil, d3]
        simp
      · exact t4 (by
          intro e he
          simp only [List.mem_singleton] at he
          rw [he]; rfl)
      · intro h; cases h
      · intro _
        refine ⟨?_, ?_, info, rfl, rfl, by simp [hpe]⟩
        · rw [t1]
          simp only [statusCalls, ← List.countP_eq_length_filter, List.countP_cons,
            List.countP_nil, d1]
          simp [hse]
        · rw [t2]
          simp only [sampleInfoCalls, ← List.countP_eq_length_filter, List.countP_cons,
            List.countP_nil, d2]
          simp [hse]

/-- The scan of `thirdPollScanner` (third status call finished, then one
sample-info call) and the scan of `secondInfoScanner` (second sample-info call
finished, no further fetch), and the RESPMOD run of the former: block page
after three status calls, two sleeps and one sample-info call. -/
theorem C11_first_finished_poll_witness :
    (∃ st, submitAndPoll 3 (demoCfg "VirusTotal" 10 true) thirdPollScanner
          (.File [1, 2, 3] "y.exe") ⟨"y.exe", "exe", 3⟩ ⟨0, 0⟩ = some st ∧
        sleepCalls st.trace = 2 ∧ statusCalls st.trace = 2 + 1 ∧ sampleInfoCalls st.trace = 1 ∧
        st.exit = .ok (sampleOf "malicious")) ∧
    (∃ st, submitAndPoll 2 (demoCfg "VirusTotal" 10 true) secondInfoScanner
          (.URL "http://x/y.exe" "y.exe") ⟨"y.exe", "exe", 0⟩ ⟨0, 0⟩ = some st ∧
        sleepCalls st.trace = 1 ∧ statusCalls st.trace = 0 ∧ sampleInfoCalls st.trace = 1 + 1) ∧
    (ToICAPEGResp 3 (demoCfg "VirusTotal" 10 true) (demoEnv brokenLocalScanner thirdPollScanner)
        ⟨0, 0⟩ (demoReq "RESPMOD" [("Allow", ["204"])] [[1, 2, 3]])).map
          (fun r => (r.outcome, r.trace)) =
      some (.Written { Header := [("Service", "Egirna ICAP-EG"), ("Istag", "ICAPEG")],
                       Code := 200,
                       HTTPMessage := some { StatusCode := 200, Body := [] },
                       HasBody := true,
                       Body := [1, 1, 1, 1, 1, 1, 1, 1, 1] },
            [⟨0, .Copy 3 true⟩, ⟨0, .IsServiceLocal "virustotal"⟩,
             ⟨0, .GetService "virustotal"⟩, ⟨0, .SubmitFile [1, 2, 3] "y.exe" true⟩,
             ⟨0, .GetSubmissionStatus "5651578" true⟩, ⟨7, .Sleep 500⟩,
             ⟨507, .GetSubmissionStatus "5651578" true⟩, ⟨514, .Sleep 500⟩,
             ⟨1014, .GetSubmissionStatus "5651578" true⟩,
             ⟨1021, .GetSampleFileInfo "4715575" ⟨"y.exe", "exe", 3⟩ true⟩,
             ⟨1028, .DumpResult (sampleOf "malicious")⟩]) :=
  ⟨match C11_first_finished_poll (demoCfg "VirusTotal" 10 true) thirdPollScanner
        (.File [1, 2, 3] "y.exe") ⟨"y.exe", "exe", 3⟩ ⟨0, 0⟩ acceptedSubmission 2
        ⟨0, 0⟩ ⟨1014, 2⟩ ⟨1021, 3⟩ rfl rfl rfl rfl rfl
        (fun i hi => by interval_cases i <;> rfl) rfl (by decide) 3 (by decide) with
    | ⟨st, h1, h2, _, hse, _, _, _⟩ =>
      ⟨st, h1, h2, (hse rfl).1, (hse rfl).2.1,
        ((hse rfl).2.2.1 (sampleOf "malicious") rfl).1⟩,
   match C11_first_finished_poll (demoCfg "VirusTotal" 10 true) secondInfoScanner
        (.URL "http://x/y.exe" "y.exe") ⟨"y.exe", "exe", 0⟩ ⟨0, 0⟩ acceptedSubmission 1
        ⟨0, 0⟩ ⟨507, 1⟩ ⟨514, 2⟩ rfl rfl rfl rfl rfl
        (fun i hi => by interval_cases i; rfl) rfl (by decide) 2 (by decide) with
    | ⟨st, h1, h2, _, _, hnose, _, _⟩ => ⟨st, h1, h2, (hnose rfl).1, (hnose rfl).2.1⟩,
   by decide⟩

end api
